import Mathlib

/-!
# UART connector (`src/cxxrtl/UartConnector.{h,cc}`) and firmware (`src/rv/shrimprw.c`)

A shallow embedding of the software UART that the simulation harness uses to
talk to the design: a transmitter and a receiver state machine advanced
together by `UartConnector.tick`. The firmware the harness talks to is embedded
in the namespace `Firmware`, as a function of the values its loads from the
UART register return.

Machine integers are natural numbers with the wrap-around of their C++ type
written out (`% 2^32` for the timers, `% 2^16` for the shift registers,
`% 2^8` for the counters and the last byte).
-/

namespace Sae

/-- Build parameters the source leaves to the toolchain: `DIVISOR` is
`CLOCK_HZ / 115200` (a `const uint32_t`; `CLOCK_HZ` is a compiler-supplied
macro), and `charSigned` says whether plain `char` is signed on the target
(it decides what `(uint16_t)_tx_buffer[0]` is for bytes `>= 0x80`). -/
structure Config where
  DIVISOR : Nat
  charSigned : Bool
  deriving DecidableEq, Repr

/-- The `UartConnector::result` enumeration of `UartConnector.h`. -/
inductive result where
  | NOP
  | RECEIVED
  deriving DecidableEq, Repr

/-- The anonymous receiver-state enumeration of `UartConnector.h`. -/
inductive RxState where
  | RX_IDLE
  | RX_BIT
  deriving DecidableEq, Repr

/-- The anonymous transmitter-state enumeration of `UartConnector.h`. -/
inductive TxState where
  | TX_IDLE
  | TX_BIT
  deriving DecidableEq, Repr

/-- The text `tick` sends to `std::cerr` when a frame fails validation. -/
def errLine : String := "UartConnector ERR"

/-- The members of `class UartConnector`, with the line `_tx` refers to held
by value (the connector is its only writer). The line `_rx` refers to is
driven from outside and is an argument of `tick`. `cerr` is the text written
to `std::cerr` so far, one entry per line. -/
structure UartConnector where
  _tx : Bool
  _last_byte : Nat
  _rx_state : RxState
  _rx_timer : Nat
  _rx_sr : Nat
  _rx_counter : Nat
  _tx_state : TxState
  _tx_buffer : List (Fin 256)
  _tx_timer : Nat
  _tx_sr : Nat
  _tx_counter : Nat
  cerr : List String
  deriving DecidableEq, Repr

/-- The constructor `UartConnector::UartConnector`: it initialises the two
state members, default-constructs the (empty) buffer and drives the transmit
line high. Every other member is left uninitialised, so it keeps whatever
`mem` holds. -/
def UartConnector.new (mem : UartConnector) : UartConnector :=
  { mem with
    _rx_state := RxState.RX_IDLE
    _tx_state := TxState.TX_IDLE
    _tx_buffer := []
    _tx := true }

/-- The method `UartConnector::tx` (`_tx_buffer = b;`). -/
def UartConnector.tx (s : UartConnector) (b : List (Fin 256)) : UartConnector :=
  { s with _tx_buffer := b }

/-- The conversion `(uint16_t)c` of a `char` holding the byte `c`. -/
def charToU16 (cfg : Config) (c : Fin 256) : Nat :=
  if cfg.charSigned && decide (128 ≤ c.val) then c.val + 0xFF00 else c.val

/-- The pre-decrement `--t` of a `uint32_t`. -/
def dec32 (t : Nat) : Nat := (t + (2 ^ 32 - 1)) % 2 ^ 32

/-- The pre-increment `++c` of a `uint8_t`. -/
def inc8 (c : Nat) : Nat := (c + 1) % 2 ^ 8

/-- The bit reversal of lines 70-78 of `UartConnector.cc`. -/
def reverse8 (x : Nat) : Nat :=
  (x &&& 0x80) >>> 7 |||
  (x &&& 0x40) >>> 5 |||
  (x &&& 0x20) >>> 3 |||
  (x &&& 0x10) >>> 1 |||
  (x &&& 0x08) <<< 1 |||
  (x &&& 0x04) <<< 3 |||
  (x &&& 0x02) <<< 5 |||
  (x &&& 0x01) <<< 7

/-- The level of a line as the integer `get<uint16_t>()` returns. -/
def bit (b : Bool) : Nat := if b then 1 else 0

/-- The accumulator update of line 61, `_rx_sr << 1 | _rx.get<uint16_t>()`
stored in a `uint16_t`. -/
def rxShift (sr : Nat) (rx : Bool) : Nat := (sr <<< 1 ||| bit rx) % 2 ^ 16

/-- The test of line 66, `(_rx_sr & 0x200) || !(_rx_sr & 0x1)`: the frame held
in `v` is rejected. -/
def frameBad (v : Nat) : Prop := v &&& 0x200 ≠ 0 ∨ v &&& 0x1 = 0

instance (v : Nat) : Decidable (frameBad v) :=
  inferInstanceAs (Decidable (v &&& 0x200 ≠ 0 ∨ v &&& 0x1 = 0))

/-- The value lines 69-78 leave in `_rx_sr` for an accepted frame `v`. -/
def frameData (v : Nat) : Nat := reverse8 ((v >>> 1) &&& 0xFF)

/-- The byte `(uint8_t)_rx_sr` of line 80 for an accepted frame `v`. -/
def frameByte (v : Nat) : Nat := frameData v % 2 ^ 8

/-- The shift register of line 27, `0x100u | (uint16_t)c` stored in a
`uint16_t`. -/
def txWord (cfg : Config) (c : Fin 256) : Nat := (0x100 ||| charToU16 cfg c) % 2 ^ 16

/-- The first `switch` of `UartConnector::tick` (on `_tx_state`). When the
tenth bit is shifted out the source writes the line twice, `_tx.set(_tx_sr & 1)`
and then `_tx.set(true)`; the state keeps the level of the last write. -/
def UartConnector.tickTx (cfg : Config) (s : UartConnector) : UartConnector :=
  match s._tx_state with
  | TxState.TX_IDLE =>
    match s._tx_buffer with
    | [] => s
    | c :: rest =>
      { s with
        _tx := false
        _tx_state := TxState.TX_BIT
        _tx_timer := cfg.DIVISOR
        _tx_sr := txWord cfg c
        _tx_counter := 0
        _tx_buffer := rest }
  | TxState.TX_BIT =>
    if dec32 s._tx_timer = 0 then
      if inc8 s._tx_counter = 10 then
        { s with
          _tx_timer := cfg.DIVISOR
          _tx := true
          _tx_sr := s._tx_sr >>> 1
          _tx_counter := inc8 s._tx_counter
          _tx_state := TxState.TX_IDLE }
      else
        { s with
          _tx_timer := cfg.DIVISOR
          _tx := decide (s._tx_sr &&& 1 ≠ 0)
          _tx_sr := s._tx_sr >>> 1
          _tx_counter := inc8 s._tx_counter }
    else
      { s with _tx_timer := dec32 s._tx_timer }

/-- The second `switch` of `UartConnector::tick` (on `_rx_state`); `rx` is
the level of the line `_rx` refers to when it is read. -/
def UartConnector.tickRx (cfg : Config) (s : UartConnector) (rx : Bool) :
    UartConnector × result :=
  match s._rx_state with
  | RxState.RX_IDLE =>
    if !rx then
      ({ s with
         _rx_state := RxState.RX_BIT
         _rx_timer := cfg.DIVISOR / 2
         _rx_sr := 0
         _rx_counter := 0 }, result.NOP)
    else
      (s, result.NOP)
  | RxState.RX_BIT =>
    if dec32 s._rx_timer = 0 then
      if inc8 s._rx_counter = 10 then
        if frameBad (rxShift s._rx_sr rx) then
          ({ s with
             _rx_timer := cfg.DIVISOR
             _rx_sr := rxShift s._rx_sr rx
             _rx_counter := inc8 s._rx_counter
             _rx_state := RxState.RX_IDLE
             cerr := s.cerr ++ [errLine] }, result.NOP)
        else
          ({ s with
             _rx_timer := cfg.DIVISOR
             _rx_sr := frameData (rxShift s._rx_sr rx)
             _rx_counter := inc8 s._rx_counter
             _rx_state := RxState.RX_IDLE
             _last_byte := frameByte (rxShift s._rx_sr rx) }, result.RECEIVED)
      else
        ({ s with
           _rx_timer := cfg.DIVISOR
           _rx_sr := rxShift s._rx_sr rx
           _rx_counter := inc8 s._rx_counter }, result.NOP)
    else
      ({ s with _rx_timer := dec32 s._rx_timer }, result.NOP)

/-- The method `UartConnector::tick`, with the receive line at level `rx`. -/
def UartConnector.tick (cfg : Config) (s : UartConnector) (rx : Bool) :
    UartConnector × result :=
  (s.tickTx cfg).tickRx cfg rx

/-- The method `UartConnector::last_byte`. -/
def UartConnector.last_byte (s : UartConnector) : Nat := s._last_byte

/-! ## Driving the connector -/

/-- The connector after ticks `0 .. n-1`, the receive line being at level
`line i` when tick `i` reads it. -/
def run (cfg : Config) (line : Nat → Bool) : Nat → UartConnector → UartConnector
  | 0, s => s
  | n + 1, s => ((run cfg line n s).tick cfg (line n)).1

/-- The value returned by tick number `n` of `run`. -/
def resultAt (cfg : Config) (line : Nat → Bool) (n : Nat) (s : UartConnector) : result :=
  ((run cfg line n s).tick cfg (line n)).2

/-- One `tick` in loopback: the receive line is the transmit line, so the
receiver reads what the transmitter wrote earlier in the same call. -/
def UartConnector.tickLoopback (cfg : Config) (s : UartConnector) :
    UartConnector × result :=
  (s.tickTx cfg).tickRx cfg (s.tickTx cfg)._tx

/-- The connector after `n` loopback ticks. -/
def runLoopback (cfg : Config) : Nat → UartConnector → UartConnector
  | 0, s => s
  | n + 1, s => ((runLoopback cfg n s).tickLoopback cfg).1

/-- The value returned by loopback tick number `n`. -/
def loopbackResultAt (cfg : Config) (n : Nat) (s : UartConnector) : result :=
  ((runLoopback cfg n s).tickLoopback cfg).2

/-- What a driver collects over loopback ticks `0 .. n-1` when it reads
`last_byte()` right after every `RECEIVED` (as `main.cc` does into `recvd`):
the tick number and the byte read, in order. -/
def loopbackEvents (cfg : Config) (n : Nat) (s : UartConnector) : List (Nat × Nat) :=
  (List.range n).filterMap fun i =>
    if loopbackResultAt cfg i s = result.RECEIVED then
      some (i, (runLoopback cfg (i + 1) s).last_byte)
    else none

/-! ## Vocabulary of the proofs -/

/-- The receiver side of a connector: state, timer, accumulator, bit counter,
last decoded byte, and the diagnostics written so far. -/
structure RxIs (s : UartConnector) (st : RxState) (timer sr counter lb : Nat)
    (err : List String) : Prop where
  state : s._rx_state = st
  timer : s._rx_timer = timer
  sr : s._rx_sr = sr
  counter : s._rx_counter = counter
  lb : s._last_byte = lb
  err : s.cerr = err

/-- The transmitter side of a connector: state, timer, shift register, bit
counter, level of the transmit line, and queue. -/
structure TxIs (s : UartConnector) (st : TxState) (timer sr counter : Nat)
    (level : Bool) (queue : List (Fin 256)) : Prop where
  state : s._tx_state = st
  timer : s._tx_timer = timer
  sr : s._tx_sr = sr
  counter : s._tx_counter = counter
  level : s._tx = level
  queue : s._tx_buffer = queue

/-- The receive accumulator after `k` samples `smp 0 .. smp (k-1)`, starting
from zero. -/
def rxAcc (smp : Nat → Bool) : Nat → Nat
  | 0 => 0
  | k + 1 => rxShift (rxAcc smp k) (smp k)

/-- The level the transmitter leaves on the line once it has shifted `q` bits
out of the word `w`: the start bit before the first shift, then bit `q - 1`. -/
def txLevel (w : Nat) : Nat → Bool
  | 0 => false
  | q + 1 => decide ((w >>> q) &&& 1 ≠ 0)

/-- The `k`-th sample of a frame whose start is detected on tick 0: the level
of the line on tick `D / 2 + k * D`. -/
def sampleAt (D : Nat) (line : Nat → Bool) (k : Nat) : Bool := line (D / 2 + k * D)

/-- The accumulator after the ten samples `b0 .. b9`, oldest first. -/
def acc10 (b0 b1 b2 b3 b4 b5 b6 b7 b8 b9 : Bool) : Nat :=
  rxShift (rxShift (rxShift (rxShift (rxShift (rxShift (rxShift (rxShift (rxShift
    (rxShift 0 b0) b1) b2) b3) b4) b5) b6) b7) b8) b9

/-- The level the receiver reads on loopback tick `n`: what the transmitter
half of that tick leaves on the line. -/
def txWave (cfg : Config) (s : UartConnector) (n : Nat) : Bool :=
  ((runLoopback cfg n s).tickTx cfg)._tx

/-- The events of back-to-back frames: with frames `P` ticks apart and each
resolved `T` ticks after its start, the bytes `B` sent from tick `t0` on. -/
def frameEvents (P T : Nat) : Nat → List (Fin 256) → List (Nat × Nat)
  | _, [] => []
  | t0, b :: rest => (t0 + T, b.val) :: frameEvents P T (t0 + P) rest

/-- Some contents of memory before the constructor runs, for the examples:
every member the constructor leaves alone holds a value that is not zero. -/
def exampleMem : UartConnector :=
  { _tx := false, _last_byte := 0xAA, _rx_state := RxState.RX_BIT, _rx_timer := 5,
    _rx_sr := 0x3FF, _rx_counter := 7, _tx_state := TxState.TX_BIT, _tx_buffer := [1],
    _tx_timer := 9, _tx_sr := 0x1FF, _tx_counter := 11, cerr := [] }

/-- The number of ticks from the tick that detects a start to the tick that
takes the tenth sample: half a bit period, then nine whole ones. -/
def resolveTick (D : Nat) : Nat := D / 2 + 9 * D

/-- Tick `t` resolves a frame: the receiver is framing before it and idle after
it. -/
def resolvesAt (cfg : Config) (line : Nat → Bool) (s : UartConnector) (t : Nat) : Prop :=
  (run cfg line t s)._rx_state = RxState.RX_BIT ∧
    (run cfg line (t + 1) s)._rx_state = RxState.RX_IDLE

instance (cfg : Config) (line : Nat → Bool) (s : UartConnector) (t : Nat) :
    Decidable (resolvesAt cfg line s t) :=
  inferInstanceAs (Decidable (_ ∧ _))

/-- The connectors a driver can reach: the constructor on any memory, then
any interleaving of `tick` (with any level on the receive line) and `tx`
(with any string). -/
inductive Reachable (cfg : Config) : UartConnector → Prop where
  | init (mem : UartConnector) : Reachable cfg (UartConnector.new mem)
  | tick (s : UartConnector) (rx : Bool) :
      Reachable cfg s → Reachable cfg (s.tick cfg rx).1
  | tx (s : UartConnector) (b : List (Fin 256)) :
      Reachable cfg s → Reachable cfg (s.tx b)

/-- A line for the examples, with divisor 2: low through tick 19 (a frame whose
stop sample is low), high on tick 20, then from tick 21 on the frame of the
byte `0x55` (start low for two ticks, the data bits least-significant first
for two ticks each, then high). -/
def exampleLine (n : Nat) : Bool :=
  if n < 20 then false
  else if n < 21 then true
  else if n < 23 then false
  else if n < 39 then (0x55 : Nat).testBit ((n - 23) / 2)
  else true

/-! ## Accesses to the two lines -/

/-- The levels the first `switch` of `UartConnector::tick` passes to
`_tx.set`, in the order of the calls. -/
def UartConnector.tickTxWrites (s : UartConnector) : List Bool :=
  match s._tx_state with
  | TxState.TX_IDLE =>
    match s._tx_buffer with
    | [] => []
    | _ :: _ => [false]
  | TxState.TX_BIT =>
    if dec32 s._tx_timer = 0 then
      if inc8 s._tx_counter = 10 then
        [decide (s._tx_sr &&& 1 ≠ 0), true]
      else
        [decide (s._tx_sr &&& 1 ≠ 0)]
    else
      []

/-- The number of calls of `_rx.get` the second `switch` of
`UartConnector::tick` makes. -/
def UartConnector.tickRxReads (s : UartConnector) : Nat :=
  match s._rx_state with
  | RxState.RX_IDLE => 1
  | RxState.RX_BIT => if dec32 s._rx_timer = 0 then 1 else 0

/-- The writes to the transmit line of one call of `tick`. -/
def UartConnector.tickWrites (s : UartConnector) : List Bool := s.tickTxWrites

/-- The number of reads of the receive line of one call of `tick`: the second
`switch` runs on the members the first one left. -/
def UartConnector.tickReads (cfg : Config) (s : UartConnector) : Nat :=
  (s.tickTx cfg).tickRxReads

/-! ## More vocabulary -/

/-- Tick `t` starts a frame: the transmitter is idle before it and sending
after it. -/
def startsAt (cfg : Config) (line : Nat → Bool) (s : UartConnector) (t : Nat) : Prop :=
  (run cfg line t s)._tx_state = TxState.TX_IDLE ∧
    (run cfg line (t + 1) s)._tx_state = TxState.TX_BIT

instance (cfg : Config) (line : Nat → Bool) (s : UartConnector) (t : Nat) :
    Decidable (startsAt cfg line s t) :=
  inferInstanceAs (Decidable (_ ∧ _))

/-- Two connectors agree on the receiver members: state, timer, accumulator,
bit counter and last byte. -/
def RxAgree (s1 s2 : UartConnector) : Prop :=
  s1._rx_state = s2._rx_state ∧ s1._rx_timer = s2._rx_timer ∧ s1._rx_sr = s2._rx_sr ∧
    s1._rx_counter = s2._rx_counter ∧ s1._last_byte = s2._last_byte

/-- Two connectors agree on the transmitter members: state, timer, shift
register, bit counter and queue. -/
def TxAgree (s1 s2 : UartConnector) : Prop :=
  s1._tx_state = s2._tx_state ∧ s1._tx_timer = s2._tx_timer ∧ s1._tx_sr = s2._tx_sr ∧
    s1._tx_counter = s2._tx_counter ∧ s1._tx_buffer = s2._tx_buffer

/-- The timers and counters are in range: a sending transmitter has
`1 ≤ _tx_timer ≤ D` and `_tx_counter ≤ 9`; a framing receiver has
`1 ≤ _rx_timer ≤ D`, `_rx_counter ≤ 9` and `_rx_sr < 2 ^ _rx_counter`. -/
def InRange (D : Nat) (s : UartConnector) : Prop :=
  (s._tx_state = TxState.TX_BIT →
      1 ≤ s._tx_timer ∧ s._tx_timer ≤ D ∧ s._tx_counter ≤ 9) ∧
    (s._rx_state = RxState.RX_BIT →
      1 ≤ s._rx_timer ∧ s._rx_timer ≤ D ∧ s._rx_counter ≤ 9 ∧
        s._rx_sr < 2 ^ s._rx_counter)

/-! ## The firmware (`src/rv/shrimprw.c`) -/

namespace Firmware

/-- The bytes of a C string literal, without the terminating NUL. -/
def cstr (s : String) : List (Fin 256) := s.toList.map fun c => Fin.ofNat c.toNat

/-- The function `print`: the bytes it stores to `*UART`, those of `m` up to
the first NUL. -/
def print (m : List (Fin 256)) : List (Fin 256) := m.takeWhile fun c => c ≠ 0

/-- The function `inkey`: it loads `*UART` until a load is not zero. `reads`
holds the values the loads will return, in order; the result is the value
returned and the loads left, or `none` when `reads` runs out while it polls. -/
def inkey : List (Fin 256) → Option (Fin 256 × List (Fin 256))
  | [] => none
  | r :: rest => if r = 0 then inkey rest else some (r, rest)

/-- What `main` has done when it stops or when the loads run out: the bytes
stored to `*UART` and the value returned, if it returned. -/
structure Outcome where
  written : List (Fin 256)
  ret : Option Int
  deriving DecidableEq, Repr

/-- The `while (1)` loop of `main`, for at most `fuel` calls of `inkey`;
`out` holds the bytes stored so far. -/
def mainLoop : Nat → List (Fin 256) → List (Fin 256) → Outcome
  | 0, _, out => { written := out, ret := none }
  | fuel + 1, reads, out =>
    match inkey reads with
    | none => { written := out, ret := none }
    | some (c, rest) =>
      if c = Fin.ofNat 'y'.toNat ∨ c = Fin.ofNat 'Y'.toNat ∨ c = Fin.ofNat '\n'.toNat ∨
          c = Fin.ofNat '\r'.toNat then
        { written := out ++ print (cstr "y\r\nohhhhhh!\r\n"), ret := some 420 }
      else if c = Fin.ofNat 'n'.toNat ∨ c = Fin.ofNat 'N'.toNat then
        { written := out ++ print (cstr "n\r\n:<\r\n"), ret := some 696969 }
      else
        mainLoop fuel rest out

/-- The function `main` run on the loads `reads`. Every call of `inkey`
consumes a load, so `reads.length + 1` calls are more than the loop can
make. -/
def main (reads : List (Fin 256)) : Outcome :=
  mainLoop (reads.length + 1) reads (print (cstr "i am ur princess\r\nagreed? [Yn] "))

/-- The values `main` acts on: `y`, `Y`, `n`, `N`, CR and LF. -/
def decisive (c : Fin 256) : Prop :=
  c = Fin.ofNat 'y'.toNat ∨ c = Fin.ofNat 'Y'.toNat ∨ c = Fin.ofNat '\n'.toNat ∨
    c = Fin.ofNat '\r'.toNat ∨ c = Fin.ofNat 'n'.toNat ∨ c = Fin.ofNat 'N'.toNat

instance (c : Fin 256) : Decidable (decisive c) :=
  inferInstanceAs (Decidable (_ ∨ _))

end Firmware

/-! ## One tick -/

section Step

variable (cfg : Config) (s : UartConnector) (rx : Bool)

theorem tickTx_idle_nil (h : s._tx_state = TxState.TX_IDLE) (hq : s._tx_buffer = []) :
    s.tickTx cfg = s := by
  unfold UartConnector.tickTx
  rw [h, hq]

theorem tickTx_idle_cons (h : s._tx_state = TxState.TX_IDLE) (c : Fin 256)
    (rest : List (Fin 256)) (hq : s._tx_buffer = c :: rest) :
    s.tickTx cfg =
      { s with
        _tx := false
        _tx_state := TxState.TX_BIT
        _tx_timer := cfg.DIVISOR
        _tx_sr := txWord cfg c
        _tx_counter := 0
        _tx_buffer := rest } := by
  unfold UartConnector.tickTx
  rw [h, hq]

theorem tickTx_wait (h : s._tx_state = TxState.TX_BIT) (ht : dec32 s._tx_timer ≠ 0) :
    s.tickTx cfg = { s with _tx_timer := dec32 s._tx_timer } := by
  unfold UartConnector.tickTx
  rw [h]
  exact if_neg ht

theorem tickTx_emit (h : s._tx_state = TxState.TX_BIT) (ht : dec32 s._tx_timer = 0)
    (hc : inc8 s._tx_counter ≠ 10) :
    s.tickTx cfg =
      { s with
        _tx_timer := cfg.DIVISOR
        _tx := decide (s._tx_sr &&& 1 ≠ 0)
        _tx_sr := s._tx_sr >>> 1
        _tx_counter := inc8 s._tx_counter } := by
  unfold UartConnector.tickTx
  rw [h]
  exact (if_pos ht).trans (if_neg hc)

theorem tickTx_last (h : s._tx_state = TxState.TX_BIT) (ht : dec32 s._tx_timer = 0)
    (hc : inc8 s._tx_counter = 10) :
    s.tickTx cfg =
      { s with
        _tx_timer := cfg.DIVISOR
        _tx := true
        _tx_sr := s._tx_sr >>> 1
        _tx_counter := inc8 s._tx_counter
        _tx_state := TxState.TX_IDLE } := by
  unfold UartConnector.tickTx
  rw [h]
  exact (if_pos ht).trans (if_pos hc)

theorem tickRx_idle_low (h : s._rx_state = RxState.RX_IDLE) :
    s.tickRx cfg false =
      ({ s with
         _rx_state := RxState.RX_BIT
         _rx_timer := cfg.DIVISOR / 2
         _rx_sr := 0
         _rx_counter := 0 }, result.NOP) := by
  unfold UartConnector.tickRx
  rw [h]
  rfl

theorem tickRx_idle_high (h : s._rx_state = RxState.RX_IDLE) :
    s.tickRx cfg true = (s, result.NOP) := by
  unfold UartConnector.tickRx
  rw [h]
  rfl

theorem tickRx_wait (h : s._rx_state = RxState.RX_BIT) (ht : dec32 s._rx_timer ≠ 0) :
    s.tickRx cfg rx = ({ s with _rx_timer := dec32 s._rx_timer }, result.NOP) := by
  unfold UartConnector.tickRx
  rw [h]
  exact if_neg ht

theorem tickRx_sample (h : s._rx_state = RxState.RX_BIT) (ht : dec32 s._rx_timer = 0)
    (hc : inc8 s._rx_counter ≠ 10) :
    s.tickRx cfg rx =
      ({ s with
         _rx_timer := cfg.DIVISOR
         _rx_sr := rxShift s._rx_sr rx
         _rx_counter := inc8 s._rx_counter }, result.NOP) := by
  unfold UartConnector.tickRx
  rw [h]
  exact (if_pos ht).trans (if_neg hc)

theorem tickRx_bad (h : s._rx_state = RxState.RX_BIT) (ht : dec32 s._rx_timer = 0)
    (hc : inc8 s._rx_counter = 10) (hv : frameBad (rxShift s._rx_sr rx)) :
    s.tickRx cfg rx =
      ({ s with
         _rx_timer := cfg.DIVISOR
         _rx_sr := rxShift s._rx_sr rx
         _rx_counter := inc8 s._rx_counter
         _rx_state := RxState.RX_IDLE
         cerr := s.cerr ++ [errLine] }, result.NOP) := by
  unfold UartConnector.tickRx
  rw [h]
  exact ((if_pos ht).trans (if_pos hc)).trans (if_pos hv)

theorem tickRx_good (h : s._rx_state = RxState.RX_BIT) (ht : dec32 s._rx_timer = 0)
    (hc : inc8 s._rx_counter = 10) (hv : ¬ frameBad (rxShift s._rx_sr rx)) :
    s.tickRx cfg rx =
      ({ s with
         _rx_timer := cfg.DIVISOR
         _rx_sr := frameData (rxShift s._rx_sr rx)
         _rx_counter := inc8 s._rx_counter
         _rx_state := RxState.RX_IDLE
         _last_byte := frameByte (rxShift s._rx_sr rx) }, result.RECEIVED) := by
  unfold UartConnector.tickRx
  rw [h]
  exact ((if_pos ht).trans (if_pos hc)).trans (if_neg hv)

theorem tickRx_idle_low_fst (h : s._rx_state = RxState.RX_IDLE) :
    (s.tickRx cfg false).1 =
      { s with
         _rx_state := RxState.RX_BIT
         _rx_timer := cfg.DIVISOR / 2
         _rx_sr := 0
         _rx_counter := 0 } :=
  congrArg Prod.fst (tickRx_idle_low cfg s h)

theorem tickRx_idle_low_snd (h : s._rx_state = RxState.RX_IDLE) :
    (s.tickRx cfg false).2 = result.NOP :=
  congrArg Prod.snd (tickRx_idle_low cfg s h)

theorem tickRx_idle_high_fst (h : s._rx_state = RxState.RX_IDLE) :
    (s.tickRx cfg true).1 =
      s :=
  congrArg Prod.fst (tickRx_idle_high cfg s h)

theorem tickRx_idle_high_snd (h : s._rx_state = RxState.RX_IDLE) :
    (s.tickRx cfg true).2 = result.NOP :=
  congrArg Prod.snd (tickRx_idle_high cfg s h)

theorem tickRx_wait_fst (h : s._rx_state = RxState.RX_BIT) (ht : dec32 s._rx_timer ≠ 0) :
    (s.tickRx cfg rx).1 =
      { s with _rx_timer := dec32 s._rx_timer } :=
  congrArg Prod.fst (tickRx_wait cfg s rx h ht)

theorem tickRx_wait_snd (h : s._rx_state = RxState.RX_BIT) (ht : dec32 s._rx_timer ≠ 0) :
    (s.tickRx cfg rx).2 = result.NOP :=
  congrArg Prod.snd (tickRx_wait cfg s rx h ht)

theorem tickRx_sample_fst (h : s._rx_state = RxState.RX_BIT) (ht : dec32 s._rx_timer = 0)
    (hc : inc8 s._rx_counter ≠ 10) :
    (s.tickRx cfg rx).1 =
      { s with
         _rx_timer := cfg.DIVISOR
         _rx_sr := rxShift s._rx_sr rx
         _rx_counter := inc8 s._rx_counter } :=
  congrArg Prod.fst (tickRx_sample cfg s rx h ht hc)

theorem tickRx_sample_snd (h : s._rx_state = RxState.RX_BIT) (ht : dec32 s._rx_timer = 0)
    (hc : inc8 s._rx_counter ≠ 10) :
    (s.tickRx cfg rx).2 = result.NOP :=
  congrArg Prod.snd (tickRx_sample cfg s rx h ht hc)

theorem tickRx_bad_fst (h : s._rx_state = RxState.RX_BIT) (ht : dec32 s._rx_timer = 0)
    (hc : inc8 s._rx_counter = 10) (hv : frameBad (rxShift s._rx_sr rx)) :
    (s.tickRx cfg rx).1 =
      { s with
         _rx_timer := cfg.DIVISOR
         _rx_sr := rxShift s._rx_sr rx
         _rx_counter := inc8 s._rx_counter
         _rx_state := RxState.RX_IDLE
         cerr := s.cerr ++ [errLine] } :=
  congrArg Prod.fst (tickRx_bad cfg s rx h ht hc hv)

theorem tickRx_bad_snd (h : s._rx_state = RxState.RX_BIT) (ht : dec32 s._rx_timer = 0)
    (hc : inc8 s._rx_counter = 10) (hv : frameBad (rxShift s._rx_sr rx)) :
    (s.tickRx cfg rx).2 = result.NOP :=
  congrArg Prod.snd (tickRx_bad cfg s rx h ht hc hv)

theorem tickRx_good_fst (h : s._rx_state = RxState.RX_BIT) (ht : dec32 s._rx_timer = 0)
    (hc : inc8 s._rx_counter = 10) (hv : ¬ frameBad (rxShift s._rx_sr rx)) :
    (s.tickRx cfg rx).1 =
      { s with
         _rx_timer := cfg.DIVISOR
         _rx_sr := frameData (rxShift s._rx_sr rx)
         _rx_counter := inc8 s._rx_counter
         _rx_state := RxState.RX_IDLE
         _last_byte := frameByte (rxShift s._rx_sr rx) } :=
  congrArg Prod.fst (tickRx_good cfg s rx h ht hc hv)

theorem tickRx_good_snd (h : s._rx_state = RxState.RX_BIT) (ht : dec32 s._rx_timer = 0)
    (hc : inc8 s._rx_counter = 10) (hv : ¬ frameBad (rxShift s._rx_sr rx)) :
    (s.tickRx cfg rx).2 = result.RECEIVED :=
  congrArg Prod.snd (tickRx_good cfg s rx h ht hc hv)

theorem dec32_pred {t : Nat} (h1 : 1 ≤ t) (h2 : t < 2 ^ 32) : dec32 t = t - 1 := by
  unfold dec32
  omega

theorem dec32_one : dec32 1 = 0 := by
  unfold dec32
  omega

theorem dec32_ne_zero {t : Nat} (h1 : 2 ≤ t) (h2 : t < 2 ^ 32) : dec32 t ≠ 0 := by
  unfold dec32
  omega

theorem inc8_succ {c : Nat} (h : c < 255) : inc8 c = c + 1 := by
  unfold inc8
  omega

theorem rxIs_tickTx {st : RxState} {t sr c lb : Nat} {e : List String}
    (h : RxIs s st t sr c lb e) : RxIs (s.tickTx cfg) st t sr c lb e := by
  obtain ⟨h1, h2, h3, h4, h5, h6⟩ := h
  cases hst : s._tx_state with
  | TX_IDLE =>
    cases hq : s._tx_buffer with
    | nil => rw [tickTx_idle_nil cfg s hst hq]; exact ⟨h1, h2, h3, h4, h5, h6⟩
    | cons b rest => rw [tickTx_idle_cons cfg s hst b rest hq]; exact ⟨h1, h2, h3, h4, h5, h6⟩
  | TX_BIT =>
    by_cases ht : dec32 s._tx_timer = 0
    · by_cases hc : inc8 s._tx_counter = 10
      · rw [tickTx_last cfg s hst ht hc]; exact ⟨h1, h2, h3, h4, h5, h6⟩
      · rw [tickTx_emit cfg s hst ht hc]; exact ⟨h1, h2, h3, h4, h5, h6⟩
    · rw [tickTx_wait cfg s hst ht]; exact ⟨h1, h2, h3, h4, h5, h6⟩

theorem txIs_tickRx {st : TxState} {t sr c : Nat} {l : Bool} {q : List (Fin 256)}
    (h : TxIs s st t sr c l q) : TxIs (s.tickRx cfg rx).1 st t sr c l q := by
  obtain ⟨h1, h2, h3, h4, h5, h6⟩ := h
  cases hst : s._rx_state with
  | RX_IDLE =>
    cases rx with
    | false => rw [tickRx_idle_low_fst cfg s hst]; exact ⟨h1, h2, h3, h4, h5, h6⟩
    | true => rw [tickRx_idle_high_fst cfg s hst]; exact ⟨h1, h2, h3, h4, h5, h6⟩
  | RX_BIT =>
    by_cases ht : dec32 s._rx_timer = 0
    · by_cases hc : inc8 s._rx_counter = 10
      · by_cases hv : frameBad (rxShift s._rx_sr rx)
        · rw [tickRx_bad_fst cfg s rx hst ht hc hv]; exact ⟨h1, h2, h3, h4, h5, h6⟩
        · rw [tickRx_good_fst cfg s rx hst ht hc hv]; exact ⟨h1, h2, h3, h4, h5, h6⟩
      · rw [tickRx_sample_fst cfg s rx hst ht hc]; exact ⟨h1, h2, h3, h4, h5, h6⟩
    · rw [tickRx_wait_fst cfg s rx hst ht]; exact ⟨h1, h2, h3, h4, h5, h6⟩

/-! ### The receiver side of `tick` -/

theorem rx_start (h : s._rx_state = RxState.RX_IDLE) :
    RxIs (s.tick cfg false).1 RxState.RX_BIT (cfg.DIVISOR / 2) 0 0 s._last_byte s.cerr ∧
      (s.tick cfg false).2 = result.NOP := by
  have h' := rxIs_tickTx cfg s (⟨h, rfl, rfl, rfl, rfl, rfl⟩ : RxIs s _ _ _ _ _ _)
  unfold UartConnector.tick
  rw [tickRx_idle_low_fst cfg _ h'.state, tickRx_idle_low_snd cfg _ h'.state]
  exact ⟨⟨rfl, rfl, rfl, rfl, h'.lb, h'.err⟩, rfl⟩

theorem rx_idle_high {t sr c lb : Nat} {e : List String}
    (h : RxIs s RxState.RX_IDLE t sr c lb e) :
    RxIs (s.tick cfg true).1 RxState.RX_IDLE t sr c lb e ∧
      (s.tick cfg true).2 = result.NOP := by
  have h' := rxIs_tickTx cfg s h
  unfold UartConnector.tick
  rw [tickRx_idle_high_fst cfg _ h'.state, tickRx_idle_high_snd cfg _ h'.state]
  exact ⟨h', rfl⟩

theorem rx_wait {t sr c lb : Nat} {e : List String}
    (h : RxIs s RxState.RX_BIT t sr c lb e) (h1 : 2 ≤ t) (h2 : t < 2 ^ 32) :
    RxIs (s.tick cfg rx).1 RxState.RX_BIT (t - 1) sr c lb e ∧
      (s.tick cfg rx).2 = result.NOP := by
  have h' := rxIs_tickTx cfg s h
  have ht : dec32 (s.tickTx cfg)._rx_timer ≠ 0 := by rw [h'.timer]; exact dec32_ne_zero h1 h2
  unfold UartConnector.tick
  rw [tickRx_wait_fst cfg _ rx h'.state ht, tickRx_wait_snd cfg _ rx h'.state ht]
  refine ⟨⟨h'.state, ?_, h'.sr, h'.counter, h'.lb, h'.err⟩, rfl⟩
  show dec32 (s.tickTx cfg)._rx_timer = t - 1
  rw [h'.timer]; exact dec32_pred (by omega) h2

theorem rx_sample {sr c lb : Nat} {e : List String}
    (h : RxIs s RxState.RX_BIT 1 sr c lb e) (hc : c < 9) :
    RxIs (s.tick cfg rx).1 RxState.RX_BIT cfg.DIVISOR (rxShift sr rx) (c + 1) lb e ∧
      (s.tick cfg rx).2 = result.NOP := by
  have h' := rxIs_tickTx cfg s h
  have ht : dec32 (s.tickTx cfg)._rx_timer = 0 := by rw [h'.timer]; exact dec32_one
  have hi : inc8 (s.tickTx cfg)._rx_counter = c + 1 := by
    rw [h'.counter]; exact inc8_succ (by omega)
  have hn : inc8 (s.tickTx cfg)._rx_counter ≠ 10 := by rw [hi]; omega
  unfold UartConnector.tick
  rw [tickRx_sample_fst cfg _ rx h'.state ht hn, tickRx_sample_snd cfg _ rx h'.state ht hn]
  refine ⟨⟨h'.state, rfl, ?_, hi, h'.lb, h'.err⟩, rfl⟩
  show rxShift (s.tickTx cfg)._rx_sr rx = rxShift sr rx
  rw [h'.sr]

theorem rx_bad {sr lb : Nat} {e : List String}
    (h : RxIs s RxState.RX_BIT 1 sr 9 lb e) (hv : frameBad (rxShift sr rx)) :
    RxIs (s.tick cfg rx).1 RxState.RX_IDLE cfg.DIVISOR (rxShift sr rx) 10 lb
        (e ++ [errLine]) ∧
      (s.tick cfg rx).2 = result.NOP := by
  have h' := rxIs_tickTx cfg s h
  have ht : dec32 (s.tickTx cfg)._rx_timer = 0 := by rw [h'.timer]; exact dec32_one
  have hi : inc8 (s.tickTx cfg)._rx_counter = 10 := by
    rw [h'.counter]; exact inc8_succ (by omega)
  have hv' : frameBad (rxShift (s.tickTx cfg)._rx_sr rx) := by rw [h'.sr]; exact hv
  unfold UartConnector.tick
  rw [tickRx_bad_fst cfg _ rx h'.state ht hi hv', tickRx_bad_snd cfg _ rx h'.state ht hi hv']
  refine ⟨⟨rfl, rfl, ?_, hi, h'.lb, ?_⟩, rfl⟩
  · show rxShift (s.tickTx cfg)._rx_sr rx = rxShift sr rx
    rw [h'.sr]
  · show (s.tickTx cfg).cerr ++ [errLine] = e ++ [errLine]
    rw [h'.err]

theorem rx_good {sr lb : Nat} {e : List String}
    (h : RxIs s RxState.RX_BIT 1 sr 9 lb e) (hv : ¬ frameBad (rxShift sr rx)) :
    RxIs (s.tick cfg rx).1 RxState.RX_IDLE cfg.DIVISOR (frameData (rxShift sr rx)) 10
        (frameByte (rxShift sr rx)) e ∧
      (s.tick cfg rx).2 = result.RECEIVED := by
  have h' := rxIs_tickTx cfg s h
  have ht : dec32 (s.tickTx cfg)._rx_timer = 0 := by rw [h'.timer]; exact dec32_one
  have hi : inc8 (s.tickTx cfg)._rx_counter = 10 := by
    rw [h'.counter]; exact inc8_succ (by omega)
  have hv' : ¬ frameBad (rxShift (s.tickTx cfg)._rx_sr rx) := by rw [h'.sr]; exact hv
  unfold UartConnector.tick
  rw [tickRx_good_fst cfg _ rx h'.state ht hi hv', tickRx_good_snd cfg _ rx h'.state ht hi hv']
  refine ⟨⟨rfl, rfl, ?_, hi, ?_, h'.err⟩, rfl⟩
  · show frameData (rxShift (s.tickTx cfg)._rx_sr rx) = frameData (rxShift sr rx)
    rw [h'.sr]
  · show frameByte (rxShift (s.tickTx cfg)._rx_sr rx) = frameByte (rxShift sr rx)
    rw [h'.sr]

/-! ### The transmitter side of `tick` -/

theorem tx_start {t sr c : Nat} {l : Bool} {b : Fin 256} {rest : List (Fin 256)}
    (h : TxIs s TxState.TX_IDLE t sr c l (b :: rest)) :
    TxIs (s.tick cfg rx).1 TxState.TX_BIT cfg.DIVISOR (txWord cfg b) 0 false rest := by
  unfold UartConnector.tick
  apply txIs_tickRx
  rw [tickTx_idle_cons cfg s h.state b rest h.queue]
  exact ⟨rfl, rfl, rfl, rfl, rfl, rfl⟩

theorem tx_idle {t sr c : Nat} {l : Bool} (h : TxIs s TxState.TX_IDLE t sr c l []) :
    TxIs (s.tick cfg rx).1 TxState.TX_IDLE t sr c l [] := by
  unfold UartConnector.tick
  apply txIs_tickRx
  rw [tickTx_idle_nil cfg s h.state h.queue]
  exact h

theorem tx_wait {t sr c : Nat} {l : Bool} {q : List (Fin 256)}
    (h : TxIs s TxState.TX_BIT t sr c l q) (h1 : 2 ≤ t) (h2 : t < 2 ^ 32) :
    TxIs (s.tick cfg rx).1 TxState.TX_BIT (t - 1) sr c l q := by
  have ht : dec32 s._tx_timer ≠ 0 := by rw [h.timer]; exact dec32_ne_zero h1 h2
  unfold UartConnector.tick
  apply txIs_tickRx
  rw [tickTx_wait cfg s h.state ht]
  refine ⟨h.state, ?_, h.sr, h.counter, h.level, h.queue⟩
  show dec32 s._tx_timer = t - 1
  rw [h.timer]; exact dec32_pred (by omega) h2

theorem tx_emit {sr c : Nat} {l : Bool} {q : List (Fin 256)}
    (h : TxIs s TxState.TX_BIT 1 sr c l q) (hc : c < 9) :
    TxIs (s.tick cfg rx).1 TxState.TX_BIT cfg.DIVISOR (sr >>> 1) (c + 1)
      (decide (sr &&& 1 ≠ 0)) q := by
  have ht : dec32 s._tx_timer = 0 := by rw [h.timer]; exact dec32_one
  have hi : inc8 s._tx_counter = c + 1 := by rw [h.counter]; exact inc8_succ (by omega)
  have hn : inc8 s._tx_counter ≠ 10 := by rw [hi]; omega
  unfold UartConnector.tick
  apply txIs_tickRx
  rw [tickTx_emit cfg s h.state ht hn]
  refine ⟨h.state, rfl, ?_, hi, ?_, h.queue⟩
  · show s._tx_sr >>> 1 = sr >>> 1
    rw [h.sr]
  · show decide (s._tx_sr &&& 1 ≠ 0) = decide (sr &&& 1 ≠ 0)
    rw [h.sr]

theorem tx_last {sr : Nat} {l : Bool} {q : List (Fin 256)}
    (h : TxIs s TxState.TX_BIT 1 sr 9 l q) :
    TxIs (s.tick cfg rx).1 TxState.TX_IDLE cfg.DIVISOR (sr >>> 1) 10 true q := by
  have ht : dec32 s._tx_timer = 0 := by rw [h.timer]; exact dec32_one
  have hi : inc8 s._tx_counter = 10 := by rw [h.counter]; exact inc8_succ (by omega)
  unfold UartConnector.tick
  apply txIs_tickRx
  rw [tickTx_last cfg s h.state ht hi]
  refine ⟨rfl, rfl, ?_, hi, rfl, h.queue⟩
  show s._tx_sr >>> 1 = sr >>> 1
  rw [h.sr]

end Step

/-! ## One frame of the transmitter -/

section TxFrame

variable (cfg : Config) (line : Nat → Bool) (s : UartConnector)

theorem run_succ (n : Nat) :
    run cfg line (n + 1) s = ((run cfg line n s).tick cfg (line n)).1 := rfl

theorem tx_frame_bits {t sr c : Nat} {l : Bool} {b : Fin 256} {rest : List (Fin 256)}
    (hD1 : 1 ≤ cfg.DIVISOR) (hD : cfg.DIVISOR < 2 ^ 32)
    (h : TxIs s TxState.TX_IDLE t sr c l (b :: rest)) :
    ∀ n q r, n = q * cfg.DIVISOR + r → q ≤ 9 → r < cfg.DIVISOR →
      TxIs (run cfg line (n + 1) s) TxState.TX_BIT (cfg.DIVISOR - r)
        (txWord cfg b >>> q) q (txLevel (txWord cfg b) q) rest := by
  intro n
  induction n with
  | zero =>
    intro q r hn hq hr
    have hq0 : q = 0 := by
      rcases Nat.eq_zero_or_pos q with h0 | h0
      · exact h0
      · have : cfg.DIVISOR ≤ q * cfg.DIVISOR := Nat.le_mul_of_pos_left _ h0
        omega
    subst hq0
    have hr0 : r = 0 := by omega
    subst hr0
    rw [run_succ]
    exact tx_start cfg s (line 0) h
  | succ n ih =>
    intro q r hn hq hr
    rw [run_succ]
    cases r with
    | succ r' =>
      have hpre := ih q r' (by omega) hq (by omega)
      have hw := tx_wait cfg _ (line (n + 1)) hpre (by omega) (by omega)
      rwa [show cfg.DIVISOR - r' - 1 = cfg.DIVISOR - (r' + 1) from by omega] at hw
    | zero =>
      cases q with
      | zero => omega
      | succ q' =>
        have hmul : (q' + 1) * cfg.DIVISOR = q' * cfg.DIVISOR + cfg.DIVISOR := Nat.succ_mul _ _
        have hpre := ih q' (cfg.DIVISOR - 1) (by omega) (by omega) (by omega)
        rw [show cfg.DIVISOR - (cfg.DIVISOR - 1) = 1 from by omega] at hpre
        have hw := tx_emit cfg _ (line (n + 1)) hpre (by omega)
        rw [← Nat.shiftRight_add] at hw
        exact hw

theorem tx_frame_end {t sr c : Nat} {l : Bool} {b : Fin 256} {rest : List (Fin 256)}
    (hD1 : 1 ≤ cfg.DIVISOR) (hD : cfg.DIVISOR < 2 ^ 32)
    (h : TxIs s TxState.TX_IDLE t sr c l (b :: rest)) :
    TxIs (run cfg line (10 * cfg.DIVISOR + 1) s) TxState.TX_IDLE cfg.DIVISOR
      (txWord cfg b >>> 10) 10 true rest := by
  have hpre := tx_frame_bits cfg line s hD1 hD h (10 * cfg.DIVISOR - 1) 9 (cfg.DIVISOR - 1)
    (by omega) (by omega) (by omega)
  rw [show cfg.DIVISOR - (cfg.DIVISOR - 1) = 1 from by omega,
    show 10 * cfg.DIVISOR - 1 + 1 = 10 * cfg.DIVISOR from by omega] at hpre
  have hw := tx_last cfg _ (line (10 * cfg.DIVISOR)) hpre
  rw [← Nat.shiftRight_add] at hw
  rw [run_succ]
  exact hw

theorem tx_idle_run {t sr c : Nat} {l : Bool} (h : TxIs s TxState.TX_IDLE t sr c l []) :
    ∀ n, TxIs (run cfg line n s) TxState.TX_IDLE t sr c l [] := by
  intro n
  induction n with
  | zero => exact h
  | succ n ih => rw [run_succ]; exact tx_idle cfg _ (line n) ih

end TxFrame

/-! ## One frame of the receiver -/

section RxFrame

variable (cfg : Config) (line : Nat → Bool) (s : UartConnector)

theorem resultAt_eq (n : Nat) :
    resultAt cfg line n s = ((run cfg line n s).tick cfg (line n)).2 := rfl

theorem rx_frame_align (hD2 : 2 ≤ cfg.DIVISOR) (hD : cfg.DIVISOR < 2 ^ 32)
    (h : s._rx_state = RxState.RX_IDLE) (h0 : line 0 = false) :
    ∀ n, n < cfg.DIVISOR / 2 →
      RxIs (run cfg line (n + 1) s) RxState.RX_BIT (cfg.DIVISOR / 2 - n) 0 0
        s._last_byte s.cerr ∧ resultAt cfg line n s = result.NOP := by
  intro n
  induction n with
  | zero =>
    intro _
    rw [run_succ, resultAt_eq, h0]
    exact rx_start cfg s h
  | succ n ih =>
    intro hn
    have hpre := (ih (by omega)).1
    have hw := rx_wait cfg _ (line (n + 1)) hpre (by omega) (by omega)
    rw [show cfg.DIVISOR / 2 - n - 1 = cfg.DIVISOR / 2 - (n + 1) from by omega] at hw
    rw [run_succ, resultAt_eq]
    exact hw

theorem rx_frame_bits (hD2 : 2 ≤ cfg.DIVISOR) (hD : cfg.DIVISOR < 2 ^ 32)
    (h : s._rx_state = RxState.RX_IDLE) (h0 : line 0 = false) :
    ∀ n q r, n = cfg.DIVISOR / 2 + q * cfg.DIVISOR + r → q ≤ 8 → r < cfg.DIVISOR →
      RxIs (run cfg line (n + 1) s) RxState.RX_BIT (cfg.DIVISOR - r)
        (rxAcc (sampleAt cfg.DIVISOR line) (q + 1)) (q + 1) s._last_byte s.cerr ∧
      resultAt cfg line n s = result.NOP := by
  intro n
  induction n with
  | zero =>
    intro q r hn _ _
    omega
  | succ n ih =>
    intro q r hn hq hr
    rw [run_succ, resultAt_eq]
    cases r with
    | succ r' =>
      have hpre := (ih q r' (by omega) hq (by omega)).1
      have hw := rx_wait cfg _ (line (n + 1)) hpre (by omega) (by omega)
      rwa [show cfg.DIVISOR - r' - 1 = cfg.DIVISOR - (r' + 1) from by omega] at hw
    | zero =>
      cases q with
      | zero =>
        have hpre := (rx_frame_align cfg line s hD2 hD h h0 n (by omega)).1
        rw [show cfg.DIVISOR / 2 - n = 1 from by omega] at hpre
        have hw := rx_sample cfg _ (sampleAt cfg.DIVISOR line 0) hpre (by omega)
        have hs : line (n + 1) = sampleAt cfg.DIVISOR line 0 := by
          unfold sampleAt
          exact congrArg line (by omega)
        rw [hs, Nat.sub_zero]
        exact hw
      | succ q' =>
        have hmul : (q' + 1) * cfg.DIVISOR = q' * cfg.DIVISOR + cfg.DIVISOR := Nat.succ_mul _ _
        have hpre := (ih q' (cfg.DIVISOR - 1) (by omega) (by omega) (by omega)).1
        rw [show cfg.DIVISOR - (cfg.DIVISOR - 1) = 1 from by omega] at hpre
        have hw := rx_sample cfg _ (sampleAt cfg.DIVISOR line (q' + 1)) hpre (by omega)
        have hs : line (n + 1) = sampleAt cfg.DIVISOR line (q' + 1) := by
          unfold sampleAt
          exact congrArg line (by omega)
        rw [hs, Nat.sub_zero]
        exact hw

/-- The receiver just before the tick that takes the tenth sample. -/
theorem rx_frame_pre (hD2 : 2 ≤ cfg.DIVISOR) (hD : cfg.DIVISOR < 2 ^ 32)
    (h : s._rx_state = RxState.RX_IDLE) (h0 : line 0 = false) :
    RxIs (run cfg line (cfg.DIVISOR / 2 + 9 * cfg.DIVISOR) s) RxState.RX_BIT 1
      (rxAcc (sampleAt cfg.DIVISOR line) 9) 9 s._last_byte s.cerr := by
  have hpre := (rx_frame_bits cfg line s hD2 hD h h0
    (cfg.DIVISOR / 2 + 9 * cfg.DIVISOR - 1) 8 (cfg.DIVISOR - 1)
    (by omega) (by omega) (by omega)).1
  rw [show cfg.DIVISOR - (cfg.DIVISOR - 1) = 1 from by omega,
    show cfg.DIVISOR / 2 + 9 * cfg.DIVISOR - 1 + 1 = cfg.DIVISOR / 2 + 9 * cfg.DIVISOR
      from by omega] at hpre
  exact hpre

theorem rx_frame_quiet (hD2 : 2 ≤ cfg.DIVISOR) (hD : cfg.DIVISOR < 2 ^ 32)
    (h : s._rx_state = RxState.RX_IDLE) (h0 : line 0 = false) :
    ∀ n, n < cfg.DIVISOR / 2 + 9 * cfg.DIVISOR →
      resultAt cfg line n s = result.NOP ∧
      (run cfg line (n + 1) s)._rx_state = RxState.RX_BIT ∧
      (run cfg line (n + 1) s)._last_byte = s._last_byte ∧
      (run cfg line (n + 1) s).cerr = s.cerr := by
  intro n hn
  by_cases hlt : n < cfg.DIVISOR / 2
  · have := rx_frame_align cfg line s hD2 hD h h0 n hlt
    exact ⟨this.2, this.1.state, this.1.lb, this.1.err⟩
  · have hq : (n - cfg.DIVISOR / 2) / cfg.DIVISOR ≤ 8 := by
      have : (n - cfg.DIVISOR / 2) / cfg.DIVISOR < 9 :=
        Nat.div_lt_of_lt_mul (by omega)
      omega
    have hr : (n - cfg.DIVISOR / 2) % cfg.DIVISOR < cfg.DIVISOR := Nat.mod_lt _ (by omega)
    have hdm := Nat.div_add_mod (n - cfg.DIVISOR / 2) cfg.DIVISOR
    rw [Nat.mul_comm] at hdm
    have := rx_frame_bits cfg line s hD2 hD h h0 n _ _ (by omega) hq hr
    exact ⟨this.2, this.1.state, this.1.lb, this.1.err⟩

theorem rx_frame_bad (hD2 : 2 ≤ cfg.DIVISOR) (hD : cfg.DIVISOR < 2 ^ 32)
    (h : s._rx_state = RxState.RX_IDLE) (h0 : line 0 = false)
    (hv : frameBad (rxAcc (sampleAt cfg.DIVISOR line) 10)) :
    RxIs (run cfg line (cfg.DIVISOR / 2 + 9 * cfg.DIVISOR + 1) s) RxState.RX_IDLE cfg.DIVISOR
        (rxAcc (sampleAt cfg.DIVISOR line) 10) 10 s._last_byte (s.cerr ++ [errLine]) ∧
      resultAt cfg line (cfg.DIVISOR / 2 + 9 * cfg.DIVISOR) s = result.NOP := by
  have hpre := rx_frame_pre cfg line s hD2 hD h h0
  rw [run_succ, resultAt_eq]
  exact rx_bad cfg _ (line (cfg.DIVISOR / 2 + 9 * cfg.DIVISOR)) hpre hv

theorem rx_frame_good (hD2 : 2 ≤ cfg.DIVISOR) (hD : cfg.DIVISOR < 2 ^ 32)
    (h : s._rx_state = RxState.RX_IDLE) (h0 : line 0 = false)
    (hv : ¬ frameBad (rxAcc (sampleAt cfg.DIVISOR line) 10)) :
    RxIs (run cfg line (cfg.DIVISOR / 2 + 9 * cfg.DIVISOR + 1) s) RxState.RX_IDLE cfg.DIVISOR
        (frameData (rxAcc (sampleAt cfg.DIVISOR line) 10)) 10
        (frameByte (rxAcc (sampleAt cfg.DIVISOR line) 10)) s.cerr ∧
      resultAt cfg line (cfg.DIVISOR / 2 + 9 * cfg.DIVISOR) s = result.RECEIVED := by
  have hpre := rx_frame_pre cfg line s hD2 hD h h0
  rw [run_succ, resultAt_eq]
  exact rx_good cfg _ (line (cfg.DIVISOR / 2 + 9 * cfg.DIVISOR)) hpre hv

end RxFrame

/-! ## Bit-level facts -/

section Bits

theorem rxAcc_ten (smp : Nat → Bool) :
    rxAcc smp 10 =
      acc10 (smp 0) (smp 1) (smp 2) (smp 3) (smp 4) (smp 5) (smp 6) (smp 7) (smp 8) (smp 9) :=
  rfl

set_option maxRecDepth 100000 in
theorem acc10_bad : ∀ b0 b1 b2 b3 b4 b5 b6 b7 b8 b9 : Bool,
    (frameBad (acc10 b0 b1 b2 b3 b4 b5 b6 b7 b8 b9) ↔ (b0 = true ∨ b9 = false)) := by
  decide

set_option maxRecDepth 100000 in
theorem acc10_byte : ∀ b0 b1 b2 b3 b4 b5 b6 b7 b8 b9 : Bool,
    frameByte (acc10 b0 b1 b2 b3 b4 b5 b6 b7 b8 b9) =
      bit b1 + 2 * bit b2 + 4 * bit b3 + 8 * bit b4 + 16 * bit b5 + 32 * bit b6 +
        64 * bit b7 + 128 * bit b8 := by
  decide

theorem txWord_charSigned (cfg : Config) (c : Fin 256) :
    txWord cfg c = txWord ⟨0, cfg.charSigned⟩ c := rfl

set_option maxRecDepth 100000 in
theorem txLevel_data_aux : ∀ (sg : Bool) (c : Fin 256) (k : Fin 8),
    txLevel (txWord ⟨0, sg⟩ c) (k.val + 1) = c.val.testBit k.val := by
  decide

set_option maxRecDepth 100000 in
theorem txLevel_stop_aux : ∀ (sg : Bool) (c : Fin 256),
    txLevel (txWord ⟨0, sg⟩ c) 9 = true := by
  decide

theorem txLevel_start (w : Nat) : txLevel w 0 = false := rfl

theorem txLevel_data (cfg : Config) (c : Fin 256) (k : Nat) (hk : k < 8) :
    txLevel (txWord cfg c) (k + 1) = c.val.testBit k := by
  rw [txWord_charSigned]
  exact txLevel_data_aux cfg.charSigned c ⟨k, hk⟩

theorem txLevel_stop (cfg : Config) (c : Fin 256) : txLevel (txWord cfg c) 9 = true := by
  rw [txWord_charSigned]
  exact txLevel_stop_aux cfg.charSigned c

set_option maxRecDepth 100000 in
theorem acc10_roundtrip : ∀ c : Fin 256,
    ¬ frameBad (acc10 false (c.val.testBit 0) (c.val.testBit 1) (c.val.testBit 2)
        (c.val.testBit 3) (c.val.testBit 4) (c.val.testBit 5) (c.val.testBit 6)
        (c.val.testBit 7) true) ∧
      frameByte (acc10 false (c.val.testBit 0) (c.val.testBit 1) (c.val.testBit 2)
        (c.val.testBit 3) (c.val.testBit 4) (c.val.testBit 5) (c.val.testBit 6)
        (c.val.testBit 7) true) = c.val := by
  decide

end Bits

/-! ## Loopback -/

section Loopback

variable (cfg : Config) (s : UartConnector)

theorem runLoopback_succ (n : Nat) :
    runLoopback cfg (n + 1) s = ((runLoopback cfg n s).tickLoopback cfg).1 := rfl

theorem tickLoopback_eq (x : UartConnector) :
    x.tickLoopback cfg = x.tick cfg (x.tickTx cfg)._tx := rfl

theorem loopback_eq_run : ∀ n, runLoopback cfg n s = run cfg (txWave cfg s) n s
  | 0 => rfl
  | n + 1 => by
    rw [runLoopback_succ, run_succ, ← loopback_eq_run n, tickLoopback_eq]
    rfl

theorem loopbackResultAt_eq (n : Nat) :
    loopbackResultAt cfg n s = resultAt cfg (txWave cfg s) n s := by
  unfold loopbackResultAt resultAt
  rw [← loopback_eq_run, tickLoopback_eq]
  rfl

theorem txWave_eq (n : Nat) : txWave cfg s n = (run cfg (txWave cfg s) (n + 1) s)._tx := by
  rw [run_succ, ← loopback_eq_run]
  unfold UartConnector.tick
  exact ((txIs_tickRx cfg _ _ ⟨rfl, rfl, rfl, rfl, rfl, rfl⟩).level).symm

theorem runLoopback_add (m : Nat) :
    ∀ n, runLoopback cfg (m + n) s = runLoopback cfg n (runLoopback cfg m s)
  | 0 => rfl
  | n + 1 => by
    rw [← Nat.add_assoc, runLoopback_succ, runLoopback_succ, runLoopback_add m n]

theorem loopbackResultAt_add (m n : Nat) :
    loopbackResultAt cfg (m + n) s = loopbackResultAt cfg n (runLoopback cfg m s) := by
  unfold loopbackResultAt
  rw [runLoopback_add]

end Loopback

/-! ## One frame in loopback -/

section LoopFrame

variable (cfg : Config) (s : UartConnector)

theorem txWave_frame {t sr c : Nat} {l : Bool} {b : Fin 256} {rest : List (Fin 256)}
    (hD1 : 1 ≤ cfg.DIVISOR) (hD : cfg.DIVISOR < 2 ^ 32)
    (h : TxIs s TxState.TX_IDLE t sr c l (b :: rest)) :
    (∀ q r, q ≤ 9 → r < cfg.DIVISOR →
        txWave cfg s (q * cfg.DIVISOR + r) = txLevel (txWord cfg b) q) ∧
      txWave cfg s (10 * cfg.DIVISOR) = true := by
  constructor
  · intro q r hq hr
    rw [txWave_eq]
    exact (tx_frame_bits cfg (txWave cfg s) s hD1 hD h _ q r rfl hq hr).level
  · rw [txWave_eq]
    exact (tx_frame_end cfg (txWave cfg s) s hD1 hD h).level

theorem loop_samples {t sr c : Nat} {l : Bool} {b : Fin 256} {rest : List (Fin 256)}
    (hD2 : 2 ≤ cfg.DIVISOR) (hD : cfg.DIVISOR < 2 ^ 32)
    (h : TxIs s TxState.TX_IDLE t sr c l (b :: rest)) (k : Nat) (hk : k ≤ 9) :
    sampleAt cfg.DIVISOR (txWave cfg s) k = txLevel (txWord cfg b) k := by
  unfold sampleAt
  rw [Nat.add_comm]
  exact (txWave_frame cfg s (by omega) hD h).1 k (cfg.DIVISOR / 2) hk (by omega)

theorem loop_acc {t sr c : Nat} {l : Bool} {b : Fin 256} {rest : List (Fin 256)}
    (hD2 : 2 ≤ cfg.DIVISOR) (hD : cfg.DIVISOR < 2 ^ 32)
    (h : TxIs s TxState.TX_IDLE t sr c l (b :: rest)) :
    rxAcc (sampleAt cfg.DIVISOR (txWave cfg s)) 10 =
      acc10 false (b.val.testBit 0) (b.val.testBit 1) (b.val.testBit 2) (b.val.testBit 3)
        (b.val.testBit 4) (b.val.testBit 5) (b.val.testBit 6) (b.val.testBit 7) true := by
  have hs := loop_samples cfg s hD2 hD h
  have e0 := (hs 0 (by omega)).trans (txLevel_start (txWord cfg b))
  have e1 := (hs 1 (by omega)).trans (txLevel_data cfg b 0 (by omega))
  have e2 := (hs 2 (by omega)).trans (txLevel_data cfg b 1 (by omega))
  have e3 := (hs 3 (by omega)).trans (txLevel_data cfg b 2 (by omega))
  have e4 := (hs 4 (by omega)).trans (txLevel_data cfg b 3 (by omega))
  have e5 := (hs 5 (by omega)).trans (txLevel_data cfg b 4 (by omega))
  have e6 := (hs 6 (by omega)).trans (txLevel_data cfg b 5 (by omega))
  have e7 := (hs 7 (by omega)).trans (txLevel_data cfg b 6 (by omega))
  have e8 := (hs 8 (by omega)).trans (txLevel_data cfg b 7 (by omega))
  have e9 := (hs 9 (by omega)).trans (txLevel_stop cfg b)
  rw [rxAcc_ten, e0, e1, e2, e3, e4, e5, e6, e7, e8, e9]

theorem loop_frame_rx {t sr c : Nat} {l : Bool} {b : Fin 256} {rest : List (Fin 256)}
    (hD2 : 2 ≤ cfg.DIVISOR) (hD : cfg.DIVISOR < 2 ^ 32)
    (h : TxIs s TxState.TX_IDLE t sr c l (b :: rest)) (hrx : s._rx_state = RxState.RX_IDLE) :
    ∀ n, cfg.DIVISOR / 2 + 9 * cfg.DIVISOR ≤ n → n ≤ 10 * cfg.DIVISOR →
      RxIs (run cfg (txWave cfg s) (n + 1) s) RxState.RX_IDLE cfg.DIVISOR
        (frameData (rxAcc (sampleAt cfg.DIVISOR (txWave cfg s)) 10)) 10 b.val s.cerr ∧
      resultAt cfg (txWave cfg s) n s =
        if n = cfg.DIVISOR / 2 + 9 * cfg.DIVISOR then result.RECEIVED else result.NOP := by
  have hw := txWave_frame cfg s (by omega) hD h
  have h0 : txWave cfg s 0 = false := by
    have := hw.1 0 0 (by omega) (by omega)
    rwa [Nat.zero_mul, Nat.add_zero, txLevel_start] at this
  have hacc := loop_acc cfg s hD2 hD h
  have hrt := acc10_roundtrip b
  rw [← hacc] at hrt
  have hgood := rx_frame_good cfg (txWave cfg s) s hD2 hD hrx h0 hrt.1
  rw [hrt.2] at hgood
  intro n
  induction n with
  | zero => intro h1 _; omega
  | succ m ih =>
    intro h1 h2
    by_cases hm : m + 1 = cfg.DIVISOR / 2 + 9 * cfg.DIVISOR
    · rw [hm, if_pos rfl]
      exact hgood
    · have hpre := (ih (by omega) (by omega)).1
      have hline : txWave cfg s (m + 1) = true := by
        by_cases h10 : m + 1 = 10 * cfg.DIVISOR
        · rw [h10]; exact hw.2
        · have := hw.1 9 (m + 1 - 9 * cfg.DIVISOR) (by omega) (by omega)
          rw [show 9 * cfg.DIVISOR + (m + 1 - 9 * cfg.DIVISOR) = m + 1 from by omega,
            txLevel_stop] at this
          exact this
      rw [if_neg hm, run_succ, resultAt_eq, hline]
      exact rx_idle_high cfg _ hpre

end LoopFrame

/-! ## Events of a loopback run -/

section Events

variable (cfg : Config) (s : UartConnector)

theorem filterMap_range_single {α : Type} (T : Nat) (x : α) (f : Nat → Option α) :
    ∀ n, (∀ i, i < n → f i = if i = T then some x else none) →
      (List.range n).filterMap f = if T < n then [x] else []
  | 0, _ => rfl
  | n + 1, hf => by
    have ih := filterMap_range_single T x f n (fun i hi => hf i (by omega))
    rw [List.range_succ, List.filterMap_append, ih]
    have hn := hf n (by omega)
    by_cases h1 : n = T
    · subst h1
      rw [if_pos rfl] at hn
      simp [List.filterMap_cons, hn]
    · rw [if_neg h1] at hn
      by_cases h2 : T < n
      · simp [List.filterMap_cons, hn, h2, Nat.lt_succ_of_lt h2]
      · have h3 : ¬ T < n + 1 := by omega
        simp [List.filterMap_cons, hn, h2, h3]

theorem loopbackEvents_add (m n : Nat) :
    loopbackEvents cfg (m + n) s =
      loopbackEvents cfg m s ++
        (loopbackEvents cfg n (runLoopback cfg m s)).map (fun e => (m + e.1, e.2)) := by
  unfold loopbackEvents
  rw [List.range_add, List.filterMap_append, List.filterMap_map, List.map_filterMap]
  congr 1
  apply List.filterMap_congr
  intro i _
  simp only [Function.comp_apply, loopbackResultAt_add]
  rw [show m + i + 1 = m + (i + 1) from rfl, runLoopback_add]
  split <;> rfl

theorem loopbackEvents_lt (n : Nat) : ∀ e ∈ loopbackEvents cfg n s, e.1 < n := by
  intro e he
  unfold loopbackEvents at he
  rw [List.mem_filterMap] at he
  obtain ⟨i, hi, hf⟩ := he
  rw [List.mem_range] at hi
  split at hf
  · cases hf; exact hi
  · cases hf

theorem frameEvents_cons (P T t0 : Nat) (b : Fin 256) (rest : List (Fin 256)) :
    frameEvents P T t0 (b :: rest) = (t0 + T, b.val) :: frameEvents P T (t0 + P) rest := rfl

theorem frameEvents_shift (P T m : Nat) : ∀ (B : List (Fin 256)) (t0 : Nat),
    (frameEvents P T t0 B).map (fun e => (m + e.1, e.2)) = frameEvents P T (m + t0) B
  | [], _ => rfl
  | b :: rest, t0 => by
    unfold frameEvents
    rw [List.map_cons, frameEvents_shift P T m rest (t0 + P)]
    simp only [Nat.add_assoc]

theorem frameEvents_snd (P T : Nat) : ∀ (B : List (Fin 256)) (t0 : Nat),
    (frameEvents P T t0 B).map Prod.snd = B.map Fin.val
  | [], _ => rfl
  | b :: rest, t0 => by
    unfold frameEvents
    rw [List.map_cons, List.map_cons, frameEvents_snd P T rest (t0 + P)]

theorem loop_frame {t sr c : Nat} {l : Bool} {b : Fin 256} {rest : List (Fin 256)}
    (hD2 : 2 ≤ cfg.DIVISOR) (hD : cfg.DIVISOR < 2 ^ 32)
    (h : TxIs s TxState.TX_IDLE t sr c l (b :: rest)) (hrx : s._rx_state = RxState.RX_IDLE) :
    loopbackEvents cfg (10 * cfg.DIVISOR + 1) s =
        [(cfg.DIVISOR / 2 + 9 * cfg.DIVISOR, b.val)] ∧
      TxIs (runLoopback cfg (10 * cfg.DIVISOR + 1) s) TxState.TX_IDLE cfg.DIVISOR
        (txWord cfg b >>> 10) 10 true rest ∧
      (runLoopback cfg (10 * cfg.DIVISOR + 1) s)._rx_state = RxState.RX_IDLE ∧
      (runLoopback cfg (10 * cfg.DIVISOR + 1) s)._last_byte = b.val ∧
      (runLoopback cfg (10 * cfg.DIVISOR + 1) s).cerr = s.cerr := by
  have hw := txWave_frame cfg s (by omega) hD h
  have h0 : txWave cfg s 0 = false := by
    have := hw.1 0 0 (by omega) (by omega)
    rwa [Nat.zero_mul, Nat.add_zero, txLevel_start] at this
  have hlate := loop_frame_rx cfg s hD2 hD h hrx
  have hearly := rx_frame_quiet cfg (txWave cfg s) s hD2 hD hrx h0
  have hend := (hlate (10 * cfg.DIVISOR) (by omega) (by omega)).1
  refine ⟨?_, ?_, ?_, ?_, ?_⟩
  · unfold loopbackEvents
    rw [filterMap_range_single (cfg.DIVISOR / 2 + 9 * cfg.DIVISOR)
      (cfg.DIVISOR / 2 + 9 * cfg.DIVISOR, b.val)]
    · rw [if_pos (by omega)]
    · intro i hi
      rw [loopbackResultAt_eq, loopback_eq_run]
      by_cases hlt : i < cfg.DIVISOR / 2 + 9 * cfg.DIVISOR
      · have hne : ¬ i = cfg.DIVISOR / 2 + 9 * cfg.DIVISOR := by omega
        rw [(hearly i hlt).1, if_neg hne]
        exact if_neg (by decide)
      · have := hlate i (by omega) (by omega)
        rw [this.2]
        by_cases hi2 : i = cfg.DIVISOR / 2 + 9 * cfg.DIVISOR
        · rw [if_pos hi2, if_pos hi2, if_pos rfl]
          subst hi2
          exact congrArg some (Prod.ext rfl this.1.lb)
        · rw [if_neg hi2, if_neg hi2]
          exact if_neg (by decide)
  · rw [loopback_eq_run]
    exact tx_frame_end cfg (txWave cfg s) s (by omega) hD h
  · rw [loopback_eq_run]; exact hend.state
  · rw [loopback_eq_run]; exact hend.lb
  · rw [loopback_eq_run]; exact hend.err

end Events

/-! ## Whole loopback runs -/

section LoopRun

variable (cfg : Config)

theorem tick_cerr_grows (s : UartConnector) (rx : Bool) :
    s.cerr <+: (s.tick cfg rx).1.cerr := by
  have hx : (s.tickTx cfg).cerr = s.cerr :=
    (rxIs_tickTx cfg s (⟨rfl, rfl, rfl, rfl, rfl, rfl⟩ : RxIs s _ _ _ _ _ _)).err
  unfold UartConnector.tick
  rw [← hx]
  generalize s.tickTx cfg = x
  cases hst : x._rx_state with
  | RX_IDLE =>
    cases rx with
    | false => rw [tickRx_idle_low_fst cfg x hst]
    | true => rw [tickRx_idle_high_fst cfg x hst]
  | RX_BIT =>
    by_cases ht : dec32 x._rx_timer = 0
    · by_cases hc : inc8 x._rx_counter = 10
      · by_cases hv : frameBad (rxShift x._rx_sr rx)
        · rw [tickRx_bad_fst cfg x rx hst ht hc hv]; exact List.prefix_append _ _
        · rw [tickRx_good_fst cfg x rx hst ht hc hv]
      · rw [tickRx_sample_fst cfg x rx hst ht hc]
    · rw [tickRx_wait_fst cfg x rx hst ht]

theorem runLoopback_cerr_grows (s : UartConnector) (n : Nat) :
    ∀ k, (runLoopback cfg n s).cerr <+: (runLoopback cfg (n + k) s).cerr
  | 0 => List.prefix_refl _
  | k + 1 => by
    refine (runLoopback_cerr_grows s n k).trans ?_
    rw [← Nat.add_assoc, runLoopback_succ, tickLoopback_eq]
    exact tick_cerr_grows cfg _ _

theorem runLoopback_cerr_eq (s : UartConnector) (n m : Nat) (hnm : n ≤ m)
    (hm : (runLoopback cfg m s).cerr = s.cerr) : (runLoopback cfg n s).cerr = s.cerr := by
  obtain ⟨k, rfl⟩ := Nat.exists_eq_add_of_le hnm
  have h1 := runLoopback_cerr_grows cfg s n k
  have h2 := runLoopback_cerr_grows cfg s 0 n
  rw [Nat.zero_add] at h2
  rw [hm] at h1
  exact h1.eq_of_length_le h2.length_le

theorem filterMap_range_none {α : Type} (f : Nat → Option α) :
    ∀ n, (∀ i, i < n → f i = none) → (List.range n).filterMap f = []
  | 0, _ => rfl
  | n + 1, hf => by
    rw [List.range_succ, List.filterMap_append,
      filterMap_range_none f n (fun i hi => hf i (by omega))]
    simp [List.filterMap_cons, hf n (by omega)]

theorem loop_quiet (s : UartConnector) {t sr c : Nat}
    (h : TxIs s TxState.TX_IDLE t sr c true []) (hrx : s._rx_state = RxState.RX_IDLE) :
    ∀ n, loopbackEvents cfg n s = [] ∧ (runLoopback cfg n s).cerr = s.cerr := by
  have hline : ∀ n, txWave cfg s n = true := fun n => by
    rw [txWave_eq]
    exact (tx_idle_run cfg (txWave cfg s) s h (n + 1)).level
  have hrun : ∀ n, RxIs (run cfg (txWave cfg s) n s) RxState.RX_IDLE s._rx_timer s._rx_sr
      s._rx_counter s._last_byte s.cerr := by
    intro n
    induction n with
    | zero => exact ⟨hrx, rfl, rfl, rfl, rfl, rfl⟩
    | succ n ih =>
      rw [run_succ, hline]
      exact (rx_idle_high cfg _ ih).1
  intro n
  constructor
  · unfold loopbackEvents
    apply filterMap_range_none
    intro i _
    rw [loopbackResultAt_eq, resultAt_eq, hline, (rx_idle_high cfg _ (hrun i)).2]
    exact if_neg (by decide)
  · rw [loopback_eq_run]
    exact (hrun n).err

theorem loopbackEvents_take (s : UartConnector) (N M : Nat) (h : N ≤ M) :
    loopbackEvents cfg N s = (loopbackEvents cfg M s).filter (fun e => decide (e.1 < N)) := by
  obtain ⟨k, rfl⟩ := Nat.exists_eq_add_of_le h
  rw [loopbackEvents_add, List.filter_append]
  have h1 : (loopbackEvents cfg N s).filter (fun e => decide (e.1 < N)) =
      loopbackEvents cfg N s := by
    rw [List.filter_eq_self]
    intro e he
    exact decide_eq_true (loopbackEvents_lt cfg s N e he)
  have h2 : ((loopbackEvents cfg k (runLoopback cfg N s)).map
      (fun e => (N + e.1, e.2))).filter (fun e => decide (e.1 < N)) = [] := by
    rw [List.filter_eq_nil_iff]
    intro e he
    rw [List.mem_map] at he
    obtain ⟨e', _, rfl⟩ := he
    simp
  rw [h1, h2, List.append_nil]

theorem loop_frames (hD2 : 2 ≤ cfg.DIVISOR) (hD : cfg.DIVISOR < 2 ^ 32) :
    ∀ (B : List (Fin 256)) (s : UartConnector) (t sr c : Nat),
      TxIs s TxState.TX_IDLE t sr c true B → s._rx_state = RxState.RX_IDLE →
      loopbackEvents cfg (B.length * (10 * cfg.DIVISOR + 1)) s =
          frameEvents (10 * cfg.DIVISOR + 1) (cfg.DIVISOR / 2 + 9 * cfg.DIVISOR) 0 B ∧
        (∃ t' sr' c', TxIs (runLoopback cfg (B.length * (10 * cfg.DIVISOR + 1)) s)
          TxState.TX_IDLE t' sr' c' true []) ∧
        (runLoopback cfg (B.length * (10 * cfg.DIVISOR + 1)) s)._rx_state = RxState.RX_IDLE ∧
        (runLoopback cfg (B.length * (10 * cfg.DIVISOR + 1)) s).cerr = s.cerr
  | [], s, t, sr, c, h, hrx => by
    rw [List.length_nil, Nat.zero_mul]
    exact ⟨rfl, ⟨t, sr, c, h⟩, hrx, rfl⟩
  | b :: rest, s, t, sr, c, h, hrx => by
    have e : (b :: rest).length * (10 * cfg.DIVISOR + 1) =
        (10 * cfg.DIVISOR + 1) + rest.length * (10 * cfg.DIVISOR + 1) := by
      rw [List.length_cons, Nat.succ_mul, Nat.add_comm]
    obtain ⟨f1, f2, f3, _, f5⟩ := loop_frame cfg s hD2 hD h hrx
    obtain ⟨g1, g2, g3, g4⟩ :=
      loop_frames hD2 hD rest (runLoopback cfg (10 * cfg.DIVISOR + 1) s) _ _ _ f2 f3
    rw [e, loopbackEvents_add,
      runLoopback_add cfg s (10 * cfg.DIVISOR + 1) (rest.length * (10 * cfg.DIVISOR + 1)),
      f1, g1, frameEvents_shift]
    refine ⟨?_, g2, g3, g4.trans f5⟩
    simp only [frameEvents_cons, Nat.add_zero, Nat.zero_add, List.singleton_append]

/-- Every loopback run that starts with both machines idle, the line high and
the bytes `B` queued: the events of its first `N` ticks, for any `N`. -/
theorem loop_all (hD2 : 2 ≤ cfg.DIVISOR) (hD : cfg.DIVISOR < 2 ^ 32)
    (B : List (Fin 256)) (s : UartConnector) {t sr c : Nat}
    (h : TxIs s TxState.TX_IDLE t sr c true B) (hrx : s._rx_state = RxState.RX_IDLE)
    (N : Nat) :
    loopbackEvents cfg N s =
        (frameEvents (10 * cfg.DIVISOR + 1) (cfg.DIVISOR / 2 + 9 * cfg.DIVISOR) 0 B).filter
          (fun e => decide (e.1 < N)) ∧
      (runLoopback cfg N s).cerr = s.cerr := by
  obtain ⟨g1, ⟨t', sr', c', g2⟩, g3, g4⟩ := loop_frames cfg hD2 hD B s t sr c h hrx
  rcases Nat.le_total N (B.length * (10 * cfg.DIVISOR + 1)) with hle | hle
  · exact ⟨by rw [loopbackEvents_take cfg s N _ hle, g1],
      runLoopback_cerr_eq cfg s N _ hle g4⟩
  · obtain ⟨k, rfl⟩ := Nat.exists_eq_add_of_le hle
    have hq := loop_quiet cfg _ g2 g3 k
    refine ⟨?_, ?_⟩
    · rw [loopbackEvents_add, hq.1, List.map_nil, List.append_nil, g1]
      symm
      rw [List.filter_eq_self]
      intro e he
      rw [← g1] at he
      exact decide_eq_true
        (Nat.lt_of_lt_of_le (loopbackEvents_lt cfg s _ e he) (Nat.le_add_right _ _))
    · rw [runLoopback_add, hq.2, g4]

end LoopRun

/-! ## Runs on a shifted line -/

section Shift

variable (cfg : Config) (line : Nat → Bool) (s : UartConnector)

theorem run_add (m : Nat) :
    ∀ n, run cfg line (m + n) s = run cfg (fun i => line (m + i)) n (run cfg line m s)
  | 0 => rfl
  | n + 1 => by
    rw [← Nat.add_assoc, run_succ, run_succ, run_add m n]

theorem resultAt_add (m n : Nat) :
    resultAt cfg line (m + n) s =
      resultAt cfg (fun i => line (m + i)) n (run cfg line m s) := by
  rw [resultAt_eq, resultAt_eq, run_add]

theorem rx_idle_stretch {t sr c lb : Nat} {e : List String} (a : Nat)
    (h : RxIs (run cfg line a s) RxState.RX_IDLE t sr c lb e) :
    ∀ m, (∀ i, i < m → line (a + i) = true) →
      RxIs (run cfg line (a + m) s) RxState.RX_IDLE t sr c lb e ∧
        ∀ i, i < m → resultAt cfg line (a + i) s = result.NOP := by
  intro m
  induction m with
  | zero => intro _; exact ⟨h, fun i hi => by omega⟩
  | succ m ih =>
    intro hl
    obtain ⟨h1, h2⟩ := ih (fun i hi => hl i (by omega))
    have hstep := rx_idle_high cfg _ h1
    rw [← hl m (by omega)] at hstep
    refine ⟨by rw [← Nat.add_assoc, run_succ]; exact hstep.1, ?_⟩
    intro i hi
    by_cases him : i = m
    · subst him; rw [resultAt_eq]; exact hstep.2
    · exact h2 i (by omega)

/-- The samples of a well-formed frame of the byte `b`: start low, the data
bits least-significant first, stop high. -/
theorem samples_of_waveform (D : Nat) (hD2 : 2 ≤ D) (b : Fin 256)
    (hstart : ∀ i, i < D → line i = false)
    (hdata : ∀ k i, k < 8 → i < D → line ((k + 1) * D + i) = b.val.testBit k)
    (hstop : ∀ i, i < D → line (9 * D + i) = true) :
    rxAcc (sampleAt D line) 10 =
      acc10 false (b.val.testBit 0) (b.val.testBit 1) (b.val.testBit 2) (b.val.testBit 3)
        (b.val.testBit 4) (b.val.testBit 5) (b.val.testBit 6) (b.val.testBit 7) true := by
  have hh : D / 2 < D := by omega
  have e0 : sampleAt D line 0 = false := by
    unfold sampleAt; rw [Nat.zero_mul, Nat.add_zero]; exact hstart _ hh
  have ed : ∀ k, k < 8 → sampleAt D line (k + 1) = b.val.testBit k := by
    intro k hk
    unfold sampleAt; rw [Nat.add_comm]; exact hdata k _ hk hh
  have e9 : sampleAt D line 9 = true := by
    unfold sampleAt; rw [Nat.add_comm]; exact hstop _ hh
  rw [rxAcc_ten, e0, ed 0 (by omega), ed 1 (by omega), ed 2 (by omega), ed 3 (by omega),
    ed 4 (by omega), ed 5 (by omega), ed 6 (by omega), ed 7 (by omega), e9]

end Shift

/-! ## Facts about every tick -/

section AnyTick

variable (cfg : Config) (s : UartConnector) (rx : Bool)

theorem tick_tx_fields :
    (s.tick cfg rx).1._tx_state = (s.tickTx cfg)._tx_state ∧
      (s.tick cfg rx).1._tx_timer = (s.tickTx cfg)._tx_timer ∧
      (s.tick cfg rx).1._tx_sr = (s.tickTx cfg)._tx_sr ∧
      (s.tick cfg rx).1._tx_counter = (s.tickTx cfg)._tx_counter ∧
      (s.tick cfg rx).1._tx = (s.tickTx cfg)._tx ∧
      (s.tick cfg rx).1._tx_buffer = (s.tickTx cfg)._tx_buffer := by
  have h := txIs_tickRx cfg (s.tickTx cfg) rx
    (⟨rfl, rfl, rfl, rfl, rfl, rfl⟩ : TxIs (s.tickTx cfg) _ _ _ _ _ _)
  exact ⟨h.state, h.timer, h.sr, h.counter, h.level, h.queue⟩

theorem tick_idle_high (h : s._tx_state = TxState.TX_IDLE → s._tx = true) :
    (s.tick cfg rx).1._tx_state = TxState.TX_IDLE → (s.tick cfg rx).1._tx = true := by
  obtain ⟨e1, _, _, _, e5, _⟩ := tick_tx_fields cfg s rx
  rw [e1, e5]
  cases hst : s._tx_state with
  | TX_IDLE =>
    cases hq : s._tx_buffer with
    | nil => rw [tickTx_idle_nil cfg s hst hq]; intro _; exact h hst
    | cons b rest => rw [tickTx_idle_cons cfg s hst b rest hq]; intro hc; cases hc
  | TX_BIT =>
    by_cases ht : dec32 s._tx_timer = 0
    · by_cases hc : inc8 s._tx_counter = 10
      · rw [tickTx_last cfg s hst ht hc]; intro _; rfl
      · rw [tickTx_emit cfg s hst ht hc]; intro hc2
        exact absurd (hst.symm.trans hc2) (by decide)
    · rw [tickTx_wait cfg s hst ht]; intro hc2
      exact absurd (hst.symm.trans hc2) (by decide)

theorem reachable_idle_high {x : UartConnector} (hr : Reachable cfg x) :
    x._tx_state = TxState.TX_IDLE → x._tx = true := by
  induction hr with
  | init mem => intro _; rfl
  | tick y rx _ ih => exact tick_idle_high cfg y rx ih
  | tx y b _ ih => exact ih

theorem tick_last_byte :
    (s.tick cfg rx).2 = result.RECEIVED ∨ (s.tick cfg rx).1._last_byte = s._last_byte := by
  have hx : (s.tickTx cfg)._last_byte = s._last_byte :=
    (rxIs_tickTx cfg s (⟨rfl, rfl, rfl, rfl, rfl, rfl⟩ : RxIs s _ _ _ _ _ _)).lb
  unfold UartConnector.tick
  rw [← hx]
  generalize s.tickTx cfg = x
  cases hst : x._rx_state with
  | RX_IDLE =>
    cases rx with
    | false => rw [tickRx_idle_low_fst cfg x hst]; exact Or.inr rfl
    | true => rw [tickRx_idle_high_fst cfg x hst]; exact Or.inr rfl
  | RX_BIT =>
    by_cases ht : dec32 x._rx_timer = 0
    · by_cases hc : inc8 x._rx_counter = 10
      · by_cases hv : frameBad (rxShift x._rx_sr rx)
        · rw [tickRx_bad_fst cfg x rx hst ht hc hv]; exact Or.inr rfl
        · exact Or.inl (tickRx_good_snd cfg x rx hst ht hc hv)
      · rw [tickRx_sample_fst cfg x rx hst ht hc]; exact Or.inr rfl
    · rw [tickRx_wait_fst cfg x rx hst ht]; exact Or.inr rfl

end AnyTick

/-! ## The tick that resolves a frame -/

section Resolve

variable (cfg : Config) (line : Nat → Bool) (s : UartConnector)

theorem frameBad_iff :
    frameBad (rxAcc (sampleAt cfg.DIVISOR line) 10) ↔
      (sampleAt cfg.DIVISOR line 0 = true ∨ sampleAt cfg.DIVISOR line 9 = false) := by
  rw [rxAcc_ten]
  exact acc10_bad _ _ _ _ _ _ _ _ _ _

theorem rx_frame_resolves (hD2 : 2 ≤ cfg.DIVISOR) (hD : cfg.DIVISOR < 2 ^ 32)
    (h : s._rx_state = RxState.RX_IDLE) (h0 : line 0 = false) :
    resolvesAt cfg line s (cfg.DIVISOR / 2 + 9 * cfg.DIVISOR) ∧
      (∀ t, t < cfg.DIVISOR / 2 + 9 * cfg.DIVISOR → ¬ resolvesAt cfg line s t) ∧
      (run cfg line (cfg.DIVISOR / 2 + 9 * cfg.DIVISOR + 1 + 1) s)._rx_state =
        (if line (cfg.DIVISOR / 2 + 9 * cfg.DIVISOR + 1) then RxState.RX_IDLE
          else RxState.RX_BIT) := by
  have hpre := rx_frame_pre cfg line s hD2 hD h h0
  have hpost : ∃ t sr c lb e,
      RxIs (run cfg line (cfg.DIVISOR / 2 + 9 * cfg.DIVISOR + 1) s) RxState.RX_IDLE
        t sr c lb e := by
    by_cases hv : frameBad (rxAcc (sampleAt cfg.DIVISOR line) 10)
    · exact ⟨_, _, _, _, _, (rx_frame_bad cfg line s hD2 hD h h0 hv).1⟩
    · exact ⟨_, _, _, _, _, (rx_frame_good cfg line s hD2 hD h h0 hv).1⟩
  obtain ⟨t, sr, c, lb, e, hpost⟩ := hpost
  refine ⟨⟨hpre.state, hpost.state⟩, ?_, ?_⟩
  · intro n hn hres
    have := (rx_frame_quiet cfg line s hD2 hD h h0 n hn).2.1
    rw [hres.2] at this
    cases this
  · rw [run_succ]
    cases hl : line (cfg.DIVISOR / 2 + 9 * cfg.DIVISOR + 1) with
    | true => exact (rx_idle_high cfg _ hpost).1.state
    | false => exact (rx_start cfg _ hpost.state).1.state

end Resolve

/-! ## The claims -/

section Claims

/-- C1: round trip in loopback. For every divisor `D` with `2 ≤ D` (a
`uint32_t`) and every byte sequence `B`, from the constructor state and after
one call `tx(B)`, the `|B| * (10 * D + 1)` loopback ticks return `RECEIVED`
exactly `|B|` times, `last_byte()` read right after the `i`-th of them is
`B[i]`, and nothing is written to `std::cerr` (no frame is rejected). -/
theorem C1_loopback_round_trip (cfg : Config) (mem : UartConnector) (B : List (Fin 256))
    (hD2 : 2 ≤ cfg.DIVISOR) (hD : cfg.DIVISOR < 2 ^ 32) :
    (loopbackEvents cfg (B.length * (10 * cfg.DIVISOR + 1))
        ((UartConnector.new mem).tx B)).map Prod.snd = B.map Fin.val ∧
      (loopbackEvents cfg (B.length * (10 * cfg.DIVISOR + 1))
        ((UartConnector.new mem).tx B)).length = B.length ∧
      (runLoopback cfg (B.length * (10 * cfg.DIVISOR + 1)) ((UartConnector.new mem).tx B)).cerr =
        ((UartConnector.new mem).tx B).cerr := by
  have h : TxIs ((UartConnector.new mem).tx B) TxState.TX_IDLE mem._tx_timer mem._tx_sr
      mem._tx_counter true B := ⟨rfl, rfl, rfl, rfl, rfl, rfl⟩
  obtain ⟨g1, _, _, g4⟩ := loop_frames cfg hD2 hD B _ _ _ _ h rfl
  have hm := frameEvents_snd (10 * cfg.DIVISOR + 1) (cfg.DIVISOR / 2 + 9 * cfg.DIVISOR) B 0
  rw [← g1] at hm
  refine ⟨hm, ?_, g4⟩
  have := congrArg List.length hm
  rwa [List.length_map, List.length_map] at this

/-- Witness of C1: with divisor 2 the byte `0x01` comes back as `0x01`. -/
theorem C1_loopback_round_trip_witness :
    (2 ≤ (Config.mk 2 true).DIVISOR ∧ (Config.mk 2 true).DIVISOR < 2 ^ 32) ∧
      (loopbackEvents (Config.mk 2 true) (1 * (10 * 2 + 1))
        ((UartConnector.new exampleMem).tx [1])).map Prod.snd = [1] :=
  ⟨⟨by decide, by decide⟩,
    (C1_loopback_round_trip (Config.mk 2 true) exampleMem [1] (by decide) (by decide)).1⟩

/-- C2: the transmit waveform is 8-N-1, least-significant bit first. For every
byte `b` and every divisor `D` with `1 ≤ D` (a `uint32_t`), starting with the
transmitter idle and the queue equal to `[b]` (whatever the line level and the
receive line are), the line after tick `n` is low for `n < D`, is bit `k` of
`b` for `(k + 1) * D ≤ n < (k + 2) * D` with `k < 8`, and is high for every
`n ≥ 9 * D`; the transmitter is sending after ticks `0 .. 10 * D - 1` and idle
after tick `10 * D` and every later tick. -/
theorem C2_transmit_waveform (cfg : Config) (line : Nat → Bool) (s : UartConnector)
    (b : Fin 256) (hD1 : 1 ≤ cfg.DIVISOR) (hD : cfg.DIVISOR < 2 ^ 32)
    (hidle : s._tx_state = TxState.TX_IDLE) (hq : s._tx_buffer = [b]) :
    (∀ n, n < cfg.DIVISOR → (run cfg line (n + 1) s)._tx = false) ∧
      (∀ k n, k < 8 → (k + 1) * cfg.DIVISOR ≤ n → n < (k + 2) * cfg.DIVISOR →
        (run cfg line (n + 1) s)._tx = b.val.testBit k) ∧
      (∀ n, 9 * cfg.DIVISOR ≤ n → (run cfg line (n + 1) s)._tx = true) ∧
      (∀ n, n < 10 * cfg.DIVISOR → (run cfg line (n + 1) s)._tx_state = TxState.TX_BIT) ∧
      (∀ n, 10 * cfg.DIVISOR ≤ n → (run cfg line (n + 1) s)._tx_state = TxState.TX_IDLE) := by
  have h : TxIs s TxState.TX_IDLE s._tx_timer s._tx_sr s._tx_counter s._tx [b] :=
    ⟨hidle, rfl, rfl, rfl, rfl, hq⟩
  have hbits := tx_frame_bits cfg line s hD1 hD h
  have hafter : ∀ n, 10 * cfg.DIVISOR ≤ n →
      TxIs (run cfg line (n + 1) s) TxState.TX_IDLE cfg.DIVISOR (txWord cfg b >>> 10) 10
        true [] := by
    intro n hn
    induction n, hn using Nat.le_induction with
    | base => exact tx_frame_end cfg line s hD1 hD h
    | succ m _ ih => rw [run_succ]; exact tx_idle cfg _ _ ih
  refine ⟨?_, ?_, ?_, ?_, ?_⟩
  · intro n hn
    have := (hbits n 0 n (by omega) (by omega) hn).level
    rwa [txLevel_start] at this
  · intro k n hk h1 h2
    have e : (k + 2) * cfg.DIVISOR = (k + 1) * cfg.DIVISOR + cfg.DIVISOR := Nat.succ_mul _ _
    have := (hbits n (k + 1) (n - (k + 1) * cfg.DIVISOR) (by omega) (by omega) (by omega)).level
    rwa [txLevel_data cfg b k hk] at this
  · intro n hn
    by_cases h10 : n < 10 * cfg.DIVISOR
    · have := (hbits n 9 (n - 9 * cfg.DIVISOR) (by omega) (by omega) (by omega)).level
      rwa [txLevel_stop] at this
    · exact (hafter n (by omega)).level
  · intro n hn
    have hq9 : n / cfg.DIVISOR ≤ 9 := by
      have : n / cfg.DIVISOR < 10 := Nat.div_lt_of_lt_mul (by omega)
      omega
    have hdm := Nat.div_add_mod n cfg.DIVISOR
    rw [Nat.mul_comm] at hdm
    exact (hbits n _ _ hdm.symm hq9 (Nat.mod_lt _ (by omega))).state
  · intro n hn
    exact (hafter n hn).state

/-- Witness of C2: divisor 1 and the byte `0x80` on a target with signed
`char`. -/
theorem C2_transmit_waveform_witness :
    (1 ≤ (Config.mk 1 true).DIVISOR ∧ (Config.mk 1 true).DIVISOR < 2 ^ 32 ∧
        ((UartConnector.new exampleMem).tx [0x80])._tx_state = TxState.TX_IDLE ∧
        ((UartConnector.new exampleMem).tx [0x80])._tx_buffer = [0x80]) ∧
      (run (Config.mk 1 true) (fun _ => true) (8 + 1)
        ((UartConnector.new exampleMem).tx [0x80]))._tx = (0x80 : Fin 256).val.testBit 7 :=
  ⟨⟨by decide, by decide, rfl, rfl⟩,
    (C2_transmit_waveform (Config.mk 1 true) (fun _ => true)
      ((UartConnector.new exampleMem).tx [0x80]) 0x80 (by decide) (by decide) rfl rfl).2.1
      7 8 (by decide) (by decide) (by decide)⟩

/-- C3: receiver decoding of an arbitrary input line. For every divisor `D`
with `2 ≤ D` (a `uint32_t`), every connector whose receiver is idle and every
line that is low on tick 0, with `s_k` the level on tick `D / 2 + k * D`:
every tick before tick `D / 2 + 9 * D` returns `NOP`; tick `D / 2 + 9 * D`
returns `RECEIVED` exactly when `s_0` is low and `s_9` is high; and then
`last_byte()` is the sum of `s_(i+1) * 2^i` over `i < 8`. -/
theorem C3_receiver_decoding (cfg : Config) (line : Nat → Bool) (s : UartConnector)
    (hD2 : 2 ≤ cfg.DIVISOR) (hD : cfg.DIVISOR < 2 ^ 32)
    (hidle : s._rx_state = RxState.RX_IDLE) (h0 : line 0 = false) :
    (∀ n, n < cfg.DIVISOR / 2 + 9 * cfg.DIVISOR → resultAt cfg line n s = result.NOP) ∧
      (resultAt cfg line (cfg.DIVISOR / 2 + 9 * cfg.DIVISOR) s = result.RECEIVED ↔
        (sampleAt cfg.DIVISOR line 0 = false ∧ sampleAt cfg.DIVISOR line 9 = true)) ∧
      (sampleAt cfg.DIVISOR line 0 = false → sampleAt cfg.DIVISOR line 9 = true →
        (run cfg line (cfg.DIVISOR / 2 + 9 * cfg.DIVISOR + 1) s).last_byte =
          ∑ i in Finset.range 8, bit (sampleAt cfg.DIVISOR line (i + 1)) * 2 ^ i) := by
  have hbad := acc10_bad (sampleAt cfg.DIVISOR line 0) (sampleAt cfg.DIVISOR line 1)
    (sampleAt cfg.DIVISOR line 2) (sampleAt cfg.DIVISOR line 3) (sampleAt cfg.DIVISOR line 4)
    (sampleAt cfg.DIVISOR line 5) (sampleAt cfg.DIVISOR line 6) (sampleAt cfg.DIVISOR line 7)
    (sampleAt cfg.DIVISOR line 8) (sampleAt cfg.DIVISOR line 9)
  have hbyte := acc10_byte (sampleAt cfg.DIVISOR line 0) (sampleAt cfg.DIVISOR line 1)
    (sampleAt cfg.DIVISOR line 2) (sampleAt cfg.DIVISOR line 3) (sampleAt cfg.DIVISOR line 4)
    (sampleAt cfg.DIVISOR line 5) (sampleAt cfg.DIVISOR line 6) (sampleAt cfg.DIVISOR line 7)
    (sampleAt cfg.DIVISOR line 8) (sampleAt cfg.DIVISOR line 9)
  rw [← rxAcc_ten] at hbad hbyte
  refine ⟨fun n hn => (rx_frame_quiet cfg line s hD2 hD hidle h0 n hn).1, ?_, ?_⟩
  · by_cases hv : frameBad (rxAcc (sampleAt cfg.DIVISOR line) 10)
    · have hr := (rx_frame_bad cfg line s hD2 hD hidle h0 hv).2
      rw [hr]
      constructor
      · intro hc; cases hc
      · rintro ⟨h1, h2⟩
        rcases hbad.mp hv with h3 | h3
        · rw [h1] at h3; cases h3
        · rw [h2] at h3; cases h3
    · have hr := (rx_frame_good cfg line s hD2 hD hidle h0 hv).2
      rw [hr]
      refine ⟨fun _ => ?_, fun _ => rfl⟩
      constructor
      · cases h1 : sampleAt cfg.DIVISOR line 0
        · rfl
        · exact absurd (hbad.mpr (Or.inl h1)) hv
      · cases h2 : sampleAt cfg.DIVISOR line 9
        · exact absurd (hbad.mpr (Or.inr h2)) hv
        · rfl
  · intro h1 h2
    have hv : ¬ frameBad (rxAcc (sampleAt cfg.DIVISOR line) 10) := by
      intro hv
      rcases hbad.mp hv with h3 | h3
      · rw [h1] at h3; cases h3
      · rw [h2] at h3; cases h3
    have hl := (rx_frame_good cfg line s hD2 hD hidle h0 hv).1.lb
    unfold UartConnector.last_byte
    rw [hl, hbyte]
    simp only [Finset.sum_range_succ, Finset.sum_range_zero, Nat.reduceAdd, Nat.reducePow]
    omega

/-- Witness of C3: divisor 2 and a line that is always low. -/
theorem C3_receiver_decoding_witness :
    (2 ≤ (Config.mk 2 false).DIVISOR ∧ (Config.mk 2 false).DIVISOR < 2 ^ 32 ∧
        (UartConnector.new exampleMem)._rx_state = RxState.RX_IDLE ∧
        (fun _ : Nat => false) 0 = false) ∧
      ∀ n, n < (Config.mk 2 false).DIVISOR / 2 + 9 * (Config.mk 2 false).DIVISOR →
        resultAt (Config.mk 2 false) (fun _ => false) n (UartConnector.new exampleMem) =
          result.NOP :=
  ⟨⟨by decide, by decide, rfl, rfl⟩,
    (C3_receiver_decoding (Config.mk 2 false) (fun _ => false) (UartConnector.new exampleMem)
      (by decide) (by decide) rfl rfl).1⟩

/-- Counterexample to C4 as stated: `tx("A")` then `tx("B")` does not leave the
connector as `tx("AB")` does; the queue holds `"B"` alone. -/
theorem C4_tx_appends_counterexample :
    ((UartConnector.new exampleMem).tx [0x41]).tx [0x42] ≠
        (UartConnector.new exampleMem).tx ([0x41] ++ [0x42]) ∧
      (((UartConnector.new exampleMem).tx [0x41]).tx [0x42])._tx_buffer = [0x42] := by
  refine ⟨fun h => ?_, rfl⟩
  have h2 := congrArg UartConnector._tx_buffer h
  exact absurd h2 (by decide)

/-- C4, amended: `tx` replaces the outbound queue. For all byte strings `a` and
`b` and every connector state, `tx(a)` then `tx(b)` with no tick in between
leaves the connector in the same state as the single call `tx(b)`; that state
is the one `tx(a ++ b)` leaves only when `a` is empty. -/
theorem C4_tx_replaces_queue (s : UartConnector) (a b : List (Fin 256)) :
    (s.tx a).tx b = s.tx b ∧ ((s.tx a).tx b = s.tx (a ++ b) ↔ a = []) := by
  refine ⟨rfl, fun h => ?_, fun h => ?_⟩
  · have h2 : b = a ++ b := congrArg UartConnector._tx_buffer h
    have h3 := congrArg List.length h2
    rw [List.length_append] at h3
    exact List.eq_nil_of_length_eq_zero (by omega)
  · subst h
    rfl

/-- Counterexample to C5 as stated: with divisor 2 and a line held low, tick 19
takes the tenth sample of a frame whose stop sample is low, writes the
diagnostic to `std::cerr`, and returns `NOP`, the value the uneventful tick 5
of the same frame returns. -/
theorem C5_frame_error_result_counterexample :
    resultAt (Config.mk 2 false) (fun _ => false) 19 (UartConnector.new exampleMem) =
        result.NOP ∧
      (run (Config.mk 2 false) (fun _ => false) 20 (UartConnector.new exampleMem)).cerr =
        (UartConnector.new exampleMem).cerr ++ [errLine] ∧
      resultAt (Config.mk 2 false) (fun _ => false) 5 (UartConnector.new exampleMem) =
        resultAt (Config.mk 2 false) (fun _ => false) 19 (UartConnector.new exampleMem) := by
  have hb := rx_frame_bad (Config.mk 2 false) (fun _ => false) (UartConnector.new exampleMem)
    (by decide) (by decide) rfl rfl (by decide)
  have hq := rx_frame_quiet (Config.mk 2 false) (fun _ => false)
    (UartConnector.new exampleMem) (by decide) (by decide) rfl rfl 5 (by decide)
  exact ⟨hb.2, hb.1.err, hq.1.trans hb.2.symm⟩

/-- C5, amended: a frame error is not a distinct `tick()` result. The result
type has the two values `NOP` and `RECEIVED` only; for every divisor `D` with
`2 ≤ D` (a `uint32_t`), when the tick that takes the tenth sample of a frame
finds the first sample high or the last sample low it returns `NOP`, the value
every earlier tick of the frame returned, so it differs from `RECEIVED`; the
error shows only as the line `UartConnector ERR` added to `std::cerr`. -/
theorem C5_frame_error_returns_NOP (cfg : Config) (line : Nat → Bool) (s : UartConnector)
    (hD2 : 2 ≤ cfg.DIVISOR) (hD : cfg.DIVISOR < 2 ^ 32)
    (hidle : s._rx_state = RxState.RX_IDLE) (h0 : line 0 = false)
    (hbad : sampleAt cfg.DIVISOR line 0 = true ∨ sampleAt cfg.DIVISOR line 9 = false) :
    resultAt cfg line (cfg.DIVISOR / 2 + 9 * cfg.DIVISOR) s = result.NOP ∧
      resultAt cfg line (cfg.DIVISOR / 2 + 9 * cfg.DIVISOR) s ≠ result.RECEIVED ∧
      (∀ n, n < cfg.DIVISOR / 2 + 9 * cfg.DIVISOR →
        resultAt cfg line n s = resultAt cfg line (cfg.DIVISOR / 2 + 9 * cfg.DIVISOR) s) ∧
      (run cfg line (cfg.DIVISOR / 2 + 9 * cfg.DIVISOR + 1) s).cerr = s.cerr ++ [errLine] ∧
      (∀ r : result, r = result.NOP ∨ r = result.RECEIVED) := by
  have hb := rx_frame_bad cfg line s hD2 hD hidle h0 ((frameBad_iff cfg line).mpr hbad)
  refine ⟨hb.2, ?_, ?_, hb.1.err, ?_⟩
  · rw [hb.2]; decide
  · intro n hn
    rw [hb.2]
    exact (rx_frame_quiet cfg line s hD2 hD hidle h0 n hn).1
  · intro r; cases r
    · exact Or.inl rfl
    · exact Or.inr rfl

/-- Witness of C5: divisor 2 and a line held low. -/
theorem C5_frame_error_returns_NOP_witness :
    (2 ≤ (Config.mk 2 false).DIVISOR ∧ (Config.mk 2 false).DIVISOR < 2 ^ 32 ∧
        (UartConnector.new exampleMem)._rx_state = RxState.RX_IDLE ∧
        (fun _ : Nat => false) 0 = false ∧
        (sampleAt (Config.mk 2 false).DIVISOR (fun _ => false) 0 = true ∨
          sampleAt (Config.mk 2 false).DIVISOR (fun _ => false) 9 = false)) ∧
      resultAt (Config.mk 2 false) (fun _ => false)
        ((Config.mk 2 false).DIVISOR / 2 + 9 * (Config.mk 2 false).DIVISOR)
        (UartConnector.new exampleMem) = result.NOP :=
  ⟨⟨by decide, by decide, rfl, rfl, Or.inr rfl⟩,
    (C5_frame_error_returns_NOP (Config.mk 2 false) (fun _ => false)
      (UartConnector.new exampleMem) (by decide) (by decide) rfl rfl (Or.inr rfl)).1⟩

/-- C6: recovery after a frame error. For every divisor `D` with `2 ≤ D` (a
`uint32_t`), on the tick `resolveTick D` that takes the tenth sample of a frame
whose start sample is high or whose stop sample is low the receiver returns to
idle and reports `NOP`, not `RECEIVED`; and if the line is then high for `m`
ticks (any `m`, so also at least one) and carries from tick
`resolveTick D + 1 + m` on the waveform of a byte `b` (low for `D` ticks, bit
`k` of `b` for `D` ticks each, `k < 8`, then high for `D` ticks), the receiver
is still idle when that start arrives, detects it on its first low tick, and
reports `RECEIVED` with `last_byte() = b` exactly `resolveTick D` ticks later,
every tick in between returning `NOP`. -/
theorem C6_recovery_after_frame_error (cfg : Config) (line : Nat → Bool)
    (s : UartConnector) (b : Fin 256) (m : Nat)
    (hD2 : 2 ≤ cfg.DIVISOR) (hD : cfg.DIVISOR < 2 ^ 32)
    (hidle : s._rx_state = RxState.RX_IDLE) (h0 : line 0 = false)
    (hbad : sampleAt cfg.DIVISOR line 0 = true ∨ sampleAt cfg.DIVISOR line 9 = false)
    (hhigh : ∀ i, i < m → line (resolveTick cfg.DIVISOR + 1 + i) = true)
    (hstart : ∀ i, i < cfg.DIVISOR → line (resolveTick cfg.DIVISOR + 1 + m + i) = false)
    (hdata : ∀ k i, k < 8 → i < cfg.DIVISOR →
      line (resolveTick cfg.DIVISOR + 1 + m + ((k + 1) * cfg.DIVISOR + i)) = b.val.testBit k)
    (hstop : ∀ i, i < cfg.DIVISOR →
      line (resolveTick cfg.DIVISOR + 1 + m + (9 * cfg.DIVISOR + i)) = true) :
    (run cfg line (resolveTick cfg.DIVISOR + 1) s)._rx_state = RxState.RX_IDLE ∧
      resultAt cfg line (resolveTick cfg.DIVISOR) s = result.NOP ∧
      (run cfg line (resolveTick cfg.DIVISOR + 1 + m) s)._rx_state = RxState.RX_IDLE ∧
      (run cfg line (resolveTick cfg.DIVISOR + 1 + m + 1) s)._rx_state = RxState.RX_BIT ∧
      (∀ n, n < resolveTick cfg.DIVISOR →
        resultAt cfg line (resolveTick cfg.DIVISOR + 1 + m + n) s = result.NOP) ∧
      resultAt cfg line (resolveTick cfg.DIVISOR + 1 + m + resolveTick cfg.DIVISOR) s =
        result.RECEIVED ∧
      (run cfg line (resolveTick cfg.DIVISOR + 1 + m + resolveTick cfg.DIVISOR + 1) s).last_byte =
        b.val := by
  have hb := rx_frame_bad cfg line s hD2 hD hidle h0 ((frameBad_iff cfg line).mpr hbad)
  have hst := rx_idle_stretch cfg line s (resolveTick cfg.DIVISOR + 1) hb.1 m hhigh
  have hx := hst.1.state
  have hl0 : line (resolveTick cfg.DIVISOR + 1 + m + 0) = false := hstart 0 (by omega)
  have hacc := samples_of_waveform (fun i => line (resolveTick cfg.DIVISOR + 1 + m + i))
    cfg.DIVISOR hD2 b hstart hdata hstop
  have hrt := acc10_roundtrip b
  rw [← hacc] at hrt
  have hg := rx_frame_good cfg (fun i => line (resolveTick cfg.DIVISOR + 1 + m + i))
    (run cfg line (resolveTick cfg.DIVISOR + 1 + m) s) hD2 hD hx hl0 hrt.1
  have hq := rx_frame_quiet cfg (fun i => line (resolveTick cfg.DIVISOR + 1 + m + i))
    (run cfg line (resolveTick cfg.DIVISOR + 1 + m) s) hD2 hD hx hl0
  refine ⟨hb.1.state, hb.2, hx, ?_, ?_, ?_, ?_⟩
  · rw [run_add]
    exact (hq 0 (by omega)).2.1
  · intro n hn
    rw [resultAt_add]
    exact (hq n hn).1
  · rw [resultAt_add]
    exact hg.2
  · rw [Nat.add_assoc (resolveTick cfg.DIVISOR + 1 + m), run_add]
    exact hg.1.lb.trans hrt.2

/-- Witness of C6: divisor 2 on `exampleLine`, a frame with a low stop sample,
one high tick, then the frame of `0x55`. -/
theorem C6_recovery_after_frame_error_witness :
    (2 ≤ (Config.mk 2 false).DIVISOR ∧ (Config.mk 2 false).DIVISOR < 2 ^ 32 ∧
        (UartConnector.new exampleMem)._rx_state = RxState.RX_IDLE ∧
        exampleLine 0 = false ∧
        (sampleAt (Config.mk 2 false).DIVISOR exampleLine 0 = true ∨
          sampleAt (Config.mk 2 false).DIVISOR exampleLine 9 = false)) ∧
      resultAt (Config.mk 2 false) exampleLine
          (resolveTick (Config.mk 2 false).DIVISOR + 1 + 1 +
            resolveTick (Config.mk 2 false).DIVISOR)
          (UartConnector.new exampleMem) = result.RECEIVED ∧
      (run (Config.mk 2 false) exampleLine
          (resolveTick (Config.mk 2 false).DIVISOR + 1 + 1 +
            resolveTick (Config.mk 2 false).DIVISOR + 1)
          (UartConnector.new exampleMem)).last_byte = (0x55 : Fin 256).val := by
  have h1 : ∀ i, i < 1 → exampleLine (19 + 1 + i) = true := by decide
  have h2 : ∀ i, i < 2 → exampleLine (19 + 1 + 1 + i) = false := by decide
  have h3 : ∀ k, k < 8 → ∀ i, i < 2 →
      exampleLine (19 + 1 + 1 + ((k + 1) * 2 + i)) = (0x55 : Fin 256).val.testBit k := by
    decide
  have h4 : ∀ i, i < 2 → exampleLine (19 + 1 + 1 + (9 * 2 + i)) = true := by decide
  have h := C6_recovery_after_frame_error (Config.mk 2 false) exampleLine
    (UartConnector.new exampleMem) 0x55 1 (by decide) (by decide) rfl rfl (Or.inr rfl)
    h1 h2 (fun k i hk hi => h3 k hk i hi) h4
  exact ⟨⟨by decide, by decide, rfl, rfl, Or.inr rfl⟩, h.2.2.2.2.2.1, h.2.2.2.2.2.2⟩

/-- Counterexample to C7 as stated: with divisor 2 and a line held low the
start is detected on tick 0 and the frame is resolved by tick 19, not by tick
`10 * 2`; no tick before tick 19 resolves it. -/
theorem C7_framing_boundary_counterexample :
    resolvesAt (Config.mk 2 false) (fun _ => false) (UartConnector.new exampleMem) 19 ∧
      (∀ t, t < 19 →
        ¬ resolvesAt (Config.mk 2 false) (fun _ => false) (UartConnector.new exampleMem) t) ∧
      ¬ resolvesAt (Config.mk 2 false) (fun _ => false) (UartConnector.new exampleMem)
        (10 * (Config.mk 2 false).DIVISOR) := by
  have h := rx_frame_resolves (Config.mk 2 false) (fun _ => false)
    (UartConnector.new exampleMem) (by decide) (by decide) rfl rfl
  refine ⟨h.1, h.2.1, fun hres => ?_⟩
  have h20 : (run (Config.mk 2 false) (fun _ => false) 20
      (UartConnector.new exampleMem))._rx_state = RxState.RX_IDLE := h.1.2
  have h20b : (run (Config.mk 2 false) (fun _ => false) 20
      (UartConnector.new exampleMem))._rx_state = RxState.RX_BIT := hres.1
  rw [h20] at h20b
  cases h20b

/-- C7, amended: for every divisor `D` with `2 ≤ D` (a `uint32_t`) and every
input line, exactly `D / 2 + 9 * D` ticks (fewer than `10 * D`) elapse between
the tick on which the idle receiver detects the start (line low) and the tick
that resolves the frame: the receiver is framing after every tick before it
and idle after it, and that tick returns `RECEIVED` or writes the frame error
to `std::cerr`. -/
theorem C7_framing_boundary (cfg : Config) (line : Nat → Bool) (s : UartConnector)
    (hD2 : 2 ≤ cfg.DIVISOR) (hD : cfg.DIVISOR < 2 ^ 32)
    (hidle : s._rx_state = RxState.RX_IDLE) (h0 : line 0 = false) :
    resolvesAt cfg line s (cfg.DIVISOR / 2 + 9 * cfg.DIVISOR) ∧
      (∀ t, t < cfg.DIVISOR / 2 + 9 * cfg.DIVISOR → ¬ resolvesAt cfg line s t) ∧
      (∀ t, t < cfg.DIVISOR / 2 + 9 * cfg.DIVISOR →
        (run cfg line (t + 1) s)._rx_state = RxState.RX_BIT) ∧
      (resultAt cfg line (cfg.DIVISOR / 2 + 9 * cfg.DIVISOR) s = result.RECEIVED ∨
        (run cfg line (cfg.DIVISOR / 2 + 9 * cfg.DIVISOR + 1) s).cerr = s.cerr ++ [errLine]) ∧
      cfg.DIVISOR / 2 + 9 * cfg.DIVISOR < 10 * cfg.DIVISOR := by
  have h := rx_frame_resolves cfg line s hD2 hD hidle h0
  refine ⟨h.1, h.2.1, fun t ht => (rx_frame_quiet cfg line s hD2 hD hidle h0 t ht).2.1,
    ?_, by omega⟩
  by_cases hv : frameBad (rxAcc (sampleAt cfg.DIVISOR line) 10)
  · exact Or.inr (rx_frame_bad cfg line s hD2 hD hidle h0 hv).1.err
  · exact Or.inl (rx_frame_good cfg line s hD2 hD hidle h0 hv).2

/-- Witness of C7: divisor 2 and a line held low. -/
theorem C7_framing_boundary_witness :
    (2 ≤ (Config.mk 2 false).DIVISOR ∧ (Config.mk 2 false).DIVISOR < 2 ^ 32 ∧
        (UartConnector.new exampleMem)._rx_state = RxState.RX_IDLE ∧
        (fun _ : Nat => false) 0 = false) ∧
      resolvesAt (Config.mk 2 false) (fun _ => false) (UartConnector.new exampleMem)
        ((Config.mk 2 false).DIVISOR / 2 + 9 * (Config.mk 2 false).DIVISOR) :=
  ⟨⟨by decide, by decide, rfl, rfl⟩,
    (C7_framing_boundary (Config.mk 2 false) (fun _ => false) (UartConnector.new exampleMem)
      (by decide) (by decide) rfl rfl).1⟩

/-- C8: idle invariant of the transmitter. In every state reachable from the
constructor state in which the transmitter is idle and the outbound queue is
empty, the transmit line is high, `tick()` changes neither the line nor any
transmitter field (state, timer, shift register, bit counter, queue), and the
line stays high for any number of ticks. -/
theorem C8_transmitter_idle_invariant (cfg : Config) (s : UartConnector)
    (hr : Reachable cfg s) (hidle : s._tx_state = TxState.TX_IDLE)
    (hq : s._tx_buffer = []) :
    s._tx = true ∧
      (∀ rx, (s.tick cfg rx).1._tx = s._tx ∧
        (s.tick cfg rx).1._tx_state = s._tx_state ∧
        (s.tick cfg rx).1._tx_timer = s._tx_timer ∧
        (s.tick cfg rx).1._tx_sr = s._tx_sr ∧
        (s.tick cfg rx).1._tx_counter = s._tx_counter ∧
        (s.tick cfg rx).1._tx_buffer = s._tx_buffer) ∧
      (∀ line n, (run cfg line n s)._tx = true) := by
  have hhigh := reachable_idle_high cfg hr hidle
  refine ⟨hhigh, fun rx => ?_, fun line n => ?_⟩
  · obtain ⟨e1, e2, e3, e4, e5, e6⟩ := tick_tx_fields cfg s rx
    rw [tickTx_idle_nil cfg s hidle hq] at e1 e2 e3 e4 e5 e6
    exact ⟨e5, e1, e2, e3, e4, e6⟩
  · exact (tx_idle_run cfg line s
      (⟨hidle, rfl, rfl, rfl, hhigh, hq⟩ : TxIs s _ s._tx_timer s._tx_sr s._tx_counter _ _)
      n).level

/-- Witness of C8: the constructor state itself. -/
theorem C8_transmitter_idle_invariant_witness :
    (Reachable (Config.mk 4 true) (UartConnector.new exampleMem) ∧
        (UartConnector.new exampleMem)._tx_state = TxState.TX_IDLE ∧
        (UartConnector.new exampleMem)._tx_buffer = []) ∧
      (UartConnector.new exampleMem)._tx = true :=
  ⟨⟨Reachable.init exampleMem, rfl, rfl⟩,
    (C8_transmitter_idle_invariant (Config.mk 4 true) (UartConnector.new exampleMem)
      (Reachable.init exampleMem) rfl rfl).1⟩

/-- C9: the scenario with divisor 4. In loopback from the constructor state,
after `tx("hi\n")`, the ticks that return `RECEIVED` among the first `N` are,
for every `N`, those of ticks 38, 79 and 120 that lie below `N`, and
`last_byte()` after them is `0x68`, `0x69`, `0x0A`; so exactly three ticks
return `RECEIVED`. Nothing is written to `std::cerr` (no frame is rejected).
Tick 0 drives the first start bit low, and the third `RECEIVED` comes on tick
120, which is at most `0 + 3 * 10 * 4`. -/
theorem C9_scenario_hi (mem : UartConnector) (sg : Bool) (N : Nat) :
    loopbackEvents (Config.mk 4 sg) N ((UartConnector.new mem).tx [0x68, 0x69, 0x0A]) =
        ([(38, 0x68), (79, 0x69), (120, 0x0A)] : List (Nat × Nat)).filter
          (fun e => decide (e.1 < N)) ∧
      loopbackEvents (Config.mk 4 sg) 121 ((UartConnector.new mem).tx [0x68, 0x69, 0x0A]) =
        [(38, 0x68), (79, 0x69), (120, 0x0A)] ∧
      (runLoopback (Config.mk 4 sg) N ((UartConnector.new mem).tx [0x68, 0x69, 0x0A])).cerr =
        ((UartConnector.new mem).tx [0x68, 0x69, 0x0A]).cerr ∧
      ((UartConnector.new mem).tx [0x68, 0x69, 0x0A])._tx = true ∧
      (runLoopback (Config.mk 4 sg) 1 ((UartConnector.new mem).tx [0x68, 0x69, 0x0A]))._tx =
        false ∧
      120 ≤ 0 + 3 * 10 * 4 := by
  have h : TxIs ((UartConnector.new mem).tx [0x68, 0x69, 0x0A]) TxState.TX_IDLE
      mem._tx_timer mem._tx_sr mem._tx_counter true [0x68, 0x69, 0x0A] :=
    ⟨rfl, rfl, rfl, rfl, rfl, rfl⟩
  have hall : ∀ M, loopbackEvents (Config.mk 4 sg) M
        ((UartConnector.new mem).tx [0x68, 0x69, 0x0A]) =
          ([(38, 0x68), (79, 0x69), (120, 0x0A)] : List (Nat × Nat)).filter
            (fun e => decide (e.1 < M)) ∧
      (runLoopback (Config.mk 4 sg) M ((UartConnector.new mem).tx [0x68, 0x69, 0x0A])).cerr =
        ((UartConnector.new mem).tx [0x68, 0x69, 0x0A]).cerr := by
    intro M
    have hfe : frameEvents (10 * (Config.mk 4 sg).DIVISOR + 1)
        ((Config.mk 4 sg).DIVISOR / 2 + 9 * (Config.mk 4 sg).DIVISOR) 0 [0x68, 0x69, 0x0A] =
          [(38, 0x68), (79, 0x69), (120, 0x0A)] := by
      simp only [frameEvents_cons]
      rfl
    have := loop_all (Config.mk 4 sg) (show 2 ≤ 4 from by decide)
      (show 4 < 2 ^ 32 from by decide) [0x68, 0x69, 0x0A] _ h rfl M
    rw [hfe] at this
    exact this
  refine ⟨(hall N).1, (hall 121).1, (hall N).2, rfl, ?_, by decide⟩
  rw [loopback_eq_run]
  exact (tx_start (Config.mk 4 sg) _ _ h).level

/-- C10: the last decoded byte is overwritten only by a successful decode. For
every connector state and every level of the receive line, if `tick()` does
not return `RECEIVED` then `last_byte()` after the tick equals `last_byte()`
before it; and `tx()` never changes `last_byte()`. -/
theorem C10_last_byte_kept (cfg : Config) (s : UartConnector) (rx : Bool) :
    ((s.tick cfg rx).2 ≠ result.RECEIVED →
        (s.tick cfg rx).1.last_byte = s.last_byte) ∧
      (∀ b, (s.tx b).last_byte = s.last_byte) := by
  refine ⟨fun hne => ?_, fun _ => rfl⟩
  rcases tick_last_byte cfg s rx with h | h
  · exact absurd h hne
  · exact h

/-- Witness of C10: an idle receiver reading a high line. -/
theorem C10_last_byte_kept_witness :
    ((UartConnector.new exampleMem).tick (Config.mk 4 true) true).2 ≠ result.RECEIVED ∧
      ((UartConnector.new exampleMem).tick (Config.mk 4 true) true).1.last_byte =
        (UartConnector.new exampleMem).last_byte :=
  have hne : ((UartConnector.new exampleMem).tick (Config.mk 4 true) true).2 ≠
      result.RECEIVED := by
    rw [(rx_idle_high (Config.mk 4 true) (UartConnector.new exampleMem)
      (⟨rfl, rfl, rfl, rfl, rfl, rfl⟩ :
        RxIs (UartConnector.new exampleMem) _ exampleMem._rx_timer exampleMem._rx_sr
          exampleMem._rx_counter exampleMem._last_byte exampleMem.cerr)).2]
    decide
  ⟨hne, (C10_last_byte_kept (Config.mk 4 true) (UartConnector.new exampleMem) true).1 hne⟩

end Claims

/-! ## One tick, member by member -/

section Members

variable (cfg : Config) (s : UartConnector) (rx : Bool)

/-- What a tick that begins with the transmitter sending does to the
transmitter members. -/
theorem tickTx_sending (h : s._tx_state = TxState.TX_BIT) :
    (s.tickTx cfg)._tx_buffer = s._tx_buffer ∧
      (((s.tickTx cfg)._tx_sr = s._tx_sr ∧ (s.tickTx cfg)._tx_counter = s._tx_counter) ∨
        ((s.tickTx cfg)._tx_sr = s._tx_sr >>> 1 ∧
          (s.tickTx cfg)._tx_counter = inc8 s._tx_counter)) := by
  by_cases ht : dec32 s._tx_timer = 0
  · by_cases hc : inc8 s._tx_counter = 10
    · rw [tickTx_last cfg s h ht hc]; exact ⟨rfl, Or.inr ⟨rfl, rfl⟩⟩
    · rw [tickTx_emit cfg s h ht hc]; exact ⟨rfl, Or.inr ⟨rfl, rfl⟩⟩
  · rw [tickTx_wait cfg s h ht]; exact ⟨rfl, Or.inl ⟨rfl, rfl⟩⟩

/-- What a tick that begins with the receiver framing does to the accumulator
and the bit counter. -/
theorem tickRx_framing (h : s._rx_state = RxState.RX_BIT) :
    ((s.tickRx cfg rx).1._rx_sr = s._rx_sr ∧
        (s.tickRx cfg rx).1._rx_counter = s._rx_counter) ∨
      ((s.tickRx cfg rx).1._rx_sr = rxShift s._rx_sr rx ∧
        (s.tickRx cfg rx).1._rx_counter = inc8 s._rx_counter) ∨
      ((s.tickRx cfg rx).1._rx_sr = frameData (rxShift s._rx_sr rx) ∧
        (s.tickRx cfg rx).1._rx_counter = inc8 s._rx_counter ∧
        (s.tickRx cfg rx).2 = result.RECEIVED) := by
  by_cases ht : dec32 s._rx_timer = 0
  · by_cases hc : inc8 s._rx_counter = 10
    · by_cases hv : frameBad (rxShift s._rx_sr rx)
      · rw [tickRx_bad_fst cfg s rx h ht hc hv]; exact Or.inr (Or.inl ⟨rfl, rfl⟩)
      · rw [tickRx_good_fst cfg s rx h ht hc hv, tickRx_good_snd cfg s rx h ht hc hv]
        exact Or.inr (Or.inr ⟨rfl, rfl, rfl⟩)
    · rw [tickRx_sample_fst cfg s rx h ht hc]; exact Or.inr (Or.inl ⟨rfl, rfl⟩)
  · rw [tickRx_wait_fst cfg s rx h ht]; exact Or.inl ⟨rfl, rfl⟩

theorem tick_rx_fields :
    (s.tick cfg rx).1 = ((s.tickTx cfg).tickRx cfg rx).1 ∧
      (s.tick cfg rx).2 = ((s.tickTx cfg).tickRx cfg rx).2 ∧
      RxAgree (s.tickTx cfg) s :=
  ⟨rfl, rfl,
    (rxIs_tickTx cfg s (⟨rfl, rfl, rfl, rfl, rfl, rfl⟩ : RxIs s _ _ _ _ _ _)).state,
    (rxIs_tickTx cfg s (⟨rfl, rfl, rfl, rfl, rfl, rfl⟩ : RxIs s _ _ _ _ _ _)).timer,
    (rxIs_tickTx cfg s (⟨rfl, rfl, rfl, rfl, rfl, rfl⟩ : RxIs s _ _ _ _ _ _)).sr,
    (rxIs_tickTx cfg s (⟨rfl, rfl, rfl, rfl, rfl, rfl⟩ : RxIs s _ _ _ _ _ _)).counter,
    (rxIs_tickTx cfg s (⟨rfl, rfl, rfl, rfl, rfl, rfl⟩ : RxIs s _ _ _ _ _ _)).lb⟩

end Members

/-! ## Two connectors side by side -/

section Agree

variable (cfg : Config)

theorem tickTx_agree (s1 s2 : UartConnector) (h : TxAgree s1 s2) (hl : s1._tx = s2._tx) :
    TxAgree (s1.tickTx cfg) (s2.tickTx cfg) ∧ (s1.tickTx cfg)._tx = (s2.tickTx cfg)._tx := by
  obtain ⟨h1, h2, h3, h4, h5⟩ := h
  cases hst : s1._tx_state with
  | TX_IDLE =>
    have hst2 : s2._tx_state = TxState.TX_IDLE := h1.symm.trans hst
    cases hq : s1._tx_buffer with
    | nil =>
      have hq2 : s2._tx_buffer = [] := h5.symm.trans hq
      rw [tickTx_idle_nil cfg s1 hst hq, tickTx_idle_nil cfg s2 hst2 hq2]
      exact ⟨⟨h1, h2, h3, h4, h5⟩, hl⟩
    | cons b rest =>
      have hq2 : s2._tx_buffer = b :: rest := h5.symm.trans hq
      rw [tickTx_idle_cons cfg s1 hst b rest hq, tickTx_idle_cons cfg s2 hst2 b rest hq2]
      exact ⟨⟨rfl, rfl, rfl, rfl, rfl⟩, rfl⟩
  | TX_BIT =>
    have hst2 : s2._tx_state = TxState.TX_BIT := h1.symm.trans hst
    by_cases ht : dec32 s1._tx_timer = 0
    · have ht2 : dec32 s2._tx_timer = 0 := by rw [← h2]; exact ht
      by_cases hc : inc8 s1._tx_counter = 10
      · have hc2 : inc8 s2._tx_counter = 10 := by rw [← h4]; exact hc
        rw [tickTx_last cfg s1 hst ht hc, tickTx_last cfg s2 hst2 ht2 hc2]
        exact ⟨⟨rfl, rfl, congrArg (fun x => x >>> 1) h3, congrArg inc8 h4, h5⟩, rfl⟩
      · have hc2 : inc8 s2._tx_counter ≠ 10 := by rw [← h4]; exact hc
        rw [tickTx_emit cfg s1 hst ht hc, tickTx_emit cfg s2 hst2 ht2 hc2]
        exact ⟨⟨h1, rfl, congrArg (fun x => x >>> 1) h3, congrArg inc8 h4, h5⟩,
          congrArg (fun x => decide (x &&& 1 ≠ 0)) h3⟩
    · have ht2 : dec32 s2._tx_timer ≠ 0 := by rw [← h2]; exact ht
      rw [tickTx_wait cfg s1 hst ht, tickTx_wait cfg s2 hst2 ht2]
      exact ⟨⟨h1, congrArg dec32 h2, h3, h4, h5⟩, hl⟩

theorem tickRx_agree (s1 s2 : UartConnector) (rx : Bool) (h : RxAgree s1 s2) :
    (s1.tickRx cfg rx).2 = (s2.tickRx cfg rx).2 ∧
      RxAgree (s1.tickRx cfg rx).1 (s2.tickRx cfg rx).1 := by
  obtain ⟨h1, h2, h3, h4, h5⟩ := h
  cases hst : s1._rx_state with
  | RX_IDLE =>
    have hst2 : s2._rx_state = RxState.RX_IDLE := h1.symm.trans hst
    cases rx with
    | false =>
      rw [tickRx_idle_low_fst cfg s1 hst, tickRx_idle_low_fst cfg s2 hst2,
        tickRx_idle_low_snd cfg s1 hst, tickRx_idle_low_snd cfg s2 hst2]
      exact ⟨rfl, rfl, rfl, rfl, rfl, h5⟩
    | true =>
      rw [tickRx_idle_high_fst cfg s1 hst, tickRx_idle_high_fst cfg s2 hst2,
        tickRx_idle_high_snd cfg s1 hst, tickRx_idle_high_snd cfg s2 hst2]
      exact ⟨rfl, h1, h2, h3, h4, h5⟩
  | RX_BIT =>
    have hst2 : s2._rx_state = RxState.RX_BIT := h1.symm.trans hst
    by_cases ht : dec32 s1._rx_timer = 0
    · have ht2 : dec32 s2._rx_timer = 0 := by rw [← h2]; exact ht
      by_cases hc : inc8 s1._rx_counter = 10
      · have hc2 : inc8 s2._rx_counter = 10 := by rw [← h4]; exact hc
        by_cases hv : frameBad (rxShift s1._rx_sr rx)
        · have hv2 : frameBad (rxShift s2._rx_sr rx) := by rw [← h3]; exact hv
          rw [tickRx_bad_fst cfg s1 rx hst ht hc hv, tickRx_bad_fst cfg s2 rx hst2 ht2 hc2 hv2,
            tickRx_bad_snd cfg s1 rx hst ht hc hv, tickRx_bad_snd cfg s2 rx hst2 ht2 hc2 hv2]
          exact ⟨rfl, rfl, rfl, congrArg (fun x => rxShift x rx) h3, congrArg inc8 h4, h5⟩
        · have hv2 : ¬ frameBad (rxShift s2._rx_sr rx) := by rw [← h3]; exact hv
          rw [tickRx_good_fst cfg s1 rx hst ht hc hv,
            tickRx_good_fst cfg s2 rx hst2 ht2 hc2 hv2,
            tickRx_good_snd cfg s1 rx hst ht hc hv, tickRx_good_snd cfg s2 rx hst2 ht2 hc2 hv2]
          exact ⟨rfl, rfl, rfl, congrArg (fun x => frameData (rxShift x rx)) h3,
            congrArg inc8 h4, congrArg (fun x => frameByte (rxShift x rx)) h3⟩
      · have hc2 : inc8 s2._rx_counter ≠ 10 := by rw [← h4]; exact hc
        rw [tickRx_sample_fst cfg s1 rx hst ht hc, tickRx_sample_fst cfg s2 rx hst2 ht2 hc2,
          tickRx_sample_snd cfg s1 rx hst ht hc, tickRx_sample_snd cfg s2 rx hst2 ht2 hc2]
        exact ⟨rfl, h1, rfl, congrArg (fun x => rxShift x rx) h3, congrArg inc8 h4, h5⟩
    · have ht2 : dec32 s2._rx_timer ≠ 0 := by rw [← h2]; exact ht
      rw [tickRx_wait_fst cfg s1 rx hst ht, tickRx_wait_fst cfg s2 rx hst2 ht2,
        tickRx_wait_snd cfg s1 rx hst ht, tickRx_wait_snd cfg s2 rx hst2 ht2]
      exact ⟨rfl, h1, congrArg dec32 h2, h3, h4, h5⟩

end Agree

/-! ## Accesses to the lines in one tick -/

section Access

variable (cfg : Config) (s : UartConnector)

theorem writes_idle_nil (h : s._tx_state = TxState.TX_IDLE) (hq : s._tx_buffer = []) :
    s.tickTxWrites = [] := by
  unfold UartConnector.tickTxWrites
  rw [h, hq]

theorem writes_idle_cons (h : s._tx_state = TxState.TX_IDLE) (c : Fin 256)
    (rest : List (Fin 256)) (hq : s._tx_buffer = c :: rest) :
    s.tickTxWrites = [false] := by
  unfold UartConnector.tickTxWrites
  rw [h, hq]

theorem writes_wait (h : s._tx_state = TxState.TX_BIT) (ht : dec32 s._tx_timer ≠ 0) :
    s.tickTxWrites = [] := by
  unfold UartConnector.tickTxWrites
  rw [h]
  exact if_neg ht

theorem writes_emit (h : s._tx_state = TxState.TX_BIT) (ht : dec32 s._tx_timer = 0)
    (hc : inc8 s._tx_counter ≠ 10) :
    s.tickTxWrites = [decide (s._tx_sr &&& 1 ≠ 0)] := by
  unfold UartConnector.tickTxWrites
  rw [h]
  exact (if_pos ht).trans (if_neg hc)

theorem writes_last (h : s._tx_state = TxState.TX_BIT) (ht : dec32 s._tx_timer = 0)
    (hc : inc8 s._tx_counter = 10) :
    s.tickTxWrites = [decide (s._tx_sr &&& 1 ≠ 0), true] := by
  unfold UartConnector.tickTxWrites
  rw [h]
  exact (if_pos ht).trans (if_pos hc)

/-- The writes of the first `switch`: never more than two, two exactly when the
tenth bit is shifted out, and the line ends at the level written last. -/
theorem tickTxWrites_spec :
    s.tickTxWrites.length ≤ 2 ∧
      (s.tickTxWrites.length = 2 ↔
        (s._tx_state = TxState.TX_BIT ∧ dec32 s._tx_timer = 0 ∧ inc8 s._tx_counter = 10)) ∧
      (s.tickTxWrites.length = 2 → s.tickTxWrites.getLast? = some true) ∧
      (s.tickTx cfg)._tx = (s.tickTxWrites.getLast?).getD s._tx := by
  cases hst : s._tx_state with
  | TX_IDLE =>
    have hne : ¬ (TxState.TX_IDLE = TxState.TX_BIT ∧ dec32 s._tx_timer = 0 ∧
        inc8 s._tx_counter = 10) := fun h => by cases h.1
    cases hq : s._tx_buffer with
    | nil =>
      rw [writes_idle_nil s hst hq, tickTx_idle_nil cfg s hst hq]
      refine ⟨by simp, ⟨fun h => ?_, fun h => absurd h hne⟩, fun h => ?_, rfl⟩
      · simp at h
      · simp at h
    | cons b rest =>
      rw [writes_idle_cons s hst b rest hq, tickTx_idle_cons cfg s hst b rest hq]
      refine ⟨by simp, ⟨fun h => ?_, fun h => absurd h hne⟩, fun h => ?_, rfl⟩
      · simp at h
      · simp at h
  | TX_BIT =>
    by_cases ht : dec32 s._tx_timer = 0
    · by_cases hc : inc8 s._tx_counter = 10
      · rw [writes_last s hst ht hc, tickTx_last cfg s hst ht hc]
        exact ⟨Nat.le_refl 2, ⟨fun _ => ⟨rfl, ht, hc⟩, fun _ => rfl⟩, fun _ => rfl, rfl⟩
      · rw [writes_emit s hst ht hc, tickTx_emit cfg s hst ht hc]
        refine ⟨by simp, ⟨fun h => ?_, fun h => absurd h.2.2 hc⟩, fun h => ?_, rfl⟩
        · simp at h
        · simp at h
    · rw [writes_wait s hst ht, tickTx_wait cfg s hst ht]
      refine ⟨by simp, ⟨fun h => ?_, fun h => absurd h.2.1 ht⟩, fun h => ?_, rfl⟩
      · simp at h
      · simp at h

theorem tickRxReads_le_one : s.tickRxReads ≤ 1 := by
  unfold UartConnector.tickRxReads
  cases s._rx_state with
  | RX_IDLE => exact Nat.le_refl 1
  | RX_BIT =>
    by_cases ht : dec32 s._rx_timer = 0
    · exact Nat.le_of_eq (if_pos ht)
    · exact Nat.le_trans (Nat.le_of_eq (if_neg ht)) (Nat.zero_le 1)

theorem writes_of_txIs_last {sr : Nat} {l : Bool} {q : List (Fin 256)}
    (h : TxIs s TxState.TX_BIT 1 sr 9 l q) :
    s.tickWrites = [decide (sr &&& 1 ≠ 0), true] := by
  have ht : dec32 s._tx_timer = 0 := by rw [h.timer]; exact dec32_one
  have hi : inc8 s._tx_counter = 10 := by rw [h.counter]; exact inc8_succ (by omega)
  unfold UartConnector.tickWrites
  rw [writes_last s h.state ht hi, h.sr]

end Access

/-! ## The claims on single ticks -/

section TickClaims

set_option maxRecDepth 100000 in
theorem frameData_zero : ∀ (sr : Fin 512) (rx : Bool),
    ¬ frameBad (rxShift sr.val rx) → frameData (rxShift sr.val rx) = 0 → sr.val = 0 := by
  decide

theorem bit_le_one (b : Bool) : bit b ≤ 1 := by
  cases b <;> decide

theorem rxShift_eq {sr : Nat} (rx : Bool) (h : sr < 2 ^ 15) :
    rxShift sr rx = 2 * sr + bit rx := by
  have hb : bit rx < 2 ^ 1 := Nat.lt_succ_of_le (bit_le_one rx)
  have hor := Nat.mul_add_lt_is_or hb sr
  rw [Nat.pow_one] at hor
  have hle := bit_le_one rx
  unfold rxShift
  rw [Nat.shiftLeft_eq, Nat.pow_one, Nat.mul_comm sr 2, ← hor, Nat.mod_eq_of_lt (by omega)]

theorem rxShift_zero {sr : Nat} {rx : Bool} (h : sr < 2 ^ 15) (h0 : rxShift sr rx = 0) :
    sr = 0 := by
  rw [rxShift_eq rx h] at h0
  omega

/-- C12: no restart mid-frame. For every connector state and line level: a
`tick()` that begins with the transmitter sending leaves the queue as it was
and either keeps shift register and bit counter or shifts the one right by one
and increments the other (it never loads `0x100 | byte` nor stores 0 to the
counter); a `tick()` that begins with the receiver framing either keeps
accumulator and bit counter, or shifts the sample in and increments, or (on a
`RECEIVED`) leaves the decoded byte in the accumulator, whatever the line; and
with the members in range (counter at most 9, accumulator below `2 ^ 9`) it
never turns a counter or an accumulator that is not zero into zero. A tick that
changes the queue began with the transmitter idle; the idle transmitter with a
byte queued is the one that pops it, loads `0x100 | byte` and zeroes the
counter, and the idle receiver on a low line is the one that zeroes accumulator
and counter. -/
theorem C12_no_restart_mid_frame (cfg : Config) (s : UartConnector) (rx : Bool) :
    (s._tx_state = TxState.TX_BIT →
        (s.tick cfg rx).1._tx_buffer = s._tx_buffer ∧
        (((s.tick cfg rx).1._tx_sr = s._tx_sr ∧
            (s.tick cfg rx).1._tx_counter = s._tx_counter) ∨
          ((s.tick cfg rx).1._tx_sr = s._tx_sr >>> 1 ∧
            (s.tick cfg rx).1._tx_counter = inc8 s._tx_counter))) ∧
      (s._rx_state = RxState.RX_BIT →
        ((s.tick cfg rx).1._rx_sr = s._rx_sr ∧
            (s.tick cfg rx).1._rx_counter = s._rx_counter) ∨
          ((s.tick cfg rx).1._rx_sr = rxShift s._rx_sr rx ∧
            (s.tick cfg rx).1._rx_counter = inc8 s._rx_counter) ∨
          ((s.tick cfg rx).1._rx_sr = frameData (rxShift s._rx_sr rx) ∧
            (s.tick cfg rx).1._rx_counter = inc8 s._rx_counter ∧
            (s.tick cfg rx).2 = result.RECEIVED)) ∧
      (s._rx_state = RxState.RX_BIT → s._rx_counter ≤ 9 → s._rx_sr < 2 ^ 9 →
        ((s.tick cfg rx).1._rx_counter = 0 → s._rx_counter = 0) ∧
          ((s.tick cfg rx).1._rx_sr = 0 → s._rx_sr = 0)) ∧
      ((s.tick cfg rx).1._tx_buffer ≠ s._tx_buffer → s._tx_state = TxState.TX_IDLE) ∧
      (∀ c rest, s._tx_state = TxState.TX_IDLE → s._tx_buffer = c :: rest →
        (s.tick cfg rx).1._tx_buffer = rest ∧ (s.tick cfg rx).1._tx_sr = txWord cfg c ∧
          (s.tick cfg rx).1._tx_counter = 0) ∧
      (s._rx_state = RxState.RX_IDLE → rx = false →
        (s.tick cfg rx).1._rx_sr = 0 ∧ (s.tick cfg rx).1._rx_counter = 0) := by
  obtain ⟨e1, _, e3, e4, _, e6⟩ := tick_tx_fields cfg s rx
  obtain ⟨_, _, r1, _, r3, r4, _⟩ := tick_rx_fields cfg s rx
  have hrx : s._rx_state = RxState.RX_BIT →
      ((s.tick cfg rx).1._rx_sr = s._rx_sr ∧
          (s.tick cfg rx).1._rx_counter = s._rx_counter) ∨
        ((s.tick cfg rx).1._rx_sr = rxShift s._rx_sr rx ∧
          (s.tick cfg rx).1._rx_counter = inc8 s._rx_counter) ∨
        ((s.tick cfg rx).1._rx_sr = frameData (rxShift s._rx_sr rx) ∧
          (s.tick cfg rx).1._rx_counter = inc8 s._rx_counter ∧
          (s.tick cfg rx).2 = result.RECEIVED) := by
    intro h
    have := tickRx_framing cfg (s.tickTx cfg) rx (r1.trans h)
    rw [r3, r4] at this
    exact this
  refine ⟨fun h => ?_, hrx, fun h hc hsr => ?_, fun hne => ?_, fun c rest h hq => ?_,
    fun h hl => ?_⟩
  · rw [e3, e4, e6]
    exact tickTx_sending cfg s h
  · have hinc : inc8 s._rx_counter = s._rx_counter + 1 := inc8_succ (by omega)
    rcases hrx h with ⟨a1, a2⟩ | ⟨a1, a2⟩ | ⟨a1, a2, a3⟩
    · exact ⟨fun h0 => a2.symm.trans h0, fun h0 => a1.symm.trans h0⟩
    · refine ⟨fun h0 => ?_, fun h0 => rxShift_zero (by omega) (a1.symm.trans h0)⟩
      rw [a2, hinc] at h0
      omega
    · refine ⟨fun h0 => ?_, fun h0 => ?_⟩
      · rw [a2, hinc] at h0
        omega
      · have hgood : ¬ frameBad (rxShift s._rx_sr rx) := by
          intro hv
          obtain ⟨_, q2, _⟩ := tick_rx_fields cfg s rx
          have hst' : (s.tickTx cfg)._rx_state = RxState.RX_BIT := r1.trans h
          by_cases ht : dec32 (s.tickTx cfg)._rx_timer = 0
          · by_cases hc2 : inc8 (s.tickTx cfg)._rx_counter = 10
            · have hv' : frameBad (rxShift (s.tickTx cfg)._rx_sr rx) := by rw [r3]; exact hv
              rw [q2, tickRx_bad_snd cfg _ rx hst' ht hc2 hv'] at a3
              cases a3
            · rw [q2, tickRx_sample_snd cfg _ rx hst' ht hc2] at a3
              cases a3
          · rw [q2, tickRx_wait_snd cfg _ rx hst' ht] at a3
            cases a3
        exact frameData_zero ⟨s._rx_sr, hsr⟩ rx hgood (a1.symm.trans h0)
  · cases hst : s._tx_state with
    | TX_IDLE => rfl
    | TX_BIT => exact absurd (e6.trans (tickTx_sending cfg s hst).1) hne
  · rw [e3, e4, e6, tickTx_idle_cons cfg s h c rest hq]
    exact ⟨rfl, rfl, rfl⟩
  · subst hl
    exact ⟨(rx_start cfg s h).1.sr, (rx_start cfg s h).1.counter⟩

/-- Witness of C12: a connector whose transmitter is sending. -/
theorem C12_no_restart_mid_frame_witness :
    exampleMem._tx_state = TxState.TX_BIT ∧
      (exampleMem.tick (Config.mk 4 true) true).1._tx_buffer = exampleMem._tx_buffer :=
  ⟨rfl, ((C12_no_restart_mid_frame (Config.mk 4 true) exampleMem true).1 rfl).1⟩

set_option maxRecDepth 100000 in
theorem txWord_unsigned_aux : ∀ v : Fin 256,
    txWord (Config.mk 0 false) v = 0x100 ||| v.val := by
  decide

set_option maxRecDepth 100000 in
theorem txWord_signed_aux : ∀ v : Fin 256,
    txWord (Config.mk 0 true) v % 0x200 = 0x100 ||| v.val := by
  decide

/-- C13, evaluated on the code: on a target whose plain `char` is signed, the
tick that starts the frame of the byte `0x80` sets the shift register to
`0xFF80`, which is not `0x100 | 0x80` and lies above `0x1FF`; with an unsigned
`char` it is `0x180`. For every byte the register is `0x100 | v` when `char` is
unsigned, and its low nine bits are `0x100 | v` when `char` is signed. -/
theorem C13_shift_register_signed_char :
    (((UartConnector.new exampleMem).tx [0x80]).tick (Config.mk 4 true) true).1._tx_sr =
        0xFF80 ∧
      0xFF80 ≠ 0x100 ||| 0x80 ∧ 0x1FF < 0xFF80 ∧
      (((UartConnector.new exampleMem).tx [0x80]).tick (Config.mk 4 false) true).1._tx_sr =
        0x180 ∧
      (∀ (D : Nat) (v : Fin 256), txWord (Config.mk D false) v = 0x100 ||| v.val) ∧
      (∀ (D : Nat) (v : Fin 256), txWord (Config.mk D true) v % 0x200 = 0x100 ||| v.val) := by
  have h : TxIs ((UartConnector.new exampleMem).tx [0x80]) TxState.TX_IDLE
      exampleMem._tx_timer exampleMem._tx_sr exampleMem._tx_counter true [0x80] :=
    ⟨rfl, rfl, rfl, rfl, rfl, rfl⟩
  have e1 : txWord (Config.mk 4 true) 0x80 = 0xFF80 := by decide
  have e2 : txWord (Config.mk 4 false) 0x80 = 0x180 := by decide
  refine ⟨(tx_start (Config.mk 4 true) _ true h).sr.trans e1, by decide, by decide,
    (tx_start (Config.mk 4 false) _ true h).sr.trans e2, fun D v => ?_, fun D v => ?_⟩
  · rw [txWord_charSigned]; exact txWord_unsigned_aux v
  · rw [txWord_charSigned]; exact txWord_signed_aux v

/-- Counterexample to C14 as stated: with divisor 2, three ticks after
`tx("\x01")` and three ticks after `tx("\x00")` the two connectors agree on
every transmitter member and on the queue (sending, timer 2, shift register
`0x80`, one bit sent, queue empty), yet the next tick leaves the transmit line
high in the one and low in the other. -/
theorem C14_transmit_line_counterexample :
    TxAgree (run (Config.mk 2 false) (fun _ => true) 3 ((UartConnector.new exampleMem).tx [1]))
        (run (Config.mk 2 false) (fun _ => true) 3 ((UartConnector.new exampleMem).tx [0])) ∧
      ((run (Config.mk 2 false) (fun _ => true) 3
        ((UartConnector.new exampleMem).tx [1])).tick (Config.mk 2 false) true).1._tx = true ∧
      ((run (Config.mk 2 false) (fun _ => true) 3
        ((UartConnector.new exampleMem).tx [0])).tick (Config.mk 2 false) true).1._tx = false := by
  have ha : TxIs ((UartConnector.new exampleMem).tx [1]) TxState.TX_IDLE
      exampleMem._tx_timer exampleMem._tx_sr exampleMem._tx_counter true [1] :=
    ⟨rfl, rfl, rfl, rfl, rfl, rfl⟩
  have hb : TxIs ((UartConnector.new exampleMem).tx [0]) TxState.TX_IDLE
      exampleMem._tx_timer exampleMem._tx_sr exampleMem._tx_counter true [0] :=
    ⟨rfl, rfl, rfl, rfl, rfl, rfl⟩
  have h1 := tx_frame_bits (Config.mk 2 false) (fun _ => true) _ (by decide) (by decide) ha
    2 1 0 (by decide) (by decide) (by decide)
  have h2 := tx_frame_bits (Config.mk 2 false) (fun _ => true) _ (by decide) (by decide) hb
    2 1 0 (by decide) (by decide) (by decide)
  have esr : txWord (Config.mk 2 false) 1 >>> 1 = txWord (Config.mk 2 false) 0 >>> 1 := by
    decide
  have l1 : txLevel (txWord (Config.mk 2 false) 1) 1 = true := by decide
  have l2 : txLevel (txWord (Config.mk 2 false) 0) 1 = false := by decide
  have w1 := tx_wait (Config.mk 2 false) _ true h1 (by decide) (by decide)
  have w2 := tx_wait (Config.mk 2 false) _ true h2 (by decide) (by decide)
  exact ⟨⟨h1.state.trans h2.state.symm, h1.timer.trans h2.timer.symm,
      (h1.sr.trans esr).trans h2.sr.symm, h1.counter.trans h2.counter.symm,
      h1.queue.trans h2.queue.symm⟩,
    w1.level.trans l1, w2.level.trans l2⟩

/-- C14, amended: transmitter and receiver advance independently within
`tick()`. Two connectors that agree on the receiver members (state, timer,
accumulator, bit counter, last byte) and read the same level on the receive
line get the same result and are left agreeing on the receiver members,
whatever their transmitter members and queues; two connectors that agree on
the transmitter members, the queue and the level of the transmit line are
left agreeing on all of these, whatever their receiver members and the levels
they read; and the transmitter half of `tick` takes effect on every tick,
whatever the receiver does. -/
theorem C14_machines_independent (cfg : Config) (s1 s2 : UartConnector) (rx1 rx2 : Bool) :
    (RxAgree s1 s2 → rx1 = rx2 →
        (s1.tick cfg rx1).2 = (s2.tick cfg rx2).2 ∧
          RxAgree (s1.tick cfg rx1).1 (s2.tick cfg rx2).1) ∧
      (TxAgree s1 s2 → s1._tx = s2._tx →
        TxAgree (s1.tick cfg rx1).1 (s2.tick cfg rx2).1 ∧
          (s1.tick cfg rx1).1._tx = (s2.tick cfg rx2).1._tx) ∧
      (TxAgree (s1.tick cfg rx1).1 (s1.tickTx cfg) ∧
        (s1.tick cfg rx1).1._tx = (s1.tickTx cfg)._tx) := by
  obtain ⟨a1, a2, a3, a4, a5, a6⟩ := tick_tx_fields cfg s1 rx1
  obtain ⟨b1, b2, b3, b4, b5, b6⟩ := tick_tx_fields cfg s2 rx2
  refine ⟨fun h hrx => ?_, fun h hl => ?_, ⟨a1, a2, a3, a4, a6⟩, a5⟩
  · subst hrx
    obtain ⟨p1, p2, p3, p4, p5⟩ := (tick_rx_fields cfg s1 rx1).2.2
    obtain ⟨q1, q2, q3, q4, q5⟩ := (tick_rx_fields cfg s2 rx1).2.2
    obtain ⟨h1, h2, h3, h4, h5⟩ := h
    exact tickRx_agree cfg (s1.tickTx cfg) (s2.tickTx cfg) rx1
      ⟨(p1.trans h1).trans q1.symm, (p2.trans h2).trans q2.symm, (p3.trans h3).trans q3.symm,
        (p4.trans h4).trans q4.symm, (p5.trans h5).trans q5.symm⟩
  · obtain ⟨⟨t1, t2, t3, t4, t5⟩, t6⟩ := tickTx_agree cfg s1 s2 h hl
    exact ⟨⟨(a1.trans t1).trans b1.symm, (a2.trans t2).trans b2.symm,
      (a3.trans t3).trans b3.symm, (a4.trans t4).trans b4.symm, (a6.trans t5).trans b6.symm⟩,
      (a5.trans t6).trans b5.symm⟩

/-- Witness of C14: the constructor run on two memories that differ in the
transmitter members only. -/
theorem C14_machines_independent_witness :
    (RxAgree (UartConnector.new exampleMem)
        ((UartConnector.new exampleMem).tx [0x41]) ∧ true = true) ∧
      ((UartConnector.new exampleMem).tick (Config.mk 4 true) true).2 =
        (((UartConnector.new exampleMem).tx [0x41]).tick (Config.mk 4 true) true).2 :=
  ⟨⟨⟨rfl, rfl, rfl, rfl, rfl⟩, rfl⟩,
    ((C14_machines_independent (Config.mk 4 true) (UartConnector.new exampleMem)
      ((UartConnector.new exampleMem).tx [0x41]) true true).1
        ⟨rfl, rfl, rfl, rfl, rfl⟩ rfl).1⟩

/-- Counterexample to C15 as stated: with divisor 1, the tick that follows the
first ten ticks after `tx("A")` shifts out the tenth bit and writes the
transmit line twice, low and then high. -/
theorem C15_two_writes_counterexample :
    (run (Config.mk 1 false) (fun _ => true) 10
        ((UartConnector.new exampleMem).tx [0x41])).tickWrites = [false, true] ∧
      ¬ (run (Config.mk 1 false) (fun _ => true) 10
        ((UartConnector.new exampleMem).tx [0x41])).tickWrites.length ≤ 1 := by
  have ha : TxIs ((UartConnector.new exampleMem).tx [0x41]) TxState.TX_IDLE
      exampleMem._tx_timer exampleMem._tx_sr exampleMem._tx_counter true [0x41] :=
    ⟨rfl, rfl, rfl, rfl, rfl, rfl⟩
  have h1 := tx_frame_bits (Config.mk 1 false) (fun _ => true) _ (by decide) (by decide) ha
    9 9 0 (by decide) (by decide) (by decide)
  have hw := writes_of_txIs_last _ h1
  have e : decide (txWord (Config.mk 1 false) 0x41 >>> 9 &&& 1 ≠ 0) = false := by decide
  rw [e] at hw
  refine ⟨hw, ?_⟩
  rw [hw]
  decide

/-- C15, amended: for every connector state and line input, one call of
`tick()` performs at most one read of the receive line and at most two writes
to the transmit line; it performs two writes exactly when it shifts out the
tenth bit of a frame (the bit, then high), at most one otherwise, and it leaves
the line at the level written last. -/
theorem C15_line_accesses (cfg : Config) (s : UartConnector) (rx : Bool) :
    s.tickReads cfg ≤ 1 ∧ s.tickWrites.length ≤ 2 ∧
      (s.tickWrites.length = 2 ↔
        (s._tx_state = TxState.TX_BIT ∧ dec32 s._tx_timer = 0 ∧ inc8 s._tx_counter = 10)) ∧
      (s.tickWrites.length ≤ 1 ∨ s.tickWrites.getLast? = some true) ∧
      (s.tick cfg rx).1._tx = (s.tickWrites.getLast?).getD s._tx := by
  obtain ⟨h1, h2, h3, h4⟩ := tickTxWrites_spec cfg s
  refine ⟨tickRxReads_le_one (s.tickTx cfg), h1, h2, ?_, (tick_tx_fields cfg s rx).2.2.2.2.1.trans h4⟩
  by_cases h : s.tickTxWrites.length = 2
  · exact Or.inr (h3 h)
  · exact Or.inl (by
      have : s.tickWrites.length = s.tickTxWrites.length := rfl
      omega)

end TickClaims

/-- What a tick that begins with the receiver framing leaves in the
accumulator and the bit counter. -/
theorem tick_framing (cfg : Config) (s : UartConnector) (rx : Bool)
    (h : s._rx_state = RxState.RX_BIT) :
    ((s.tick cfg rx).1._rx_sr = s._rx_sr ∧
        (s.tick cfg rx).1._rx_counter = s._rx_counter) ∨
      ((s.tick cfg rx).1._rx_sr = rxShift s._rx_sr rx ∧
        (s.tick cfg rx).1._rx_counter = inc8 s._rx_counter) ∨
      ((s.tick cfg rx).1._rx_sr = frameData (rxShift s._rx_sr rx) ∧
        (s.tick cfg rx).1._rx_counter = inc8 s._rx_counter ∧
        (s.tick cfg rx).2 = result.RECEIVED) := by
  obtain ⟨_, _, r1, _, r3, r4, _⟩ := tick_rx_fields cfg s rx
  have := tickRx_framing cfg (s.tickTx cfg) rx (r1.trans h)
  rw [r3, r4] at this
  exact this

/-! ## The range invariant -/

section Range

variable (cfg : Config)

set_option maxRecDepth 100000 in
theorem reverse8_lt : ∀ y : Fin 256, reverse8 y.val < 256 := by
  decide

theorem frameData_lt (v : Nat) : frameData v < 256 := by
  unfold frameData
  have h : (v >>> 1) &&& 0xFF < 2 ^ 8 := Nat.and_lt_two_pow _ (by decide)
  exact reverse8_lt ⟨(v >>> 1) &&& 0xFF, h⟩

theorem inRange_new (mem : UartConnector) : InRange cfg.DIVISOR (UartConnector.new mem) :=
  ⟨fun h => (by cases h), fun h => (by cases h)⟩

theorem inRange_tx (s : UartConnector) (b : List (Fin 256)) (h : InRange cfg.DIVISOR s) :
    InRange cfg.DIVISOR (s.tx b) := h

theorem inRange_tickTx (s : UartConnector) (hD1 : 1 ≤ cfg.DIVISOR)
    (hD : cfg.DIVISOR < 2 ^ 32) (h : InRange cfg.DIVISOR s) :
    InRange cfg.DIVISOR (s.tickTx cfg) := by
  obtain ⟨r1, r2, r3, r4, _⟩ := (tick_rx_fields cfg s true).2.2
  refine ⟨?_, fun hr => ?_⟩
  · cases hst : s._tx_state with
    | TX_IDLE =>
      cases hq : s._tx_buffer with
      | nil =>
        rw [tickTx_idle_nil cfg s hst hq]
        intro hc
        rw [hst] at hc
        cases hc
      | cons b rest =>
        rw [tickTx_idle_cons cfg s hst b rest hq]
        intro _
        exact ⟨hD1, Nat.le_refl _, Nat.zero_le 9⟩
    | TX_BIT =>
      obtain ⟨g1, g2, g3⟩ := h.1 hst
      by_cases ht : dec32 s._tx_timer = 0
      · by_cases hc : inc8 s._tx_counter = 10
        · rw [tickTx_last cfg s hst ht hc]
          intro hc2
          cases hc2
        · rw [tickTx_emit cfg s hst ht hc]
          intro _
          have hi : inc8 s._tx_counter = s._tx_counter + 1 := inc8_succ (by omega)
          refine ⟨hD1, Nat.le_refl _, ?_⟩
          show inc8 s._tx_counter ≤ 9
          omega
      · rw [tickTx_wait cfg s hst ht]
        intro _
        have hp : dec32 s._tx_timer = s._tx_timer - 1 := dec32_pred g1 (by omega)
        refine ⟨?_, ?_, g3⟩
        · show 1 ≤ dec32 s._tx_timer
          omega
        · show dec32 s._tx_timer ≤ cfg.DIVISOR
          omega
  · rw [r2, r3, r4]
    exact h.2 (r1.symm.trans hr)

theorem inRange_tickRx (s : UartConnector) (rx : Bool) (hD2 : 2 ≤ cfg.DIVISOR)
    (hD : cfg.DIVISOR < 2 ^ 32) (h : InRange cfg.DIVISOR s) :
    InRange cfg.DIVISOR (s.tickRx cfg rx).1 := by
  have htx := txIs_tickRx cfg s rx (⟨rfl, rfl, rfl, rfl, rfl, rfl⟩ : TxIs s _ _ _ _ _ _)
  refine ⟨fun ht => ?_, ?_⟩
  · rw [htx.timer, htx.counter]
    exact h.1 (htx.state.symm.trans ht)
  · cases hst : s._rx_state with
    | RX_IDLE =>
      cases rx with
      | false =>
        rw [tickRx_idle_low_fst cfg s hst]
        intro _
        refine ⟨?_, ?_, Nat.zero_le 9, ?_⟩
        · show 1 ≤ cfg.DIVISOR / 2
          omega
        · show cfg.DIVISOR / 2 ≤ cfg.DIVISOR
          omega
        · show 0 < 2 ^ 0
          decide
      | true =>
        rw [tickRx_idle_high_fst cfg s hst]
        intro hc
        rw [hst] at hc
        cases hc
    | RX_BIT =>
      obtain ⟨g1, g2, g3, g4⟩ := h.2 hst
      by_cases ht : dec32 s._rx_timer = 0
      · by_cases hc : inc8 s._rx_counter = 10
        · by_cases hv : frameBad (rxShift s._rx_sr rx)
          · rw [tickRx_bad_fst cfg s rx hst ht hc hv]
            intro hc2
            cases hc2
          · rw [tickRx_good_fst cfg s rx hst ht hc hv]
            intro hc2
            cases hc2
        · rw [tickRx_sample_fst cfg s rx hst ht hc]
          intro _
          have hi : inc8 s._rx_counter = s._rx_counter + 1 := inc8_succ (by omega)
          have hpow : (2 : Nat) ^ s._rx_counter ≤ 2 ^ 9 :=
            Nat.pow_le_pow_right (by decide) g3
          have hsh := rxShift_eq rx (show s._rx_sr < 2 ^ 15 from by omega)
          have hb := bit_le_one rx
          refine ⟨Nat.le_trans (by decide) hD2, Nat.le_refl _, ?_, ?_⟩
          · show inc8 s._rx_counter ≤ 9
            omega
          · show rxShift s._rx_sr rx < 2 ^ inc8 s._rx_counter
            rw [hi, Nat.pow_succ, hsh]
            omega
      · rw [tickRx_wait_fst cfg s rx hst ht]
        intro _
        have hp : dec32 s._rx_timer = s._rx_timer - 1 := dec32_pred g1 (by omega)
        refine ⟨?_, ?_, g3, g4⟩
        · show 1 ≤ dec32 s._rx_timer
          omega
        · show dec32 s._rx_timer ≤ cfg.DIVISOR
          omega

theorem reachable_inRange (hD2 : 2 ≤ cfg.DIVISOR) (hD : cfg.DIVISOR < 2 ^ 32)
    {s : UartConnector} (hr : Reachable cfg s) : InRange cfg.DIVISOR s := by
  induction hr with
  | init mem => exact inRange_new cfg mem
  | tick y rx _ ih =>
    exact inRange_tickRx cfg _ rx hD2 hD (inRange_tickTx cfg y (by omega) hD ih)
  | tx y b _ ih => exact inRange_tx cfg y b ih

end Range

/-! ## The claims on ranges and on divisor 1 -/

section RangeClaims

/-- C16: timers and counters never underflow or overrun. For every divisor `D`
with `2 ≤ D` (a `uint32_t`), in every state reachable from the constructor
state by any interleaving of `tick()` (with any receive-line values) and `tx()`
(with any strings): if the transmitter is sending then `1 ≤ _tx_timer ≤ D` and
`_tx_counter ≤ 9`; if the receiver is framing then `1 ≤ _rx_timer ≤ D`,
`_rx_counter ≤ 9` and `_rx_sr < 2 ^ _rx_counter`. So the pre-decrement of a
timer does not wrap (`--t` plus one is `t`), and the accumulator a tick leaves
stays below `2 ^ 10`. -/
theorem C16_timers_counters_in_range (cfg : Config) (s : UartConnector)
    (hD2 : 2 ≤ cfg.DIVISOR) (hD : cfg.DIVISOR < 2 ^ 32) (hr : Reachable cfg s) :
    (s._tx_state = TxState.TX_BIT →
        1 ≤ s._tx_timer ∧ s._tx_timer ≤ cfg.DIVISOR ∧ s._tx_counter ≤ 9) ∧
      (s._rx_state = RxState.RX_BIT →
        1 ≤ s._rx_timer ∧ s._rx_timer ≤ cfg.DIVISOR ∧ s._rx_counter ≤ 9 ∧
          s._rx_sr < 2 ^ s._rx_counter) ∧
      (s._tx_state = TxState.TX_BIT → dec32 s._tx_timer + 1 = s._tx_timer) ∧
      (s._rx_state = RxState.RX_BIT → dec32 s._rx_timer + 1 = s._rx_timer) ∧
      (s._rx_state = RxState.RX_BIT → ∀ rx, (s.tick cfg rx).1._rx_sr < 2 ^ 10) := by
  have h := reachable_inRange cfg hD2 hD hr
  refine ⟨h.1, h.2, fun ht => ?_, fun hrx => ?_, fun hrx rx => ?_⟩
  · obtain ⟨g1, g2, _⟩ := h.1 ht
    rw [dec32_pred g1 (by omega)]
    omega
  · obtain ⟨g1, g2, _⟩ := h.2 hrx
    rw [dec32_pred g1 (by omega)]
    omega
  · obtain ⟨_, _, g3, g4⟩ := h.2 hrx
    have hpow : (2 : Nat) ^ s._rx_counter ≤ 2 ^ 9 := Nat.pow_le_pow_right (by decide) g3
    have hsh := rxShift_eq rx (show s._rx_sr < 2 ^ 15 from by omega)
    have hb := bit_le_one rx
    have hfd := frameData_lt (rxShift s._rx_sr rx)
    rcases (tick_framing cfg s rx hrx) with ⟨a1, _⟩ | ⟨a1, _⟩ | ⟨a1, _⟩
    · rw [a1]; omega
    · rw [a1, hsh]; omega
    · rw [a1]; omega

/-- Witness of C16: the state after `tx("\x01")` and one tick, transmitter
sending and receiver idle on a high line. -/
theorem C16_timers_counters_in_range_witness :
    (2 ≤ (Config.mk 4 true).DIVISOR ∧ (Config.mk 4 true).DIVISOR < 2 ^ 32 ∧
        Reachable (Config.mk 4 true)
          (((UartConnector.new exampleMem).tx [1]).tick (Config.mk 4 true) true).1) ∧
      ((((UartConnector.new exampleMem).tx [1]).tick (Config.mk 4 true) true).1._tx_state =
          TxState.TX_BIT →
        1 ≤ (((UartConnector.new exampleMem).tx [1]).tick (Config.mk 4 true) true).1._tx_timer ∧
          (((UartConnector.new exampleMem).tx [1]).tick (Config.mk 4 true) true).1._tx_timer ≤
            (Config.mk 4 true).DIVISOR ∧
          (((UartConnector.new exampleMem).tx [1]).tick (Config.mk 4 true) true).1._tx_counter ≤
            9) :=
  ⟨⟨by decide, by decide,
      Reachable.tick _ true (Reachable.tx _ [1] (Reachable.init exampleMem))⟩,
    (C16_timers_counters_in_range (Config.mk 4 true) _ (by decide) (by decide)
      (Reachable.tick _ true (Reachable.tx _ [1] (Reachable.init exampleMem)))).1⟩

theorem dec32_zero : dec32 0 = 2 ^ 32 - 1 := by
  unfold dec32
  omega

theorem rx_wrap (cfg : Config) (s : UartConnector) (rx : Bool) {sr c lb : Nat}
    {e : List String} (h : RxIs s RxState.RX_BIT 0 sr c lb e) :
    RxIs (s.tick cfg rx).1 RxState.RX_BIT (2 ^ 32 - 1) sr c lb e ∧
      (s.tick cfg rx).2 = result.NOP := by
  have hx := rxIs_tickTx cfg s h
  have ht : dec32 (s.tickTx cfg)._rx_timer ≠ 0 := by
    rw [hx.timer, dec32_zero]
    decide
  unfold UartConnector.tick
  rw [tickRx_wait_fst cfg _ rx hx.state ht, tickRx_wait_snd cfg _ rx hx.state ht]
  refine ⟨⟨hx.state, ?_, hx.sr, hx.counter, hx.lb, hx.err⟩, rfl⟩
  show dec32 (s.tickTx cfg)._rx_timer = 2 ^ 32 - 1
  rw [hx.timer, dec32_zero]

/-- With divisor 1 the receiver, once it has seen a start, takes no sample for
the next `2 ^ 32 - 1` ticks. -/
theorem rx_stall (cfg : Config) (line : Nat → Bool) (s : UartConnector)
    (hD : cfg.DIVISOR = 1) (h : s._rx_state = RxState.RX_IDLE) (h0 : line 0 = false) :
    RxIs (run cfg line 1 s) RxState.RX_BIT 0 0 0 s._last_byte s.cerr ∧
      resultAt cfg line 0 s = result.NOP ∧
      ∀ n, 1 ≤ n → n ≤ 2 ^ 32 - 1 →
        RxIs (run cfg line (n + 1) s) RxState.RX_BIT (2 ^ 32 - n) 0 0 s._last_byte s.cerr ∧
          resultAt cfg line n s = result.NOP := by
  have hs := rx_start cfg s h
  rw [hD, show 1 / 2 = 0 from rfl, ← h0] at hs
  refine ⟨hs.1, hs.2, ?_⟩
  intro n
  induction n with
  | zero => intro h1 _; omega
  | succ m ih =>
    intro _ h2
    rw [run_succ, resultAt_eq]
    by_cases hm : m = 0
    · subst hm
      exact rx_wrap cfg _ (line (0 + 1)) hs.1
    · have hpre := (ih (by omega) (by omega)).1
      have hw := rx_wait cfg _ (line (m + 1)) hpre (by omega) (by omega)
      rwa [show 2 ^ 32 - m - 1 = 2 ^ 32 - (m + 1) from by omega] at hw

/-- C17: divisor 1 stalls the receiver. With `DIVISOR = 1` an idle receiver
that sees the line low on tick 0 arms its timer to `1 / 2 = 0`; the
pre-decrement of tick 1 wraps it to `2 ^ 32 - 1`; and every tick `n` with
`1 ≤ n ≤ 2 ^ 32 - 1` returns `NOP` and takes no sample (accumulator and bit
counter stay 0, the timer only counts down). So in loopback from the
constructor state no tick among the first `N ≤ 2 ^ 32` after `tx` of a byte
returns `RECEIVED`, in particular none of the 11 ticks of its frame, although
the transmitter drives the line low on tick 0, to bit `k` on tick `k + 1`
(`k < 8`) and high on tick 9. -/
theorem C17_divisor_one_stalls_receiver (sg : Bool) :
    (∀ (line : Nat → Bool) (s : UartConnector),
        s._rx_state = RxState.RX_IDLE → line 0 = false →
        (run (Config.mk 1 sg) line 1 s)._rx_state = RxState.RX_BIT ∧
          (run (Config.mk 1 sg) line 1 s)._rx_timer = 0 ∧
          (run (Config.mk 1 sg) line 2 s)._rx_timer = 2 ^ 32 - 1 ∧
          ∀ n, 1 ≤ n → n ≤ 2 ^ 32 - 1 →
            resultAt (Config.mk 1 sg) line n s = result.NOP ∧
              (run (Config.mk 1 sg) line (n + 1) s)._rx_state = RxState.RX_BIT ∧
              (run (Config.mk 1 sg) line (n + 1) s)._rx_counter = 0 ∧
              (run (Config.mk 1 sg) line (n + 1) s)._rx_sr = 0 ∧
              (run (Config.mk 1 sg) line (n + 1) s)._rx_timer = 2 ^ 32 - n) ∧
      (∀ (mem : UartConnector) (b : Fin 256) (rest : List (Fin 256)) (N : Nat),
        N ≤ 2 ^ 32 →
        loopbackEvents (Config.mk 1 sg) N ((UartConnector.new mem).tx (b :: rest)) = []) ∧
      (∀ (mem : UartConnector) (b : Fin 256) (rest : List (Fin 256)),
        loopbackEvents (Config.mk 1 sg) 11 ((UartConnector.new mem).tx (b :: rest)) = [] ∧
          (runLoopback (Config.mk 1 sg) 1 ((UartConnector.new mem).tx (b :: rest)))._tx =
            false ∧
          (∀ k, k < 8 →
            (runLoopback (Config.mk 1 sg) (k + 1 + 1)
              ((UartConnector.new mem).tx (b :: rest)))._tx = b.val.testBit k) ∧
          (runLoopback (Config.mk 1 sg) (9 + 1) ((UartConnector.new mem).tx (b :: rest)))._tx =
            true) := by
  have hloop : ∀ (mem : UartConnector) (b : Fin 256) (rest : List (Fin 256)) (N : Nat),
      N ≤ 2 ^ 32 →
      loopbackEvents (Config.mk 1 sg) N ((UartConnector.new mem).tx (b :: rest)) = [] := by
    intro mem b rest N hN
    have htx : TxIs ((UartConnector.new mem).tx (b :: rest)) TxState.TX_IDLE mem._tx_timer
        mem._tx_sr mem._tx_counter true (b :: rest) := ⟨rfl, rfl, rfl, rfl, rfl, rfl⟩
    have hw := (txWave_frame (Config.mk 1 sg) _ (Nat.le_refl 1)
      (show 1 < 2 ^ 32 from by decide) htx).1 0 0 (by omega) (show 0 < 1 from by decide)
    rw [Nat.zero_mul, Nat.add_zero, txLevel_start] at hw
    have hst := rx_stall (Config.mk 1 sg) (txWave (Config.mk 1 sg) _)
      ((UartConnector.new mem).tx (b :: rest)) rfl rfl hw
    unfold loopbackEvents
    apply filterMap_range_none
    intro i hi
    rw [loopbackResultAt_eq]
    by_cases hi0 : i = 0
    · subst hi0
      rw [hst.2.1]
      exact if_neg (by decide)
    · rw [(hst.2.2 i (by omega) (by omega)).2]
      exact if_neg (by decide)
  refine ⟨fun line s h h0 => ?_, hloop, fun mem b rest => ?_⟩
  · have hst := rx_stall (Config.mk 1 sg) line s rfl h h0
    refine ⟨hst.1.state, hst.1.timer, (hst.2.2 1 (by omega) (by omega)).1.timer, ?_⟩
    intro n h1 h2
    have := hst.2.2 n h1 h2
    exact ⟨this.2, this.1.state, this.1.counter, this.1.sr, this.1.timer⟩
  · have htx : TxIs ((UartConnector.new mem).tx (b :: rest)) TxState.TX_IDLE mem._tx_timer
        mem._tx_sr mem._tx_counter true (b :: rest) := ⟨rfl, rfl, rfl, rfl, rfl, rfl⟩
    have hbits := tx_frame_bits (Config.mk 1 sg)
      (txWave (Config.mk 1 sg) ((UartConnector.new mem).tx (b :: rest))) _
      (Nat.le_refl 1) (show 1 < 2 ^ 32 from by decide) htx
    refine ⟨hloop mem b rest 11 (by decide), ?_, ?_, ?_⟩
    · rw [loopback_eq_run]
      exact (hbits 0 0 0 (show 0 = 0 * 1 + 0 from rfl) (by decide)
        (show 0 < 1 from by decide)).level
    · intro k hk
      rw [loopback_eq_run]
      have := (hbits (k + 1) (k + 1) 0 (show k + 1 = (k + 1) * 1 + 0 from by omega)
        (by omega) (show 0 < 1 from by decide)).level
      rw [txLevel_data _ b k hk] at this
      exact this
    · rw [loopback_eq_run]
      have := (hbits 9 9 0 (show 9 = 9 * 1 + 0 from rfl) (by decide)
        (show 0 < 1 from by decide)).level
      rw [txLevel_stop] at this
      exact this

/-- Witness of C17: a line held low, read by the receiver the constructor
leaves. -/
theorem C17_divisor_one_stalls_receiver_witness :
    ((UartConnector.new exampleMem)._rx_state = RxState.RX_IDLE ∧
        (fun _ : Nat => false) 0 = false) ∧
      (run (Config.mk 1 true) (fun _ => false) 2 (UartConnector.new exampleMem))._rx_timer =
        2 ^ 32 - 1 :=
  ⟨⟨rfl, rfl⟩,
    ((C17_divisor_one_stalls_receiver true).1 (fun _ => false) (UartConnector.new exampleMem)
      rfl rfl).2.2.1⟩

end RangeClaims

/-! ## Frames sent back to back -/

section BackToBack

variable (cfg : Config)

theorem tx_frame_sending (line : Nat → Bool) (s : UartConnector) {t sr c : Nat} {l : Bool}
    {b : Fin 256} {rest : List (Fin 256)}
    (hD1 : 1 ≤ cfg.DIVISOR) (hD : cfg.DIVISOR < 2 ^ 32)
    (h : TxIs s TxState.TX_IDLE t sr c l (b :: rest)) (n : Nat) (hn : n < 10 * cfg.DIVISOR) :
    (run cfg line (n + 1) s)._tx_state = TxState.TX_BIT := by
  have hq9 : n / cfg.DIVISOR ≤ 9 := by
    have : n / cfg.DIVISOR < 10 := Nat.div_lt_of_lt_mul (by omega)
    omega
  have hdm := Nat.div_add_mod n cfg.DIVISOR
  rw [Nat.mul_comm] at hdm
  exact (tx_frame_bits cfg line s hD1 hD h n _ _ hdm.symm hq9 (Nat.mod_lt _ (by omega))).state

/-- The transmitter between frames: after `k` periods of `10 * D + 1` ticks it
is idle with the first `k` bytes gone from the queue. -/
theorem tx_frames (line : Nat → Bool) (s : UartConnector) (B : List (Fin 256))
    {t sr c : Nat} {l : Bool} (hD1 : 1 ≤ cfg.DIVISOR) (hD : cfg.DIVISOR < 2 ^ 32)
    (h : TxIs s TxState.TX_IDLE t sr c l B) :
    ∀ k, k ≤ B.length → ∃ t' sr' c' l',
      TxIs (run cfg line (k * (10 * cfg.DIVISOR + 1)) s) TxState.TX_IDLE t' sr' c' l'
        (B.drop k) := by
  intro k
  induction k with
  | zero =>
    intro _
    rw [Nat.zero_mul]
    exact ⟨t, sr, c, l, h⟩
  | succ k ih =>
    intro hk
    obtain ⟨t', sr', c', l', hx⟩ := ih (by omega)
    have hlt : k < B.length := by omega
    rw [List.drop_eq_getElem_cons hlt] at hx
    rw [Nat.succ_mul, run_add]
    exact ⟨_, _, _, _, tx_frame_end cfg _ _ hD1 hD hx⟩

theorem tx_frames_start (line : Nat → Bool) (s : UartConnector) (B : List (Fin 256))
    {t sr c : Nat} {l : Bool} (hD1 : 1 ≤ cfg.DIVISOR) (hD : cfg.DIVISOR < 2 ^ 32)
    (h : TxIs s TxState.TX_IDLE t sr c l B) (k : Nat) (hk : k < B.length) :
    (startsAt cfg line s (k * (10 * cfg.DIVISOR + 1)) ∧
        (run cfg line (k * (10 * cfg.DIVISOR + 1) + 1) s)._tx = false ∧
        (run cfg line (k * (10 * cfg.DIVISOR + 1) + 1) s)._tx_buffer = B.drop (k + 1)) ∧
      ∀ r, 0 < r → r < 10 * cfg.DIVISOR + 1 →
        ¬ startsAt cfg line s (k * (10 * cfg.DIVISOR + 1) + r) := by
  obtain ⟨t', sr', c', l', hx⟩ := tx_frames cfg line s B hD1 hD h k (by omega)
  rw [List.drop_eq_getElem_cons hk] at hx
  constructor
  · have hs := tx_start cfg _ (line (k * (10 * cfg.DIVISOR + 1))) hx
    rw [← run_succ] at hs
    exact ⟨⟨hx.state, hs.state⟩, hs.level, hs.queue⟩
  · intro r h0 hr hst
    have hsend := tx_frame_sending cfg (fun i => line (k * (10 * cfg.DIVISOR + 1) + i)) _
      hD1 hD hx (r - 1) (by omega)
    rw [← run_add, show r - 1 + 1 = r from by omega] at hsend
    rw [hst.1] at hsend
    cases hsend

end BackToBack

/-! ## The claim on back-to-back frames -/

section BackToBackClaims

/-- Counterexample to C11 as stated: with divisor 1 and the queue `"AB"`, tick 0
starts the first frame and tick 11 the second; tick `10 * 1` starts none. -/
theorem C11_frame_period_counterexample :
    startsAt (Config.mk 1 false) (fun _ => true) ((UartConnector.new exampleMem).tx [0x41, 0x42])
        0 ∧
      startsAt (Config.mk 1 false) (fun _ => true)
        ((UartConnector.new exampleMem).tx [0x41, 0x42]) 11 ∧
      ¬ startsAt (Config.mk 1 false) (fun _ => true)
        ((UartConnector.new exampleMem).tx [0x41, 0x42]) (10 * (Config.mk 1 false).DIVISOR) := by
  have h : TxIs ((UartConnector.new exampleMem).tx [0x41, 0x42]) TxState.TX_IDLE
      exampleMem._tx_timer exampleMem._tx_sr exampleMem._tx_counter true [0x41, 0x42] :=
    ⟨rfl, rfl, rfl, rfl, rfl, rfl⟩
  have h0 := tx_frames_start (Config.mk 1 false) (fun _ => true) _ [0x41, 0x42]
    (show 1 ≤ 1 from by decide) (show 1 < 2 ^ 32 from by decide) h 0 (by decide)
  have h1 := tx_frames_start (Config.mk 1 false) (fun _ => true) _ [0x41, 0x42]
    (show 1 ≤ 1 from by decide) (show 1 < 2 ^ 32 from by decide) h 1 (by decide)
  exact ⟨h0.1.1, h1.1.1, h0.2 10 (by decide) (by decide)⟩

/-- C11, amended: back-to-back frames are `10 * D + 1` ticks apart. For every
divisor `D` with `1 ≤ D` (a `uint32_t`), an idle transmitter and a queue `B`:
for every `k < |B|` the tick `k * (10 * D + 1)` starts the frame of byte `k`
(it drives the line low and pops the byte) and no tick strictly between it and
tick `(k + 1) * (10 * D + 1)` starts a frame; after `|B| * (10 * D + 1)` ticks
the transmitter is idle with the queue empty. -/
theorem C11_back_to_back_frames (cfg : Config) (line : Nat → Bool) (s : UartConnector)
    (B : List (Fin 256)) (hD1 : 1 ≤ cfg.DIVISOR) (hD : cfg.DIVISOR < 2 ^ 32)
    (hidle : s._tx_state = TxState.TX_IDLE) (hq : s._tx_buffer = B) :
    (∀ k, k < B.length →
        startsAt cfg line s (k * (10 * cfg.DIVISOR + 1)) ∧
          (run cfg line (k * (10 * cfg.DIVISOR + 1) + 1) s)._tx = false ∧
          (run cfg line (k * (10 * cfg.DIVISOR + 1) + 1) s)._tx_buffer = B.drop (k + 1)) ∧
      (∀ k r, k < B.length → 0 < r → r < 10 * cfg.DIVISOR + 1 →
        ¬ startsAt cfg line s (k * (10 * cfg.DIVISOR + 1) + r)) ∧
      (run cfg line (B.length * (10 * cfg.DIVISOR + 1)) s)._tx_state = TxState.TX_IDLE ∧
      (run cfg line (B.length * (10 * cfg.DIVISOR + 1)) s)._tx_buffer = [] := by
  have h : TxIs s TxState.TX_IDLE s._tx_timer s._tx_sr s._tx_counter s._tx B :=
    ⟨hidle, rfl, rfl, rfl, rfl, hq⟩
  obtain ⟨t', sr', c', l', hend⟩ := tx_frames cfg line s B hD1 hD h B.length (Nat.le_refl _)
  rw [List.drop_length] at hend
  exact ⟨fun k hk => (tx_frames_start cfg line s B hD1 hD h k hk).1,
    fun k r hk h0 hr => (tx_frames_start cfg line s B hD1 hD h k hk).2 r h0 hr,
    hend.state, hend.queue⟩

/-- Witness of C11: divisor 1 and the queue `"AB"`; the second frame starts on
tick 11. -/
theorem C11_back_to_back_frames_witness :
    (1 ≤ (Config.mk 1 false).DIVISOR ∧ (Config.mk 1 false).DIVISOR < 2 ^ 32 ∧
        ((UartConnector.new exampleMem).tx [0x41, 0x42])._tx_state = TxState.TX_IDLE ∧
        ((UartConnector.new exampleMem).tx [0x41, 0x42])._tx_buffer = [0x41, 0x42]) ∧
      startsAt (Config.mk 1 false) (fun _ => true)
        ((UartConnector.new exampleMem).tx [0x41, 0x42])
        (1 * (10 * (Config.mk 1 false).DIVISOR + 1)) :=
  ⟨⟨by decide, by decide, rfl, rfl⟩,
    ((C11_back_to_back_frames (Config.mk 1 false) (fun _ => true)
      ((UartConnector.new exampleMem).tx [0x41, 0x42]) [0x41, 0x42] (by decide) (by decide)
      rfl rfl).1 1 (by decide)).1⟩

end BackToBackClaims

/-! ## The firmware -/

section FirmwareFacts

open Firmware

theorem inkey_zero (rest : List (Fin 256)) : inkey (0 :: rest) = inkey rest := by
  rw [inkey]
  exact if_pos rfl

theorem inkey_nonzero (r : Fin 256) (rest : List (Fin 256)) (h : r ≠ 0) :
    inkey (r :: rest) = some (r, rest) := by
  rw [inkey]
  exact if_neg h

theorem decisive_ne_zero {c : Fin 256} (h : decisive c) : c ≠ 0 := by
  intro h0
  subst h0
  revert h
  decide

theorem mainLoop_zero (reads out : List (Fin 256)) :
    ∀ fuel, mainLoop fuel (0 :: reads) out = mainLoop fuel reads out
  | 0 => rfl
  | fuel + 1 => by
    rw [mainLoop, mainLoop, inkey_zero]

theorem mainLoop_yes (fuel : Nat) (d : Fin 256) (post out : List (Fin 256))
    (hd : d = Fin.ofNat 'y'.toNat ∨ d = Fin.ofNat 'Y'.toNat ∨ d = Fin.ofNat '\n'.toNat ∨
      d = Fin.ofNat '\r'.toNat) :
    mainLoop (fuel + 1) (d :: post) out =
      { written := out ++ print (cstr "y\r\nohhhhhh!\r\n"), ret := some 420 } := by
  have hne : d ≠ 0 := decisive_ne_zero (by
    unfold decisive
    rcases hd with h | h | h | h
    · exact Or.inl h
    · exact Or.inr (Or.inl h)
    · exact Or.inr (Or.inr (Or.inl h))
    · exact Or.inr (Or.inr (Or.inr (Or.inl h))))
  rw [mainLoop, inkey_nonzero d post hne]
  exact if_pos hd

theorem mainLoop_no (fuel : Nat) (d : Fin 256) (post out : List (Fin 256))
    (hd : d = Fin.ofNat 'n'.toNat ∨ d = Fin.ofNat 'N'.toNat) :
    mainLoop (fuel + 1) (d :: post) out =
      { written := out ++ print (cstr "n\r\n:<\r\n"), ret := some 696969 } := by
  have hne : d ≠ 0 := decisive_ne_zero (by
    unfold decisive
    rcases hd with h | h
    · exact Or.inr (Or.inr (Or.inr (Or.inr (Or.inl h))))
    · exact Or.inr (Or.inr (Or.inr (Or.inr (Or.inr h)))))
  have hny : ¬ (d = Fin.ofNat 'y'.toNat ∨ d = Fin.ofNat 'Y'.toNat ∨
      d = Fin.ofNat '\n'.toNat ∨ d = Fin.ofNat '\r'.toNat) := by
    rcases hd with h | h <;> subst h <;> decide
  rw [mainLoop, inkey_nonzero d post hne]
  exact (if_neg hny).trans (if_pos hd)

theorem mainLoop_skip (fuel : Nat) (x : Fin 256) (reads out : List (Fin 256))
    (hx : ¬ decisive x) :
    mainLoop (fuel + 1) (x :: reads) out = mainLoop fuel reads out ∨
      mainLoop (fuel + 1) (x :: reads) out = mainLoop (fuel + 1) reads out := by
  by_cases h0 : x = 0
  · subst h0
    exact Or.inr (mainLoop_zero reads out (fuel + 1))
  · left
    have hny : ¬ (x = Fin.ofNat 'y'.toNat ∨ x = Fin.ofNat 'Y'.toNat ∨
        x = Fin.ofNat '\n'.toNat ∨ x = Fin.ofNat '\r'.toNat) := by
      intro h
      apply hx
      unfold decisive
      rcases h with h | h | h | h
      · exact Or.inl h
      · exact Or.inr (Or.inl h)
      · exact Or.inr (Or.inr (Or.inl h))
      · exact Or.inr (Or.inr (Or.inr (Or.inl h)))
    have hnn : ¬ (x = Fin.ofNat 'n'.toNat ∨ x = Fin.ofNat 'N'.toNat) := by
      intro h
      apply hx
      unfold decisive
      rcases h with h | h
      · exact Or.inr (Or.inr (Or.inr (Or.inr (Or.inl h))))
      · exact Or.inr (Or.inr (Or.inr (Or.inr (Or.inr h))))
    rw [mainLoop, inkey_nonzero x reads h0]
    exact (if_neg hny).trans (if_neg hnn)

/-- Enough fuel: the loop skips `pre` and acts on what follows as with any
fuel that is left. -/
theorem mainLoop_pre (reads out : List (Fin 256)) :
    ∀ (pre : List (Fin 256)) (fuel : Nat), pre.length < fuel →
      (∀ x ∈ pre, ¬ decisive x) →
      ∃ fuel', 0 < fuel' ∧ mainLoop fuel (pre ++ reads) out = mainLoop fuel' reads out
  | [], fuel, hf, _ => ⟨fuel, hf, rfl⟩
  | x :: pre, fuel, hf, hp => by
    obtain ⟨f, rfl⟩ : ∃ f, fuel = f + 1 := ⟨fuel - 1, by simp at hf; omega⟩
    have hx : ¬ decisive x := hp x (List.mem_cons_self x pre)
    have hp' : ∀ y ∈ pre, ¬ decisive y := fun y hy => hp y (List.mem_cons_of_mem x hy)
    rw [List.cons_append]
    rcases mainLoop_skip f x (pre ++ reads) out hx with h | h
    · rw [h]
      exact mainLoop_pre reads out pre f (by simp at hf; omega) hp'
    · rw [h]
      exact mainLoop_pre reads out pre (f + 1) (by simp at hf; omega) hp'

theorem mainLoop_none (out : List (Fin 256)) :
    ∀ (reads : List (Fin 256)) (fuel : Nat), (∀ x ∈ reads, ¬ decisive x) →
      mainLoop fuel reads out = { written := out, ret := none }
  | _, 0, _ => rfl
  | [], _ + 1, _ => rfl
  | x :: reads, fuel + 1, hp => by
    have hx : ¬ decisive x := hp x (List.mem_cons_self x reads)
    have hp' : ∀ y ∈ reads, ¬ decisive y := fun y hy => hp y (List.mem_cons_of_mem x hy)
    rcases mainLoop_skip fuel x reads out hx with h | h
    · rw [h]; exact mainLoop_none out reads fuel hp'
    · rw [h]; exact mainLoop_none out reads (fuel + 1) hp'

end FirmwareFacts

/-! ## The claim on the firmware -/

section FirmwareClaims

open Firmware

set_option maxRecDepth 100000 in
theorem print_query :
    print (cstr "i am ur princess\r\nagreed? [Yn] ") =
      cstr "i am ur princess\r\nagreed? [Yn] " := by
  decide

theorem print_yes : print (cstr "y\r\nohhhhhh!\r\n") = cstr "y\r\nohhhhhh!\r\n" := by
  decide

theorem print_no : print (cstr "n\r\n:<\r\n") = cstr "n\r\n:<\r\n" := by
  decide

theorem example_loads_skipped :
    ∀ x ∈ ([0, 0, Fin.ofNat '1'.toNat] : List (Fin 256)), ¬ decisive x := by
  intro x hx
  simp only [List.mem_cons, List.mem_singleton, List.not_mem_nil, or_false] at hx
  rcases hx with h | h | h <;> subst h <;> decide

set_option maxRecDepth 100000 in
theorem harness_input_skipped : ∀ x ∈ cstr "1234567890", ¬ decisive x := by
  decide

/-- C18: the question/answer protocol of the firmware. For every sequence of
values loaded from the UART register, `main` first stores the bytes of
`"i am ur princess\r\nagreed? [Yn] "`; it skips every loaded value that is
zero or is none of `y`, `Y`, `n`, `N`, CR, LF (the values `pre`); on the first
value `d` that is one of those it stores exactly `"y\r\nohhhhhh!\r\n"` and
returns 420 when `d` is `y`, `Y`, LF or CR, and stores exactly
`"n\r\n:<\r\n"` and returns 696969 when `d` is `n` or `N`; while no such
value has been loaded it has stored the question only and has not returned.
The harness input `"1234567890y"` gives the answer `"y\r\nohhhhhh!\r\n"`. -/
theorem C18_firmware_protocol (pre post : List (Fin 256)) (d : Fin 256)
    (hpre : ∀ x ∈ pre, ¬ decisive x) :
    ((d = Fin.ofNat 'y'.toNat ∨ d = Fin.ofNat 'Y'.toNat ∨ d = Fin.ofNat '\n'.toNat ∨
          d = Fin.ofNat '\r'.toNat) →
        Firmware.main (pre ++ d :: post) =
          { written := cstr "i am ur princess\r\nagreed? [Yn] " ++ cstr "y\r\nohhhhhh!\r\n",
            ret := some 420 }) ∧
      ((d = Fin.ofNat 'n'.toNat ∨ d = Fin.ofNat 'N'.toNat) →
        Firmware.main (pre ++ d :: post) =
          { written := cstr "i am ur princess\r\nagreed? [Yn] " ++ cstr "n\r\n:<\r\n",
            ret := some 696969 }) ∧
      Firmware.main pre =
        { written := cstr "i am ur princess\r\nagreed? [Yn] ", ret := none } ∧
      Firmware.main (cstr "1234567890y") =
        { written := cstr "i am ur princess\r\nagreed? [Yn] " ++ cstr "y\r\nohhhhhh!\r\n",
          ret := some 420 } ∧
      ¬ decisive 0 := by
  have hfuel : ∀ (p q : List (Fin 256)) (x : Fin 256),
      p.length < (p ++ x :: q).length + 1 := by
    intro p q x
    rw [List.length_append, List.length_cons]
    omega
  have hyes : ∀ (p q : List (Fin 256)) (x : Fin 256), (∀ y ∈ p, ¬ decisive y) →
      (x = Fin.ofNat 'y'.toNat ∨ x = Fin.ofNat 'Y'.toNat ∨ x = Fin.ofNat '\n'.toNat ∨
        x = Fin.ofNat '\r'.toNat) →
      Firmware.main (p ++ x :: q) =
        { written := cstr "i am ur princess\r\nagreed? [Yn] " ++ cstr "y\r\nohhhhhh!\r\n",
          ret := some 420 } := by
    intro p q x hp hx
    unfold Firmware.main
    obtain ⟨f, hf, e⟩ := mainLoop_pre (x :: q) (print (cstr "i am ur princess\r\nagreed? [Yn] "))
      p _ (hfuel p q x) hp
    obtain ⟨g, rfl⟩ : ∃ g, f = g + 1 := ⟨f - 1, by omega⟩
    rw [e, mainLoop_yes g x q _ hx, print_query, print_yes]
  refine ⟨hyes pre post d hpre, fun hd => ?_, ?_, ?_, by decide⟩
  · unfold Firmware.main
    obtain ⟨f, hf, e⟩ := mainLoop_pre (d :: post)
      (print (cstr "i am ur princess\r\nagreed? [Yn] ")) pre _ (hfuel pre post d) hpre
    obtain ⟨g, rfl⟩ : ∃ g, f = g + 1 := ⟨f - 1, by omega⟩
    rw [e, mainLoop_no g d post _ hd, print_query, print_no]
  · unfold Firmware.main
    rw [mainLoop_none _ pre _ hpre, print_query]
  · exact hyes (cstr "1234567890") [] (Fin.ofNat 'y'.toNat) harness_input_skipped (Or.inl rfl)

/-- Witness of C18: two zero loads and a `1` are skipped, then `N` is
answered. -/
theorem C18_firmware_protocol_witness :
    (∀ x ∈ ([0, 0, Fin.ofNat '1'.toNat] : List (Fin 256)), ¬ decisive x) ∧
      Firmware.main ([0, 0, Fin.ofNat '1'.toNat] ++ Fin.ofNat 'N'.toNat :: [Fin.ofNat 'y'.toNat]) =
        { written := cstr "i am ur princess\r\nagreed? [Yn] " ++ cstr "n\r\n:<\r\n",
          ret := some 696969 } :=
  ⟨example_loads_skipped,
    (C18_firmware_protocol [0, 0, Fin.ofNat '1'.toNat] [Fin.ofNat 'y'.toNat]
      (Fin.ofNat 'N'.toNat) example_loads_skipped).2.1 (Or.inr rfl)⟩

end FirmwareClaims

end Sae
